import Mathlib

/-!
# Session store of the Mmakwany site logic (`site-logic.js`, module `Auth`)

A shallow embedding of the `Auth` object of `src/site/public/site-logic.js`
and of the page code around it: the redeem click of the points shop, the
booking click of the room-booking page, the profile editor, the guest-dashboard
logout, the image replacement, the countdown of the event-coordinator page and
the counter animation of the admin dashboard.

Modelling boundary.
* JavaScript values are the type `Val`: the JSON values plus `undefined`.
  Numbers are integers (the only numbers the module handles are the point
  balance and `Date.now()`); objects are association lists of own enumerable
  data properties in insertion order (the engine lists integer-like keys
  first; the lists here are compared as written and no statement relies on
  that reordering).  Prototype chains, accessors and functions are outside
  the embedding.
* A `localStorage` cell holds text.  It is represented by what `JSON.parse`
  makes of that text: `Cell.malformed` (a `SyntaxError`) or `Cell.wellFormed v`.
  `JSON.stringify` drops `undefined` properties and writes `undefined` array
  elements as `null` (`jsonClean`).  Storage quota is not modelled.
* The clock is read by the caller of each operation and passed in: `nowMs` is
  the reading of `Date.now()`, `nowIso` that of `new Date().toISOString()`.
* Handlers are modelled up to their return: toasts, markup and timers set for
  later are left out, and what a handler reads from the page (texts of
  elements, values of inputs) is an argument.  Of the markup only the three
  fields of the profile dialog are modelled, as the values the HTML parser
  reads from the spliced `value="..."` attributes.
* The cost of a redeem click is the double `parseInt` returns: the integer
  written by the digits, rounded to nearest, ties to even (`toDouble`).
* The price slider of the room filters (lines 870-899) is left out: its handle
  positions are double-precision values rounded at every step, and integers
  do not carry that arithmetic.
-/

namespace Mmakwany

/-- JavaScript values handled by the module. -/
inductive Val where
  | undefined
  | null
  | bool (b : Bool)
  | num (n : Int)
  | str (s : String)
  | arr (xs : List Val)
  | obj (ps : List (String × Val))
  deriving Repr, Inhabited

/-- Errors a JavaScript operation can throw. -/
inductive JsError where
  | syntaxError
  | typeError
  | rangeError
  deriving Repr, DecidableEq

/-- JavaScript `ToBoolean`. -/
def truthy : Val → Bool
  | .undefined => false
  | .null => false
  | .bool b => b
  | .num n => n != 0
  | .str s => s != ""
  | .arr _ => true
  | .obj _ => true

/-- JavaScript `a || b`. -/
def jsOr (a b : Val) : Val := if truthy a then a else b

/-- Whether a value is `undefined`. -/
def isUndefined : Val → Bool
  | .undefined => true
  | _ => false

/-- Whether a value is `null`. -/
def isNull : Val → Bool
  | .null => true
  | _ => false

/-- Read of an own property from a property list (`undefined` when missing). -/
def getProp : List (String × Val) → String → Val
  | [], _ => .undefined
  | (k, v) :: ps, key => if k = key then v else getProp ps key

/-- Write of an own data property: an existing key keeps its position, a new
key is added at the end. -/
def setProp : List (String × Val) → String → Val → List (String × Val)
  | [], key, v => [(key, v)]
  | (k, x) :: ps, key, v => if k = key then (k, v) :: ps else (k, x) :: setProp ps key v

/-- Property read `v.key`: objects give their own property; numbers, booleans,
strings and arrays have no property of the names read here (`bookings`,
`tickets`, `id`, `points` and the fields of the two records).  It is applied
to values other than `null` and `undefined` only, on which the read would
throw (see `readProp`). -/
def member (v : Val) (key : String) : Val :=
  match v with
  | .obj ps => getProp ps key
  | _ => .undefined

/-- Index keys `"0"`, `"1"`, ... paired with the elements of a list, from `i`. -/
def indexed : Nat → List Val → List (String × Val)
  | _, [] => []
  | i, x :: xs => (toString i, x) :: indexed (i + 1) xs

/-- Own enumerable properties of a value, as copied by `Object.assign` and by
object spread. -/
def ownProps : Val → List (String × Val)
  | .obj ps => ps
  | .arr xs => indexed 0 xs
  | .str s => indexed 0 (s.data.map (fun c => Val.str (String.singleton c)))
  | _ => []

/-- Writes every property of `src` into `dst`, left to right. -/
def assignProps (dst src : List (String × Val)) : List (String × Val) :=
  src.foldl (fun acc p => setProp acc p.1 p.2) dst

/-- Object spread `{ ...v }`: a fresh object with the own enumerable
properties of `v`. -/
def spread (v : Val) : List (String × Val) := assignProps [] (ownProps v)

/-- The array index a property key denotes, if it is a canonical one. -/
def arrayIndex? (key : String) : Option Nat :=
  match key.toNat? with
  | some n => if toString n = key ∧ n < 4294967295 then some n else none
  | none => none

/-- An array cut or padded with holes to length `n`. -/
def resize (xs : List Val) (n : Nat) : List Val :=
  xs.take n ++ List.replicate (n - xs.length) Val.undefined

mutual
/-- JavaScript `String(v)`; an object without a `toString` of its own gives
`[object Object]`, an array gives its elements joined by commas. -/
def toText : Val → String
  | .undefined => "undefined"
  | .null => "null"
  | .bool b => if b then "true" else "false"
  | .num n => toString n
  | .str s => s
  | .arr xs => joinText xs
  | .obj _ => "[object Object]"
/-- The call `xs.join(",")`: `null` and `undefined` elements give the empty
text. -/
def joinText : List Val → String
  | [] => ""
  | x :: xs =>
    (if isUndefined x || isNull x then "" else toText x) ++
      (match xs with
       | [] => ""
       | _ :: _ => "," ++ joinText xs)
end

/-- The array length a text denotes, `none` when it denotes none.  Only the
empty text and plain runs of decimal digits are recognised as numeric. -/
def lengthOfText (s : String) : Option Nat :=
  if s = "" then some 0 else
    match s.toNat? with
    | some n => if n < 4294967296 then some n else none
    | none => none

/-- The length a value denotes when written to the `length` of an array;
`none` where the write throws a `RangeError`. -/
def toLength? : Val → Option Nat
  | .undefined => none
  | .null => some 0
  | .bool b => some (if b then 1 else 0)
  | .num n => if 0 ≤ n ∧ n < 4294967296 then some n.toNat else none
  | .str s => lengthOfText s
  | .arr xs => lengthOfText (joinText xs)
  | .obj _ => none

/-- Write of property `key` on an array: an index writes an element (padding
with holes), `length` resizes, any other key is an extra property that neither
`JSON.stringify` nor the module reads back. -/
def arraySet (xs : List Val) (key : String) (v : Val) : Except JsError (List Val) :=
  if key = "length" then
    match toLength? v with
    | some n => .ok (resize xs n)
    | none => .error .rangeError
  else
    match arrayIndex? key with
    | some i =>
      if i < xs.length then .ok (xs.set i v)
      else .ok (xs ++ List.replicate (i - xs.length) Val.undefined ++ [v])
    | none => .ok xs

/-- Whether a write of `key` on a string is rejected: its characters and its
`length` are read-only. -/
def stringRejects (s : String) (key : String) : Bool :=
  key = "length" ||
    (match arrayIndex? key with
     | some i => decide (i < s.length)
     | none => false)

/-- The call `Object.assign(target, source)`, giving the value the variable
holding `target` has afterwards.  A primitive target is wrapped, so the
variable keeps the primitive. -/
def objectAssign (target source : Val) : Except JsError Val :=
  match target with
  | .obj ps => .ok (.obj (assignProps ps (ownProps source)))
  | .arr xs =>
    ((ownProps source).foldlM (fun acc p => arraySet acc p.1 p.2) xs).map Val.arr
  | .str s =>
    if (ownProps source).any (fun p => stringRejects s p.1) then .error .typeError
    else .ok (.str s)
  | .num n => .ok (.num n)
  | .bool b => .ok (.bool b)
  | .null => .error .typeError
  | .undefined => .error .typeError

mutual
/-- What `JSON.parse (JSON.stringify v)` yields for a value other than
`undefined`: `undefined` properties are dropped, `undefined` array elements
become `null`. -/
def jsonClean : Val → Val
  | .arr xs => .arr (cleanElems xs)
  | .obj ps => .obj (cleanProps ps)
  | .undefined => .undefined
  | .null => .null
  | .bool b => .bool b
  | .num n => .num n
  | .str s => .str s
/-- Elements of an array as serialised. -/
def cleanElems : List Val → List Val
  | [] => []
  | x :: xs => (if isUndefined x then Val.null else jsonClean x) :: cleanElems xs
/-- Properties of an object as serialised. -/
def cleanProps : List (String × Val) → List (String × Val)
  | [] => []
  | (k, v) :: ps => if isUndefined v then cleanProps ps else (k, jsonClean v) :: cleanProps ps
end

mutual
/-- JSON-representable values: no `undefined` anywhere inside. -/
def isJSON : Val → Bool
  | .undefined => false
  | .arr xs => allJSON xs
  | .obj ps => allPropsJSON ps
  | _ => true
/-- Every element is JSON-representable. -/
def allJSON : List Val → Bool
  | [] => true
  | x :: xs => isJSON x && allJSON xs
/-- Every property value is JSON-representable. -/
def allPropsJSON : List (String × Val) → Bool
  | [] => true
  | (_, v) :: ps => isJSON v && allPropsJSON ps
end

/-- Content of a storage cell, by what `JSON.parse` makes of its text. -/
inductive Cell where
  | malformed (raw : String)
  | wellFormed (v : Val)
  deriving Repr

/-- The key-value store `localStorage`. -/
abbrev Storage := List (String × Cell)

/-- The call `localStorage.getItem(key)`; `none` is JavaScript `null`. -/
def getItem : Storage → String → Option Cell
  | [], _ => none
  | (k, c) :: st, key => if k = key then some c else getItem st key

/-- The call `localStorage.setItem(key, text)`. -/
def setItem : Storage → String → Cell → Storage
  | [], key, c => [(key, c)]
  | (k, x) :: st, key, c => if k = key then (k, c) :: st else (k, x) :: setItem st key c

/-- The call `localStorage.removeItem(key)`. -/
def removeItem : Storage → String → Storage
  | [], _ => []
  | (k, x) :: st, key => if k = key then removeItem st key else (k, x) :: removeItem st key

/-- The text produced by `JSON.stringify v`, as a cell.  `JSON.stringify
(undefined)` is `undefined`, which `setItem` stores as the text `undefined`. -/
def stringify (v : Val) : Cell :=
  if isUndefined v then .malformed "undefined" else .wellFormed (jsonClean v)

/-- The call `JSON.parse(x)` on the result of `getItem`: `null` is converted to
the text `null`, which parses to `null`. -/
def parse : Option Cell → Except JsError Val
  | none => .ok .null
  | some (.malformed _) => .error .syntaxError
  | some (.wellFormed v) => .ok v

/-- The statement `try { body } catch { handler }`. -/
def tryCatch {α : Type} (body : Except JsError α) (handler : JsError → Except JsError α) :
    Except JsError α :=
  match body with
  | .ok a => .ok a
  | .error e => handler e

/-- The browser state the module touches. -/
structure World where
  storage : Storage
  href : String
  deriving Repr

/-- Result of running an operation: the state it leaves and either the value
returned or the error thrown. -/
structure Run (α : Type) where
  world : World
  result : Except JsError α

namespace Auth

/-- The constant `Auth.KEY`. -/
def KEY : String := "mmakwany_user"

/-- The method `Auth.getUser` (lines 16-18):
`try { return JSON.parse(localStorage.getItem(this.KEY)); } catch { return null; }`. -/
def getUser (w : World) : Except JsError Val :=
  tryCatch (parse (getItem w.storage KEY)) (fun _ => .ok .null)

/-- The record built by `Auth.login` (lines 21-28). -/
def loginRecord (email name : Val) (nowIso : String) : Val :=
  .obj [("email", jsOr email (.str "guest@mmakwany.co.ke")),
        ("name", jsOr name (.str "Guest User")),
        ("points", .num 2450),
        ("memberSince", .str nowIso),
        ("bookings", .arr []),
        ("tickets", .arr [])]

/-- The method `Auth.login` (lines 20-31). -/
def login (w : World) (email name : Val) (nowIso : String) : Run Val :=
  let user := loginRecord email name nowIso
  { world := { w with storage := setItem w.storage KEY (stringify user) },
    result := .ok user }

/-- The method `Auth.logout` (lines 33-36). -/
def logout (w : World) : Run Unit :=
  { world := { storage := removeItem w.storage KEY, href := "index.html" },
    result := .ok () }

/-- The method `Auth.isLoggedIn` (lines 38-40). -/
def isLoggedIn (w : World) : Except JsError Bool :=
  match getUser w with
  | .ok user => .ok (truthy user)
  | .error e => .error e

/-- The method `Auth.updateUser` (lines 42-49). -/
def updateUser (w : World) (updates : Val) : Run Val :=
  match getUser w with
  | .error e => { world := w, result := .error e }
  | .ok user =>
    if truthy user then
      match objectAssign user updates with
      | .ok user1 =>
        { world := { w with storage := setItem w.storage KEY (stringify user1) },
          result := .ok user1 }
      | .error e => { world := w, result := .error e }
    else { world := w, result := .ok user }

/-- The statements `user[field] = user[field] || []; user[field].push(entry)`
of `addBooking` and `addTicket`, giving the value of `user` afterwards.  In
strict mode a property write on a primitive throws; so does a call of `push`
on a value that is not an array.  On an array the list lives in an extra
property, which `JSON.stringify` does not write. -/
def pushEntry (user : Val) (field : String) (entry : Val) : Except JsError Val :=
  match user with
  | .obj ps =>
    match jsOr (getProp ps field) (.arr []) with
    | .arr l => .ok (.obj (setProp ps field (.arr (l ++ [entry]))))
    | _ => .error .typeError
  | .arr xs => .ok (.arr xs)
  | _ => .error .typeError

/-- The entry `{ ...booking, id: 'BK-' + Date.now(), date: new Date().toISOString() }`. -/
def bookingEntry (booking : Val) (nowMs : Int) (nowIso : String) : Val :=
  .obj (setProp (setProp (spread booking) "id" (.str ("BK-" ++ toString nowMs)))
    "date" (.str nowIso))

/-- The entry `{ ...ticket, id: 'TK-' + Date.now() }`. -/
def ticketEntry (ticket : Val) (nowMs : Int) : Val :=
  .obj (setProp (spread ticket) "id" (.str ("TK-" ++ toString nowMs)))

/-- The method `Auth.addBooking` (lines 51-58). -/
def addBooking (w : World) (booking : Val) (nowMs : Int) (nowIso : String) : Run Unit :=
  match getUser w with
  | .error e => { world := w, result := .error e }
  | .ok user =>
    if truthy user then
      match pushEntry user "bookings" (bookingEntry booking nowMs nowIso) with
      | .ok user1 =>
        { world := { w with storage := setItem w.storage KEY (stringify user1) },
          result := .ok () }
      | .error e => { world := w, result := .error e }
    else { world := w, result := .ok () }

/-- The method `Auth.addTicket` (lines 60-67). -/
def addTicket (w : World) (ticket : Val) (nowMs : Int) : Run Unit :=
  match getUser w with
  | .error e => { world := w, result := .error e }
  | .ok user =>
    if truthy user then
      match pushEntry user "tickets" (ticketEntry ticket nowMs) with
      | .ok user1 =>
        { world := { w with storage := setItem w.storage KEY (stringify user1) },
          result := .ok () }
      | .error e => { world := w, result := .error e }
    else { world := w, result := .ok () }

/-- A run of `addBooking` calls, each with its input and its two clock
readings. -/
def addBookings (w : World) : List (Val × Int × String) → World
  | [] => w
  | (b, nowMs, nowIso) :: cs => addBookings (addBooking w b nowMs nowIso).world cs

/-- A run of `addTicket` calls, each with its input and its clock reading. -/
def addTickets (w : World) : List (Val × Int) → World
  | [] => w
  | (t, nowMs) :: cs => addTickets (addTicket w t nowMs).world cs

end Auth

/-- The expression `r.key` on the value an operation returned (`undefined`
when it threw). -/
def fieldOf (r : Except JsError Val) (key : String) : Val :=
  match r with
  | .ok v => member v key
  | .error _ => .undefined

/-- The `id` values of the entries of the list `r[field]`, in order. -/
def idsOf (r : Except JsError Val) (field : String) : List Val :=
  match fieldOf r field with
  | .arr l => l.map (fun e => member e "id")
  | _ => []

/-- Value denoted by a run of decimal digits. -/
def decodeDigits (cs : List Char) : Nat :=
  cs.foldl (fun a c => 10 * a + (c.toNat - 48)) 0

namespace Auth

/-- One call of a method of `Auth`, with its arguments and the clock readings
it makes. -/
inductive Call where
  | getUser
  | isLoggedIn
  | login (email name : Val) (nowIso : String)
  | logout
  | updateUser (updates : Val)
  | addBooking (booking : Val) (nowMs : Int) (nowIso : String)
  | addTicket (ticket : Val) (nowMs : Int)

/-- The browser state a call leaves.  `getUser` and `isLoggedIn` only read
(`getItem`); a call that throws leaves the state of the throw. -/
def worldAfter (w : World) : Call → World
  | .getUser => w
  | .isLoggedIn => w
  | .login email name nowIso => (login w email name nowIso).world
  | .logout => (logout w).world
  | .updateUser updates => (updateUser w updates).world
  | .addBooking booking nowMs nowIso => (addBooking w booking nowMs nowIso).world
  | .addTicket ticket nowMs => (addTicket w ticket nowMs).world

/-- The browser state after a sequence of calls, each issued from its own
event handler. -/
def worldAfterAll (w : World) : List Call → World
  | [] => w
  | c :: cs => worldAfterAll (worldAfter w c) cs

/-- Whether a call is neither `login` nor `logout` and, when it is
`updateUser`, has no field named `key` among its updates. -/
def Call.spares (key : String) : Call → Bool
  | .login _ _ _ => false
  | .logout => false
  | .updateUser updates => !(ownProps updates).any (fun p => p.1 == key)
  | _ => true

/-- The results of `n` consecutive `getUser()` calls, first call first. -/
def getUserTimes (w : World) : Nat → List (Except JsError Val)
  | 0 => []
  | n + 1 => getUser w :: getUserTimes (worldAfter w .getUser) n

end Auth

/-- The number a text denotes (`Number(s)`), `none` when it denotes none
(`NaN`).  Only the empty text and runs of decimal digits, with an optional
minus sign, are recognised as numeric. -/
def numberOfText (s : String) : Option Int :=
  match s.data with
  | [] => some 0
  | '-' :: ds =>
    if ds ≠ [] ∧ ds.all Char.isDigit then some (-(decodeDigits ds : Int)) else none
  | ds => if ds.all Char.isDigit then some (decodeDigits ds : Int) else none

/-- JavaScript `ToNumber`, `none` standing for `NaN`. -/
def toNumber? : Val → Option Int
  | .undefined => none
  | .null => some 0
  | .bool b => some (if b then 1 else 0)
  | .num n => some n
  | .str s => numberOfText s
  | .arr xs => numberOfText (joinText xs)
  | .obj _ => none

/-- How far a natural number must be shifted right to fit the 53 bits of a
double: the least `e` with `n / 2^e < 2^53` (the first argument bounds the
search). -/
def doubleShift : Nat → Nat → Nat
  | 0, _ => 0
  | fuel + 1, n => if n < 9007199254740992 then 0 else doubleShift fuel (n / 2) + 1

/-- The double nearest to the natural number `n`, ties going to the even
mantissa: the value of a number literal or of `parseInt` on the digits of `n`.
The overflow to `Infinity` beyond the largest double is not modelled; such a
cost, like the value given here, exceeds every stored number. -/
def toDouble (n : Nat) : Nat :=
  let e := doubleShift n n
  let q := n / 2 ^ e
  let r := n % 2 ^ e
  if 2 * r < 2 ^ e then q * 2 ^ e
  else if 2 * r > 2 ^ e then (q + 1) * 2 ^ e
  else if q % 2 = 0 then q * 2 ^ e else (q + 1) * 2 ^ e

/-- The call `parseInt(text.replace(/\D/g, ''))`: the number written by the
decimal digits of `text`, as a double, `none` (`NaN`) when it has no digit. -/
def parseIntOfDigits (text : String) : Option Int :=
  match text.data.filter Char.isDigit with
  | [] => none
  | d :: ds => some (toDouble (decodeDigits (d :: ds)) : Int)

/-- The constant `pointsCost` of the redeem handler (line 154):
`parseInt(btn.textContent.replace(/\D/g, '')) || 500`. -/
def pointsCost (buttonText : String) : Int :=
  match parseIntOfDigits buttonText with
  | some n => if n = 0 then 500 else n
  | none => 500

/-- The click handler of a `Redeem` / `Claim` button of the points shop (lines
142-164), up to its return.  Toasts, the button markup and the timer that
later navigates to the login page are not modelled. -/
def redeemClick (w : World) (buttonText : String) : Run Unit :=
  match Auth.getUser w with
  | .error e => { world := w, result := .error e }
  | .ok user =>
    if !truthy user then { world := w, result := .ok () }
    else
      match toNumber? (member user "points") with
      | some p =>
        if p ≥ pointsCost buttonText then
          let r := Auth.updateUser w (.obj [("points", .num (p - pointsCost buttonText))])
          { world := r.world, result := r.result.map (fun _ => ()) }
        else { world := w, result := .ok () }
      | none => { world := w, result := .ok () }

/-- The value of `element?.textContent`: the text, or `undefined` when there
is no element. -/
def textContent : Option String → Val
  | some s => .str s
  | none => .undefined

/-- The click handler of a `Book Now` / `Reserve` button of the room-booking
page (lines 115-124), up to its return; `title` and `price` are the texts of
the card heading and of its price element, when the card has them. -/
def roomBookingClick (w : World) (title price : Option String) (nowMs : Int)
    (nowIso : String) : Run Unit :=
  Auth.addBooking w
    (.obj [("type", .str "room"),
      ("title", jsOr (textContent title) (.str "Room")),
      ("price", jsOr (textContent price) (.str "KES 12,000")),
      ("status", .str "confirmed")]) nowMs nowIso

/-- A user action through which page code writes to the store. -/
inductive UiEvent where
  | redeem (buttonText : String)
  | bookRoom (title price : Option String) (nowMs : Int) (nowIso : String)

/-- The browser state after the handler of one user action. -/
def uiAfter (w : World) : UiEvent → World
  | .redeem buttonText => (redeemClick w buttonText).world
  | .bookRoom title price nowMs nowIso => (roomBookingClick w title price nowMs nowIso).world

/-- The browser state after a sequence of user actions. -/
def uiAfterAll (w : World) : List UiEvent → World
  | [] => w
  | e :: es => uiAfterAll (uiAfter w e) es

/-! ### Profile editor (`initProfileEditor`) and guest-dashboard logout -/

/-- The storage key of the profile editor. -/
def PROFILE_KEY : String := "mmakwanyProfile"

/-- Property read `v.key` with its completion: on `null` and `undefined` the
read throws a `TypeError`. -/
def readProp (v : Val) (key : String) : Except JsError Val :=
  match v with
  | .null => .error .typeError
  | .undefined => .error .typeError
  | _ => .ok (member v key)

/-- The expression `JSON.parse(localStorage.getItem('mmakwanyProfile') || '{}')`
(lines 1383 and 1431): a missing key and the empty text stand for `{}`; no
`catch` surrounds the parse. -/
def loadProfile (w : World) : Except JsError Val :=
  match getItem w.storage PROFILE_KEY with
  | none => .ok (.obj [])
  | some (.malformed raw) => if raw = "" then .ok (.obj []) else .error .syntaxError
  | some (.wellFormed v) => .ok v

/-- The object `defaultProfile` built when the page loads (lines 1383-1389). -/
def defaultProfile (w : World) : Except JsError Val :=
  match loadProfile w with
  | .error e => .error e
  | .ok profile =>
    match readProp profile "name" with
    | .error e => .error e
    | .ok name =>
      .ok (.obj [("name", jsOr name (.str "Guest User")),
        ("email", jsOr (member profile "email") (.str "guest@mmakwany.co.ke")),
        ("phone", jsOr (member profile "phone") (.str "+254 700 000 000")),
        ("avatar", jsOr (member profile "avatar") (.str ""))])

/-- What `openProfileModal` computes before it builds the dialog (lines
1431-1435): the parsed profile `p` and the values `n`, `em`, `ph`, `av` that
the dialog is filled with. -/
structure ProfileModal where
  p : Val
  name : Val
  email : Val
  phone : Val
  avatar : Val

/-- The function `openProfileModal` up to line 1435; `defaults` is the object
`defaultProfile` of the page load.  The fields that the markup built from the
values gives the dialog are `profNameValue`, `profEmailValue` and
`profPhoneValue`. -/
def openProfileModal (w : World) (defaults : Val) : Except JsError ProfileModal :=
  match loadProfile w with
  | .error e => .error e
  | .ok p =>
    match readProp p "name" with
    | .error e => .error e
    | .ok name =>
      .ok { p := p,
            name := jsOr name (member defaults "name"),
            email := jsOr (member p "email") (member defaults "email"),
            phone := jsOr (member p "phone") (member defaults "phone"),
            avatar := jsOr (member p "avatar") (.str "") }

/-- The characters removed by `String.prototype.trim`: white space and line
terminators. -/
def isJsSpace (c : Char) : Bool :=
  let n := c.toNat
  n == 9 || n == 10 || n == 11 || n == 12 || n == 13 || n == 32 || n == 160 ||
    n == 5760 || (8192 ≤ n && n ≤ 8202) || n == 8232 || n == 8233 || n == 8239 ||
    n == 8287 || n == 12288 || n == 65279

/-- The call `s.trim()`. -/
def jsTrim (s : String) : String :=
  String.mk ((s.data.dropWhile isJsSpace).reverse.dropWhile isJsSpace).reverse

/-- The value of `element.dataset.key`: the text, or `undefined` when the
attribute is not set. -/
def dataAttr : Option String → Val
  | some s => .str s
  | none => .undefined

/-- The record `saved` of the Save handler (line 1497). -/
def savedProfile (p : Val) (nameInput emailInput phoneInput : String)
    (uploaded : Option String) : Val :=
  .obj [("name", .str (jsTrim nameInput)), ("email", .str (jsTrim emailInput)),
    ("phone", .str (jsTrim phoneInput)),
    ("avatar", jsOr (jsOr (dataAttr uploaded) (member p "avatar")) (.str ""))]

/-- Whether the Save handler accepts the inputs (lines 1494-1495): the trimmed
name is not empty and the trimmed email is not empty and contains `@`. -/
def profileInputsValid (nameInput emailInput : String) : Bool :=
  jsTrim nameInput != "" && (jsTrim emailInput != "" && (jsTrim emailInput).data.contains '@')

/-- The click handler of `Save Profile` (lines 1488-1498), up to the write;
`p` is the profile parsed when the dialog was opened, the inputs are the
values of the three fields and `uploaded` the image chosen in the dialog, if
any.  Toasts and the page update that follow are not modelled. -/
def saveProfileClick (w : World) (p : Val) (nameInput emailInput phoneInput : String)
    (uploaded : Option String) : Run Unit :=
  if jsTrim nameInput = "" then { world := w, result := .ok () }
  else if jsTrim emailInput = "" ∨ ¬ (jsTrim emailInput).data.contains '@' then
    { world := w, result := .ok () }
  else
    { world :=
        { w with
          storage := setItem w.storage PROFILE_KEY
            (stringify (savedProfile p nameInput emailInput phoneInput uploaded)) },
      result := .ok () }

/-- The double quote, the character that closes a value written as
`value="..."`. -/
def doubleQuote : Char := Char.ofNat 34

/-- The value the HTML parser gives an attribute whose double-quoted value is
spliced from `text` without escaping (lines 1444 and 1456-1460): the characters
of `text` up to its first double quote, or all of `text` when it has none (the
quote that follows in the markup then closes the value).  The result is `none`
where that part holds `&`, which may start a character reference, or U+0000:
those readings are not modelled. -/
def splicedAttribute (text : String) : Option String :=
  let value := text.data.takeWhile (fun c => c != doubleQuote)
  if value.any (fun c => c == '&' || c.toNat == 0) then none else some (String.mk value)

/-- The value sanitisation of `input type="text"` and `type="tel"`: line feeds
and carriage returns are removed. -/
def stripNewlines (s : String) : String :=
  String.mk (s.data.filter (fun c => c.toNat != 10 && c.toNat != 13))

/-- The ASCII white space of HTML: tab, line feed, form feed, carriage return
and space. -/
def isAsciiSpace (c : Char) : Bool :=
  c.toNat == 9 || c.toNat == 10 || c.toNat == 12 || c.toNat == 13 || c.toNat == 32

/-- The value sanitisation of `input type="email"`: newlines are removed, then
leading and trailing ASCII white space. -/
def sanitizeEmail (s : String) : String :=
  String.mk (((stripNewlines s).data.dropWhile isAsciiSpace).reverse.dropWhile
    isAsciiSpace).reverse

/-- Whether a value spliced into a double-quoted attribute stays inside it: its
text has no double quote. -/
def staysInAttribute (v : Val) : Bool :=
  !(toText v).data.contains doubleQuote

/-- Whether the avatar markup of line 1444 leaves the markup after it in
place: `av` is falsy (a fixed `span` is written) or its text stays inside the
`src` attribute of the `img`. -/
def avatarMarkupClosed (m : ProfileModal) : Bool :=
  !truthy m.avatar || staysInAttribute m.avatar

/-- The value of the field `#prof-name` of the dialog built by lines
1437-1466, as the Save handler reads it (line 1489): `n` spliced into
`value="..."` of an `input type="text"`.  The result is `none` where an earlier
splice (the avatar) breaks out of its attribute, or the reading of the
attribute is not modelled. -/
def profNameValue (m : ProfileModal) : Option String :=
  if avatarMarkupClosed m then (splicedAttribute (toText m.name)).map stripNewlines else none

/-- The value of the field `#prof-email` (line 1490): `em` spliced into
`value="..."` of an `input type="email"`; `none` where an earlier splice (the
avatar or the name) breaks out of its attribute, or the reading is not
modelled. -/
def profEmailValue (m : ProfileModal) : Option String :=
  if avatarMarkupClosed m && staysInAttribute m.name then
    (splicedAttribute (toText m.email)).map sanitizeEmail
  else none

/-- The value of the field `#prof-phone` (line 1491): `ph` spliced into
`value="..."` of an `input type="tel"`; `none` where an earlier splice (the
avatar, the name or the email) breaks out of its attribute, or the reading is
not modelled. -/
def profPhoneValue (m : ProfileModal) : Option String :=
  if avatarMarkupClosed m && (staysInAttribute m.name && staysInAttribute m.email) then
    (splicedAttribute (toText m.phone)).map stripNewlines
  else none

/-- The click handler of the guest-dashboard `Logout` button (lines 362-368),
up to its return; `confirmed` is the answer to the `confirm` dialog.  The
timer that later navigates to the landing page is not modelled. -/
def dashboardLogoutClick (w : World) (confirmed : Bool) : World :=
  if confirmed then { w with storage := removeItem w.storage "nexusUser" } else w

/-! ### Image replacement (`replaceExternalImages`) -/

/-- An `img` element: its source address, its `alt` text (empty when the
attribute is missing) and its `data-alt` text, if set.  The resolved address
and the text of the `src` attribute are modelled by one string. -/
structure Img where
  src : String
  alt : String
  dataAlt : Option String

/-- The array `localImages` (lines 1033-1039). -/
def localImages : List String :=
  ["images/courtyard.jpeg", "images/restaurant.jpeg", "images/conference.jpeg",
   "images/guest-room.jpeg", "images/lounge.jpeg"]

/-- The entries of the object `contextMap` (lines 1042-1097), in the order
`Object.entries` lists them. -/
def contextMap : List (String × String) :=
  [("room", "images/guest-room.jpeg"), ("suite", "images/guest-room.jpeg"),
   ("hotel", "images/guest-room.jpeg"), ("bed", "images/guest-room.jpeg"),
   ("deluxe", "images/guest-room.jpeg"), ("executive", "images/guest-room.jpeg"),
   ("presidential", "images/guest-room.jpeg"), ("luxury", "images/guest-room.jpeg"),
   ("accommodation", "images/guest-room.jpeg"), ("housekeeping", "images/guest-room.jpeg"),
   ("dining", "images/restaurant.jpeg"), ("restaurant", "images/restaurant.jpeg"),
   ("food", "images/restaurant.jpeg"), ("meal", "images/restaurant.jpeg"),
   ("buffet", "images/restaurant.jpeg"), ("breakfast", "images/restaurant.jpeg"),
   ("lunch", "images/restaurant.jpeg"), ("dinner", "images/restaurant.jpeg"),
   ("pastry", "images/restaurant.jpeg"), ("gourmet", "images/restaurant.jpeg"),
   ("cocktail", "images/restaurant.jpeg"), ("champagne", "images/restaurant.jpeg"),
   ("catering", "images/restaurant.jpeg"), ("conference", "images/conference.jpeg"),
   ("meeting", "images/conference.jpeg"), ("hall", "images/conference.jpeg"),
   ("event", "images/conference.jpeg"), ("ballroom", "images/conference.jpeg"),
   ("projector", "images/conference.jpeg"), ("theater", "images/conference.jpeg"),
   ("boardroom", "images/conference.jpeg"), ("stage", "images/conference.jpeg"),
   ("pool", "images/courtyard.jpeg"), ("garden", "images/courtyard.jpeg"),
   ("outdoor", "images/courtyard.jpeg"), ("spa", "images/courtyard.jpeg"),
   ("wellness", "images/courtyard.jpeg"), ("infinity", "images/courtyard.jpeg"),
   ("panoramic", "images/courtyard.jpeg"), ("city", "images/courtyard.jpeg"),
   ("view", "images/courtyard.jpeg"), ("tour", "images/courtyard.jpeg"),
   ("park", "images/courtyard.jpeg"), ("nature", "images/courtyard.jpeg"),
   ("person", "images/lounge.jpeg"), ("staff", "images/lounge.jpeg"),
   ("portrait", "images/lounge.jpeg"), ("avatar", "images/lounge.jpeg"),
   ("team", "images/lounge.jpeg"), ("guest", "images/lounge.jpeg")]

/-- Whether a text begins with the pattern `pat`. -/
def startsWith : List Char → List Char → Bool
  | _, [] => true
  | [], _ :: _ => false
  | c :: cs, p :: ps => c == p && startsWith cs ps

/-- Whether the pattern `pat` occurs in a text. -/
def includesChars : List Char → List Char → Bool
  | [], pat => pat.isEmpty
  | c :: cs, pat => startsWith (c :: cs) pat || includesChars cs pat

/-- The call `s.includes(pat)`. -/
def jsIncludes (s pat : String) : Bool := includesChars s.data pat.data

/-- The call `s.toLowerCase()` as far as ASCII letters are concerned: the
letters `A`-`Z`, the Kelvin sign and the dotted capital I are the characters
whose lower-case form contains an ASCII letter; the other characters are left
as they are, which does not change where an ASCII word occurs. -/
def jsLower (s : String) : String :=
  String.mk (s.data.flatMap (fun c =>
    if c.toNat = 8490 then ['k']
    else if c.toNat = 304 then ['i', Char.ofNat 775]
    else [c.toLower]))

/-- The selector `img[src*="googleusercontent"], img[src*="lh3.google"]` of
the fallback (line 1109). -/
def matchesFallbackSelector (img : Img) : Bool :=
  jsIncludes img.src "googleusercontent" || jsIncludes img.src "lh3.google"

/-- The test of the replacement loop (line 1117). -/
def isExternal (src : String) : Bool :=
  jsIncludes src "googleusercontent" || jsIncludes src "lh3.google" ||
    jsIncludes src "aida-public"

/-- The call `Array.from(allImages).indexOf(imgElement)` for the element at
position `i` of the document: its rank among the elements the fallback
selector matches, `-1` when the selector does not match it. -/
def fallbackIndex (doc : List Img) (i : Nat) : Int :=
  match doc.get? i with
  | some img =>
    if matchesFallbackSelector img then
      (((doc.take i).filter matchesFallbackSelector).length : Int)
    else -1
  | none => -1

/-- The element `xs[k]` of an array, `none` (`undefined`) when `k` is not one
of its indices. -/
def elementAt (xs : List String) (k : Int) : Option String :=
  if k < 0 then none else xs.get? k.toNat

/-- The function `getLocalImage` (lines 1099-1112) for the element at position
`i` of the document; `none` is `undefined`. -/
def getLocalImage (doc : List Img) (i : Nat) : Option String :=
  match doc.get? i with
  | none => none
  | some img =>
    let context := jsLower img.alt ++ " " ++ jsLower (img.dataAlt.getD "")
    match contextMap.find? (fun kv => jsIncludes context kv.1) with
    | some kv => some kv.2
    | none => elementAt localImages (Int.tmod (fallbackIndex doc i) (localImages.length : Int))

/-- One step of the loop of lines 1115-1122: the element at position `i` gets
a new source when its source is external; assigning `undefined` to `src`
stores the text `undefined`. -/
def replaceImageAt (doc : List Img) (i : Nat) : List Img :=
  match doc.get? i with
  | none => doc
  | some img =>
    if isExternal img.src then
      doc.set i { img with src := (getLocalImage doc i).getD "undefined" }
    else doc

/-- The loop of `replaceExternalImages` over the `img` elements of the
document, in document order (lines 1115-1122). -/
def replaceExternalImages (doc : List Img) : List Img :=
  (List.range doc.length).foldl replaceImageAt doc

/-! ### Countdown and counter animation -/

/-- The countdown of the event-coordinator page: the seconds left and the
three numbers last written to the display. -/
structure Countdown where
  totalSeconds : Int
  h : Int
  m : Int
  s : Int

/-- One tick of the countdown (lines 1145-1152). -/
def countdownTick (c : Countdown) : Countdown :=
  if c.totalSeconds ≤ 0 then c
  else
    let t := c.totalSeconds - 1
    { totalSeconds := t,
      h := Int.fdiv t 3600,
      m := Int.fdiv (Int.tmod t 3600) 60,
      s := Int.tmod t 60 }

/-- The countdown after `n` ticks. -/
def countdownAfter (c : Countdown) : Nat → Countdown
  | 0 => c
  | n + 1 => countdownTick (countdownAfter c n)

/-- A counter animation of the admin dashboard: the value last displayed and
whether its interval is still set. -/
structure Kpi where
  current : Nat
  running : Bool

/-- The constant `step` (line 415): `Math.ceil(target / 40)`. -/
def kpiStep (target : Nat) : Nat := (target + 39) / 40

/-- One tick of the animation (lines 418-422); a cleared interval ticks no
more. -/
def kpiTick (target : Nat) (k : Kpi) : Kpi :=
  if k.running then
    if k.current + kpiStep target ≥ target then { current := target, running := false }
    else { current := k.current + kpiStep target, running := true }
  else k

/-- The animation after `n` ticks from its start at 0. -/
def kpiAfter (target : Nat) : Nat → Kpi
  | 0 => { current := 0, running := true }
  | n + 1 => kpiTick target (kpiAfter target n)

/-! ## Lemmas on storage, property lists and serialisation -/

theorem getItem_setItem_same (st : Storage) (key : String) (c : Cell) :
    getItem (setItem st key c) key = some c := by
  induction st with
  | nil => simp [setItem, getItem]
  | cons p st ih =>
    obtain ⟨k, x⟩ := p
    by_cases h : k = key
    · simp [setItem, getItem, h]
    · simp [setItem, getItem, h, ih]

theorem getItem_removeItem_same (st : Storage) (key : String) :
    getItem (removeItem st key) key = none := by
  induction st with
  | nil => simp [removeItem, getItem]
  | cons p st ih =>
    obtain ⟨k, x⟩ := p
    by_cases h : k = key
    · simp [removeItem, h, ih]
    · simp [removeItem, getItem, h, ih]

theorem getProp_setProp (ps : List (String × Val)) (key key2 : String) (v : Val) :
    getProp (setProp ps key v) key2 = if key = key2 then v else getProp ps key2 := by
  induction ps with
  | nil => simp [setProp, getProp]
  | cons p ps ih =>
    obtain ⟨k, x⟩ := p
    by_cases h : k = key
    · subst h
      by_cases h2 : k = key2 <;> simp [setProp, getProp, h2]
    · by_cases h2 : k = key2
      · subst h2
        have : ¬ key = k := fun e => h e.symm
        simp [setProp, getProp, h, this]
      · simp [setProp, getProp, h, h2, ih]

mutual
theorem jsonClean_of_isJSON : ∀ v : Val, isJSON v = true → jsonClean v = v
  | .undefined, h => by simp [isJSON] at h
  | .null, _ => by simp [jsonClean]
  | .bool _, _ => by simp [jsonClean]
  | .num _, _ => by simp [jsonClean]
  | .str _, _ => by simp [jsonClean]
  | .arr xs, h => by
    simp only [isJSON] at h
    simp [jsonClean, cleanElems_of_allJSON xs h]
  | .obj ps, h => by
    simp only [isJSON] at h
    simp [jsonClean, cleanProps_of_allPropsJSON ps h]
theorem cleanElems_of_allJSON : ∀ xs : List Val, allJSON xs = true → cleanElems xs = xs
  | [], _ => by simp [cleanElems]
  | x :: xs, h => by
    simp only [allJSON, Bool.and_eq_true] at h
    have hx : isUndefined x = false := by
      cases x <;> simp [isUndefined, isJSON] at h ⊢
    simp [cleanElems, hx, jsonClean_of_isJSON x h.1, cleanElems_of_allJSON xs h.2]
theorem cleanProps_of_allPropsJSON :
    ∀ ps : List (String × Val), allPropsJSON ps = true → cleanProps ps = ps
  | [], _ => by simp [cleanProps]
  | (k, v) :: ps, h => by
    simp only [allPropsJSON, Bool.and_eq_true] at h
    have hx : isUndefined v = false := by
      cases v <;> simp [isUndefined, isJSON] at h ⊢
    simp [cleanProps, hx, jsonClean_of_isJSON v h.1, cleanProps_of_allPropsJSON ps h.2]
end


theorem allPropsJSON_setProp (ps : List (String × Val)) (key : String) (v : Val)
    (hps : allPropsJSON ps = true) (hv : isJSON v = true) :
    allPropsJSON (setProp ps key v) = true := by
  induction ps with
  | nil => simp [setProp, allPropsJSON, hv]
  | cons p ps ih =>
    obtain ⟨k, x⟩ := p
    simp only [allPropsJSON, Bool.and_eq_true] at hps
    by_cases h : k = key
    · simp [setProp, h, allPropsJSON, hv, hps.2]
    · simp [setProp, h, allPropsJSON, hps.1, ih hps.2]

theorem allPropsJSON_assignProps (src dst : List (String × Val))
    (hdst : allPropsJSON dst = true) (hsrc : allPropsJSON src = true) :
    allPropsJSON (assignProps dst src) = true := by
  induction src generalizing dst with
  | nil => simpa [assignProps] using hdst
  | cons p src ih =>
    obtain ⟨k, x⟩ := p
    simp only [allPropsJSON, Bool.and_eq_true] at hsrc
    have := ih (setProp dst k x) (allPropsJSON_setProp dst k x hdst hsrc.1) hsrc.2
    simpa [assignProps] using this

theorem getProp_assignProps_of_not_mem (src dst : List (String × Val)) (key : String)
    (h : key ∉ src.map Prod.fst) :
    getProp (assignProps dst src) key = getProp dst key := by
  induction src generalizing dst with
  | nil => simp [assignProps]
  | cons p src ih =>
    obtain ⟨k, x⟩ := p
    simp only [List.map_cons, List.mem_cons, not_or] at h
    have h1 : ¬ k = key := fun e => h.1 e.symm
    have := ih (setProp dst k x) h.2
    simp only [assignProps, List.foldl_cons] at this ⊢
    rw [this, getProp_setProp]
    simp [h1]

theorem getProp_of_not_mem (ps : List (String × Val)) (key : String)
    (h : key ∉ ps.map Prod.fst) : getProp ps key = .undefined := by
  induction ps with
  | nil => simp [getProp]
  | cons p ps ih =>
    obtain ⟨k, x⟩ := p
    simp only [List.map_cons, List.mem_cons, not_or] at h
    have h1 : ¬ k = key := fun e => h.1 e.symm
    simp [getProp, h1, ih h.2]

theorem getProp_assignProps_of_mem (src dst : List (String × Val)) (key : String)
    (hnd : (src.map Prod.fst).Nodup) (h : key ∈ src.map Prod.fst) :
    getProp (assignProps dst src) key = getProp src key := by
  induction src generalizing dst with
  | nil => simp at h
  | cons p src ih =>
    obtain ⟨k, x⟩ := p
    simp only [List.map_cons, List.nodup_cons] at hnd
    simp only [List.map_cons, List.mem_cons] at h
    by_cases hk : k = key
    · subst hk
      have := getProp_assignProps_of_not_mem src (setProp dst k x) k hnd.1
      simp only [assignProps, List.foldl_cons] at this ⊢
      rw [this, getProp_setProp]
      simp [getProp]
    · have hmem : key ∈ src.map Prod.fst := by
        rcases h with h | h
        · exact absurd h.symm hk
        · exact h
      have := ih (setProp dst k x) hnd.2 hmem
      simp only [assignProps, List.foldl_cons] at this ⊢
      rw [this]
      simp [getProp, hk]

theorem isJSON_getProp (ps : List (String × Val)) (key : String)
    (hps : allPropsJSON ps = true) (h : key ∈ ps.map Prod.fst) :
    isJSON (getProp ps key) = true := by
  induction ps with
  | nil => simp at h
  | cons p ps ih =>
    obtain ⟨k, x⟩ := p
    simp only [allPropsJSON, Bool.and_eq_true] at hps
    simp only [List.map_cons, List.mem_cons] at h
    by_cases hk : k = key
    · simp [getProp, hk, hps.1]
    · have hmem : key ∈ ps.map Prod.fst := by
        rcases h with h | h
        · exact absurd h.symm hk
        · exact h
      simp [getProp, hk, ih hps.2 hmem]



theorem digitChar_value (d : Nat) (h : d < 10) :
    (Nat.digitChar d).toNat - 48 = d ∧ Nat.digitChar d ≠ '-' := by
  interval_cases d <;> exact ⟨by decide, by decide⟩

theorem toDigitsCore_decode (fuel : Nat) : ∀ (n : Nat) (ds : List Char), n < fuel →
    ∃ pre, Nat.toDigitsCore 10 fuel n ds = pre ++ ds ∧ decodeDigits pre = n ∧
      ∀ c ∈ pre, c ≠ '-' := by
  induction fuel with
  | zero => intro n ds h; omega
  | succ fuel ih =>
    intro n ds h
    have hd := digitChar_value (n % 10) (Nat.mod_lt _ (by decide))
    by_cases h0 : n / 10 = 0
    · refine ⟨[Nat.digitChar (n % 10)], ?_, ?_, ?_⟩
      · simp [Nat.toDigitsCore, h0]
      · have : n % 10 = n := by omega
        simp only [decodeDigits, List.foldl_cons, List.foldl_nil, hd.1]
        omega
      · intro c hc
        simp only [List.mem_singleton] at hc
        rw [hc]; exact hd.2
    · obtain ⟨pre, h1, h2, h3⟩ := ih (n / 10) (Nat.digitChar (n % 10) :: ds) (by omega)
      refine ⟨pre ++ [Nat.digitChar (n % 10)], ?_, ?_, ?_⟩
      · simp [Nat.toDigitsCore, h0, h1]
      · simp only [decodeDigits] at h2
        simp only [decodeDigits, List.foldl_append, List.foldl_cons, List.foldl_nil, h2, hd.1]
        omega
      · intro c hc
        simp only [List.mem_append, List.mem_singleton] at hc
        rcases hc with hc | hc
        · exact h3 c hc
        · rw [hc]; exact hd.2

theorem natRepr_spec (n : Nat) :
    decodeDigits (toString n).data = n ∧ ∀ c ∈ (toString n).data, c ≠ '-' := by
  obtain ⟨pre, h1, h2, h3⟩ := toDigitsCore_decode (n + 1) n [] (by omega)
  have : (toString n).data = pre := by
    show (Nat.repr n).data = pre
    simp [Nat.repr, Nat.toDigits, h1, List.asString]
  rw [this]
  exact ⟨h2, h3⟩

theorem natToString_injective (m n : Nat) (h : toString m = toString n) : m = n := by
  have hm := (natRepr_spec m).1
  rw [h, (natRepr_spec n).1] at hm
  exact hm.symm

theorem intToString_injective (a b : Int) (h : toString a = toString b) : a = b := by
  have key : ∀ (m k : Nat), toString (Int.ofNat m) ≠ toString (Int.negSucc k) := by
    intro m k e
    have e1 : (toString m).data = ("-" ++ toString (k + 1)).data := congrArg String.data e
    have hmem : '-' ∈ (toString m).data := by
      rw [e1]; simp
    exact (natRepr_spec m).2 _ hmem rfl
  cases a with
  | ofNat m =>
    cases b with
    | ofNat n =>
      have : toString m = toString n := h
      rw [natToString_injective m n this]
    | negSucc k => exact absurd h (key m k)
  | negSucc j =>
    cases b with
    | ofNat n => exact absurd h.symm (key n j)
    | negSucc k =>
      have e1 : ("-" ++ toString (j + 1)).data = ("-" ++ toString (k + 1)).data :=
        congrArg String.data h
      simp only [String.data_append, List.append_cancel_left_eq] at e1
      have e2 : toString (j + 1) = toString (k + 1) := String.ext e1
      have := natToString_injective _ _ e2
      have : j = k := by omega
      rw [this]

theorem tagged_injective (p : String) (a b : Int)
    (h : p ++ toString a = p ++ toString b) : a = b := by
  have e1 := congrArg String.data h
  simp only [String.data_append, List.append_cancel_left_eq] at e1
  exact intToString_injective a b (String.ext e1)

open Auth

/-! ## Claims on the session store -/

/-- C1 (as stated, refuted): `login('', 'A')` does not return a record whose
email is the supplied empty string; its email is the default address. -/
theorem login_empty_email_not_kept :
    (login ⟨[], ""⟩ (.str "") (.str "A") "2026-01-01T00:00:00.000Z").result =
        .ok (.obj [("email", .str "guest@mmakwany.co.ke"), ("name", .str "A"),
          ("points", .num 2450), ("memberSince", .str "2026-01-01T00:00:00.000Z"),
          ("bookings", .arr []), ("tickets", .arr [])]) ∧
      (login ⟨[], ""⟩ (.str "") (.str "A") "2026-01-01T00:00:00.000Z").result ≠
        .ok (.obj [("email", .str ""), ("name", .str "A"),
          ("points", .num 2450), ("memberSince", .str "2026-01-01T00:00:00.000Z"),
          ("bookings", .arr []), ("tickets", .arr [])]) := by
  constructor
  · rfl
  · simp [login, loginRecord, jsOr, truthy]

/-- C1 (amended): for every non-empty email and name, `login` succeeds and
returns the record with that email and name, 2450 points, `memberSince` the
current time and empty bookings and tickets; an argument that is missing or
the empty string is replaced by its default; and after
`login('guest@mmakwany.co.ke', 'Guest User')` the call `getUser()` gives
points 2450 and bookings `[]`. -/
theorem login_returns_fresh_record (w : World) (email name nowIso : String)
    (he : email ≠ "") (hn : name ≠ "") :
    (login w (.str email) (.str name) nowIso).result =
        .ok (.obj [("email", .str email), ("name", .str name), ("points", .num 2450),
          ("memberSince", .str nowIso), ("bookings", .arr []), ("tickets", .arr [])]) ∧
      (login w .undefined (.str name) nowIso).result =
        .ok (.obj [("email", .str "guest@mmakwany.co.ke"), ("name", .str name),
          ("points", .num 2450), ("memberSince", .str nowIso), ("bookings", .arr []),
          ("tickets", .arr [])]) ∧
      (login w (.str email) .undefined nowIso).result =
        .ok (.obj [("email", .str email), ("name", .str "Guest User"),
          ("points", .num 2450), ("memberSince", .str nowIso), ("bookings", .arr []),
          ("tickets", .arr [])]) ∧
      (login w (.str "") (.str "") nowIso).result =
        .ok (.obj [("email", .str "guest@mmakwany.co.ke"), ("name", .str "Guest User"),
          ("points", .num 2450), ("memberSince", .str nowIso), ("bookings", .arr []),
          ("tickets", .arr [])]) ∧
      fieldOf (getUser (login w (.str "guest@mmakwany.co.ke") (.str "Guest User")
        nowIso).world) "points" = .num 2450 ∧
      fieldOf (getUser (login w (.str "guest@mmakwany.co.ke") (.str "Guest User")
        nowIso).world) "bookings" = .arr [] := by
  have he2 : (email != "") = true := by simpa using he
  have hn2 : (name != "") = true := by simpa using hn
  refine ⟨?_, ?_, ?_, ?_, ?_, ?_⟩
  · simp [login, loginRecord, jsOr, truthy, he2, hn2]
  · simp [login, loginRecord, jsOr, truthy, hn2]
  · simp [login, loginRecord, jsOr, truthy, he2]
  · simp [login, loginRecord, jsOr, truthy]
  · simp [login, getUser, getItem_setItem_same, parse, tryCatch, stringify, loginRecord,
      jsOr, truthy, isUndefined, jsonClean, cleanProps, cleanElems, fieldOf, member, getProp]
  · simp [login, getUser, getItem_setItem_same, parse, tryCatch, stringify, loginRecord,
      jsOr, truthy, isUndefined, jsonClean, cleanProps, cleanElems, fieldOf, member, getProp]

/-- Witness for C1: the login `login('a@x.com', 'A')` on empty storage. -/
theorem login_returns_fresh_record_witness :
    ("a@x.com" ≠ "" ∧ "A" ≠ "") ∧
      (login ⟨[], ""⟩ (.str "a@x.com") (.str "A") "2026-01-01T00:00:00.000Z").result =
        .ok (.obj [("email", .str "a@x.com"), ("name", .str "A"), ("points", .num 2450),
          ("memberSince", .str "2026-01-01T00:00:00.000Z"), ("bookings", .arr []),
          ("tickets", .arr [])]) :=
  ⟨⟨by decide, by decide⟩,
    (login_returns_fresh_record ⟨[], ""⟩ "a@x.com" "A" "2026-01-01T00:00:00.000Z"
      (by decide) (by decide)).1⟩

/-- C2: `getUser()` returns `null` when the session key holds no record and
when it holds text that `JSON.parse` rejects, and for every storage state it
completes normally (the `catch` absorbs every error). -/
theorem getUser_null_when_absent_or_malformed (w : World) :
    (getItem w.storage KEY = none → getUser w = .ok .null) ∧
      (∀ raw, getItem w.storage KEY = some (.malformed raw) → getUser w = .ok .null) ∧
      (∀ e, parse (getItem w.storage KEY) = .error e → getUser w = .ok .null) ∧
      (∃ v, getUser w = .ok v) := by
  refine ⟨?_, ?_, ?_, ?_⟩
  · intro h; simp [getUser, h, parse, tryCatch]
  · intro raw h; simp [getUser, h, parse, tryCatch]
  · intro e h; simp [getUser, h, tryCatch]
  · unfold getUser tryCatch
    cases parse (getItem w.storage KEY) with
    | ok v => exact ⟨v, rfl⟩
    | error e => exact ⟨.null, rfl⟩

/-- Witness for C2: a session key holding the text `not json`. -/
theorem getUser_null_when_absent_or_malformed_witness :
    getItem [(KEY, Cell.malformed "not json")] KEY = some (.malformed "not json") ∧
      getUser ⟨[(KEY, Cell.malformed "not json")], ""⟩ = .ok .null :=
  ⟨rfl, (getUser_null_when_absent_or_malformed ⟨[(KEY, Cell.malformed "not json")], ""⟩).2.1
    "not json" rfl⟩

/-- C3 (as stated, refuted): after `login('a@x.com', 'A')` and then
`login('', 'B')` the email read back is not the supplied empty string. -/
theorem relogin_empty_email_not_kept :
    fieldOf (getUser (login (login ⟨[], ""⟩ (.str "a@x.com") (.str "A")
      "2026-01-01T00:00:00.000Z").world (.str "") (.str "B")
      "2026-01-02T00:00:00.000Z").world) "email" ≠ .str "" := by
  simp [login, getUser, setItem, getItem, parse, tryCatch, stringify, loginRecord,
    jsOr, truthy, isUndefined, jsonClean, cleanProps, cleanElems, fieldOf, member, getProp]

/-- C3 (amended): for every prior storage state, after `login(e2, n2)` the
session key holds exactly the record that login built and returned, whatever
was stored before; `getUser()` gives empty bookings and tickets, and gives
email `e2` when `e2` is not the empty string (an empty one is replaced by the
default).  After `login('a@x.com','A')` and `login('b@y.com','B')` the email is
`b@y.com`. -/
theorem login_replaces_session (w : World) (e2 n2 nowIso : String) :
    getUser (login w (.str e2) (.str n2) nowIso).world =
        (login w (.str e2) (.str n2) nowIso).result ∧
      getItem (login w (.str e2) (.str n2) nowIso).world.storage KEY =
        some (.wellFormed (loginRecord (.str e2) (.str n2) nowIso)) ∧
      (∀ w2 : World, getUser (login w (.str e2) (.str n2) nowIso).world =
        getUser (login w2 (.str e2) (.str n2) nowIso).world) ∧
      fieldOf (getUser (login w (.str e2) (.str n2) nowIso).world) "bookings" = .arr [] ∧
      fieldOf (getUser (login w (.str e2) (.str n2) nowIso).world) "tickets" = .arr [] ∧
      fieldOf (getUser (login w (.str e2) (.str n2) nowIso).world) "memberSince" =
        .str nowIso ∧
      (e2 ≠ "" →
        fieldOf (getUser (login w (.str e2) (.str n2) nowIso).world) "email" = .str e2) ∧
      fieldOf (getUser (login (login w (.str "a@x.com") (.str "A") nowIso).world
        (.str "b@y.com") (.str "B") nowIso).world) "email" = .str "b@y.com" := by
  have hclean : ∀ (e n : String),
      stringify (loginRecord (.str e) (.str n) nowIso) =
        .wellFormed (loginRecord (.str e) (.str n) nowIso) := by
    intro e n
    by_cases h1 : e = "" <;> by_cases h2 : n = "" <;>
      simp [stringify, loginRecord, jsOr, truthy, isUndefined, jsonClean, cleanProps,
        cleanElems, h1, h2]
  have hget : ∀ (w1 : World) (e n : String),
      getUser (login w1 (.str e) (.str n) nowIso).world =
        .ok (loginRecord (.str e) (.str n) nowIso) := by
    intro w1 e n
    simp [login, getUser, getItem_setItem_same, hclean, parse, tryCatch]
  refine ⟨?_, ?_, ?_, ?_, ?_, ?_, ?_, ?_⟩
  · rw [hget]; rfl
  · simp [login, getItem_setItem_same, hclean]
  · intro w2; rw [hget, hget]
  · rw [hget]; simp [fieldOf, member, loginRecord, getProp]
  · rw [hget]; simp [fieldOf, member, loginRecord, getProp]
  · rw [hget]; simp [fieldOf, member, loginRecord, getProp]
  · intro he
    have he2 : (e2 != "") = true := by simpa using he
    rw [hget]; simp [fieldOf, member, loginRecord, getProp, jsOr, truthy, he2]
  · rw [hget]; simp [fieldOf, member, loginRecord, getProp, jsOr, truthy]

/-- Witness for C3: `login('b@y.com', 'B')` over the session left by
`login('a@x.com', 'A')`. -/
theorem login_replaces_session_witness :
    "b@y.com" ≠ "" ∧
      fieldOf (getUser (login (login ⟨[], ""⟩ (.str "a@x.com") (.str "A")
        "2026-01-01T00:00:00.000Z").world (.str "b@y.com") (.str "B")
        "2026-01-02T00:00:00.000Z").world) "email" = .str "b@y.com" :=
  ⟨by decide,
    (login_replaces_session (login ⟨[], ""⟩ (.str "a@x.com") (.str "A")
      "2026-01-01T00:00:00.000Z").world "b@y.com" "B" "2026-01-02T00:00:00.000Z").2.2.2.2.2.2.1
      (by decide)⟩

/-- C4: for every storage state, `logout()` completes normally, leaves no
record under the session key, makes `isLoggedIn()` false and `getUser()`
absent, and sets the navigation target to `index.html`; in particular so
after any login. -/
theorem logout_clears_session (w : World) :
    (logout w).result = .ok () ∧
      getItem (logout w).world.storage KEY = none ∧
      isLoggedIn (logout w).world = .ok false ∧
      getUser (logout w).world = .ok .null ∧
      (logout w).world.href = "index.html" ∧
      (∀ (email name : Val) (nowIso : String),
        getUser (logout (login w email name nowIso).world).world = .ok .null ∧
        isLoggedIn (logout (login w email name nowIso).world).world = .ok false) := by
  have hget : ∀ w1 : World, getUser (logout w1).world = .ok .null := by
    intro w1
    simp [logout, getUser, getItem_removeItem_same, parse, tryCatch]
  refine ⟨rfl, ?_, ?_, hget w, rfl, ?_⟩
  · simp [logout, getItem_removeItem_same]
  · simp [isLoggedIn, hget, truthy]
  · intro email name nowIso
    simp [isLoggedIn, hget, truthy]

/-- C5 (as stated, refuted): with the text `0` under the session key,
`getUser()` returns the number 0, which is not `null`, yet `isLoggedIn()` is
false. -/
theorem isLoggedIn_false_on_present_zero :
    ¬ (isLoggedIn ⟨[(KEY, Cell.wellFormed (.num 0))], ""⟩ = .ok true ↔
      ∃ v, getUser ⟨[(KEY, Cell.wellFormed (.num 0))], ""⟩ = .ok v ∧ v ≠ .null) := by
  intro h
  have h1 : isLoggedIn ⟨[(KEY, Cell.wellFormed (.num 0))], ""⟩ = .ok true :=
    h.2 ⟨.num 0, rfl, by simp⟩
  simp [isLoggedIn, getUser, getItem, parse, tryCatch, truthy] at h1

/-- C5 (amended): for every storage state, `isLoggedIn()` is true if and only
if `getUser()` returns a truthy value, that is a value other than `null`,
`false`, `0` and the empty string (and `undefined`). -/
theorem isLoggedIn_iff_truthy (w : World) :
    isLoggedIn w = .ok true ↔
      ∃ v, getUser w = .ok v ∧ v ≠ .null ∧ v ≠ .undefined ∧ v ≠ .bool false ∧
        v ≠ .num 0 ∧ v ≠ .str "" := by
  unfold isLoggedIn
  cases hg : getUser w with
  | error e => simp
  | ok v =>
    cases v with
    | undefined => simp [truthy]
    | null => simp [truthy]
    | bool b => cases b <;> simp [truthy]
    | num n => simp [truthy]
    | str s => simp [truthy]
    | arr xs => simp [truthy]
    | obj ps => simp [truthy]

theorem isUndefined_of_isJSON (v : Val) (h : isJSON v = true) : isUndefined v = false := by
  cases v <;> simp [isUndefined, isJSON] at h ⊢

theorem isJSON_of_mem (ps : List (String × Val)) (p : String × Val)
    (hps : allPropsJSON ps = true) (hp : p ∈ ps) : isJSON p.2 = true := by
  induction ps with
  | nil => simp at hp
  | cons q ps ih =>
    obtain ⟨k, x⟩ := q
    simp only [allPropsJSON, Bool.and_eq_true] at hps
    rcases List.mem_cons.1 hp with h | h
    · rw [h]; exact hps.1
    · exact ih hps.2 h

theorem mem_setProp_of_ne (ps : List (String × Val)) (key : String) (v : Val)
    (p : String × Val) (hp : p ∈ setProp ps key v) (hne : p.1 ≠ key) : p ∈ ps := by
  induction ps with
  | nil =>
    simp only [setProp, List.mem_singleton] at hp
    rw [hp] at hne
    exact absurd rfl hne
  | cons q ps ih =>
    obtain ⟨k, x⟩ := q
    by_cases h : k = key
    · simp only [setProp, h, if_true, List.mem_cons] at hp
      rcases hp with hp | hp
      · rw [hp] at hne; exact absurd rfl hne
      · exact List.mem_cons_of_mem _ hp
    · simp only [setProp, h, if_false, List.mem_cons] at hp
      rcases hp with hp | hp
      · rw [hp]; exact List.mem_cons_self _ _
      · exact List.mem_cons_of_mem _ (ih hp)

theorem mem_assignProps_of_not_mem (src dst : List (String × Val)) (p : String × Val)
    (hp : p ∈ assignProps dst src) (hk : p.1 ∉ src.map Prod.fst) : p ∈ dst := by
  induction src generalizing dst with
  | nil => simpa [assignProps] using hp
  | cons q src ih =>
    obtain ⟨k, x⟩ := q
    simp only [List.map_cons, List.mem_cons, not_or] at hk
    have h1 : p ∈ setProp dst k x := ih (setProp dst k x) (by simpa [assignProps] using hp) hk.2
    exact mem_setProp_of_ne dst k x p h1 hk.1

theorem getProp_cleanProps (ps : List (String × Val)) (key : String)
    (h : ∀ p ∈ ps, p.1 = key → isUndefined p.2 = false) :
    getProp (cleanProps ps) key = jsonClean (getProp ps key) := by
  induction ps with
  | nil => simp [cleanProps, getProp, jsonClean]
  | cons q ps ih =>
    obtain ⟨k, x⟩ := q
    have ih2 := ih (fun p hp => h p (List.mem_cons_of_mem _ hp))
    by_cases hk : k = key
    · have hx : isUndefined x = false := h (k, x) (List.mem_cons_self _ _) hk
      simp [cleanProps, hx, getProp, hk]
    · by_cases hx : isUndefined x = true
      · simp [cleanProps, hx, getProp, hk, ih2]
      · simp [cleanProps, hx, getProp, hk, ih2]

/-- C6: for a session key holding a JSON object `r` and a JSON-representable
updates object `u`, `updateUser(u)` returns the merge of `r` with `u`, stores
it, and `getUser()` read next returns the same record; in the merge every key
of `u` has the value it has in `u` (no validation, no rejection) and every
other key has the value it has in `r`. -/
theorem updateUser_merges (w : World) (r us : List (String × Val))
    (hstored : getItem w.storage KEY = some (.wellFormed (.obj r)))
    (hr : isJSON (.obj r) = true) (hu : isJSON (.obj us) = true)
    (hnd : (us.map Prod.fst).Nodup) :
    (updateUser w (.obj us)).result = .ok (.obj (assignProps r us)) ∧
      getItem (updateUser w (.obj us)).world.storage KEY =
        some (.wellFormed (.obj (assignProps r us))) ∧
      getUser (updateUser w (.obj us)).world = (updateUser w (.obj us)).result ∧
      (∀ k ∈ us.map Prod.fst, getProp (assignProps r us) k = getProp us k) ∧
      (∀ k, k ∉ us.map Prod.fst → getProp (assignProps r us) k = getProp r k) := by
  simp only [isJSON] at hr hu
  have hm : isJSON (.obj (assignProps r us)) = true := by
    simp only [isJSON]; exact allPropsJSON_assignProps us r hr hu
  have hget : getUser w = .ok (.obj r) := by
    simp [getUser, hstored, parse, tryCatch]
  have hs : stringify (.obj (assignProps r us)) = .wellFormed (.obj (assignProps r us)) := by
    simp [stringify, isUndefined, jsonClean_of_isJSON _ hm]
  have hres : (updateUser w (.obj us)).result = .ok (.obj (assignProps r us)) := by
    simp [updateUser, hget, truthy, objectAssign, ownProps]
  have hsto : getItem (updateUser w (.obj us)).world.storage KEY =
      some (.wellFormed (.obj (assignProps r us))) := by
    simp [updateUser, hget, truthy, objectAssign, ownProps, getItem_setItem_same, hs]
  refine ⟨hres, hsto, ?_, ?_, ?_⟩
  · rw [hres]
    simp [getUser, hsto, parse, tryCatch]
  · intro k hk
    exact getProp_assignProps_of_mem us r k hnd hk
  · intro k hk
    exact getProp_assignProps_of_not_mem us r k hk

/-- Witness for C6: `updateUser({points: 1950, phone: '0700'})` on a stored
record with an email and 2450 points. -/
theorem updateUser_merges_witness :
    (updateUser ⟨[(KEY, Cell.wellFormed (.obj [("email", .str "a@x.com"),
        ("points", .num 2450)]))], ""⟩
      (.obj [("points", .num 1950), ("phone", .str "0700")])).result =
      .ok (.obj [("email", .str "a@x.com"), ("points", .num 1950),
        ("phone", .str "0700")]) :=
  (updateUser_merges ⟨[(KEY, Cell.wellFormed (.obj [("email", .str "a@x.com"),
      ("points", .num 2450)]))], ""⟩
    [("email", .str "a@x.com"), ("points", .num 2450)]
    [("points", .num 1950), ("phone", .str "0700")] rfl rfl rfl (by decide)).1

/-- C7: for a session key holding a JSON object `r` and any updates `u`, every
key that does not occur in `u` has, in the record stored by `updateUser(u)`,
the value it has in `r`.  On a fresh session with 2450 points,
`updateUser({points: 1950})` changes the points only. -/
theorem updateUser_keeps_other_fields (w : World) (r : List (String × Val)) (u : Val)
    (k : String)
    (hstored : getItem w.storage KEY = some (.wellFormed (.obj r)))
    (hr : isJSON (.obj r) = true)
    (hk : k ∉ (ownProps u).map Prod.fst) :
    (∃ ps, getItem (updateUser w u).world.storage KEY = some (.wellFormed (.obj ps)) ∧
        getProp ps k = getProp r k) ∧
      fieldOf (getUser (updateUser w u).world) k = getProp r k ∧
      (∀ nowIso : String,
        getUser (updateUser (login w (.str "a@x.com") (.str "A") nowIso).world
          (.obj [("points", .num 1950)])).world =
        .ok (.obj [("email", .str "a@x.com"), ("name", .str "A"), ("points", .num 1950),
          ("memberSince", .str nowIso), ("bookings", .arr []), ("tickets", .arr [])])) := by
  simp only [isJSON] at hr
  have hget : getUser w = .ok (.obj r) := by
    simp [getUser, hstored, parse, tryCatch]
  have hsto : getItem (updateUser w u).world.storage KEY =
      some (.wellFormed (.obj (cleanProps (assignProps r (ownProps u))))) := by
    simp [updateUser, hget, truthy, objectAssign, getItem_setItem_same, stringify,
      isUndefined, jsonClean]
  have hval : getProp (cleanProps (assignProps r (ownProps u))) k = getProp r k := by
    have hmem : ∀ p ∈ assignProps r (ownProps u), p.1 = k → isUndefined p.2 = false := by
      intro p hp hpk
      have hp2 : p ∈ r := mem_assignProps_of_not_mem (ownProps u) r p hp (by rw [hpk]; exact hk)
      exact isUndefined_of_isJSON _ (isJSON_of_mem r p hr hp2)
    rw [getProp_cleanProps _ _ hmem, getProp_assignProps_of_not_mem _ _ _ hk]
    by_cases hin : k ∈ r.map Prod.fst
    · exact jsonClean_of_isJSON _ (isJSON_getProp r k hr hin)
    · rw [getProp_of_not_mem r k hin]; simp [jsonClean]
  refine ⟨⟨_, hsto, hval⟩, ?_, ?_⟩
  · simp [getUser, hsto, parse, tryCatch, fieldOf, member, hval]
  · intro nowIso
    simp [login, updateUser, getUser, getItem_setItem_same, parse, tryCatch, stringify,
      loginRecord, jsOr, truthy, isUndefined, jsonClean, cleanProps, cleanElems,
      objectAssign, ownProps, assignProps, setProp]

/-- Witness for C7: the email of a stored record after
`updateUser({points: 1950})`. -/
theorem updateUser_keeps_other_fields_witness :
    fieldOf (getUser (updateUser ⟨[(KEY, Cell.wellFormed (.obj [("email", .str "a@x.com"),
        ("points", .num 2450)]))], ""⟩ (.obj [("points", .num 1950)])).world) "email" =
      .str "a@x.com" :=
  (updateUser_keeps_other_fields ⟨[(KEY, Cell.wellFormed (.obj [("email", .str "a@x.com"),
      ("points", .num 2450)]))], ""⟩ [("email", .str "a@x.com"), ("points", .num 2450)]
    (.obj [("points", .num 1950)]) "email" rfl rfl (by decide)).2.1

/-- C8: when `getUser()` is absent, `updateUser(u)` returns absent and
`addBooking(b)` and `addTicket(t)` return normally; none throws and each
leaves the browser state, storage included, exactly as it was. -/
theorem noop_without_session (w : World) (u b t : Val) (nowMs : Int) (nowIso : String)
    (h : getUser w = .ok .null) :
    (updateUser w u).result = .ok .null ∧ (updateUser w u).world = w ∧
      (addBooking w b nowMs nowIso).result = .ok () ∧
      (addBooking w b nowMs nowIso).world = w ∧
      (addTicket w t nowMs).result = .ok () ∧ (addTicket w t nowMs).world = w := by
  simp [updateUser, addBooking, addTicket, h, truthy]

/-- Witness for C8: empty storage, on which `getUser()` is absent. -/
theorem noop_without_session_witness :
    getUser ⟨[], ""⟩ = .ok .null ∧
      (addBooking ⟨[], ""⟩ (.obj [("type", .str "room")]) 1700000000000
        "2026-01-01T00:00:00.000Z").world = ⟨[], ""⟩ :=
  ⟨rfl, (noop_without_session ⟨[], ""⟩ (.obj [("points", .num 1)])
    (.obj [("type", .str "room")]) .null 1700000000000 "2026-01-01T00:00:00.000Z" rfl).2.2.2.1⟩

mutual
theorem isJSON_jsonClean : ∀ v : Val, isUndefined v = false → isJSON (jsonClean v) = true
  | .undefined, h => by simp [isUndefined] at h
  | .null, _ => by simp [jsonClean, isJSON]
  | .bool _, _ => by simp [jsonClean, isJSON]
  | .num _, _ => by simp [jsonClean, isJSON]
  | .str _, _ => by simp [jsonClean, isJSON]
  | .arr xs, _ => by simp [jsonClean, isJSON, allJSON_cleanElems xs]
  | .obj ps, _ => by simp [jsonClean, isJSON, allPropsJSON_cleanProps ps]
theorem allJSON_cleanElems : ∀ xs : List Val, allJSON (cleanElems xs) = true
  | [] => by simp [cleanElems, allJSON]
  | x :: xs => by
    by_cases hx : isUndefined x = true
    · simp [cleanElems, hx, allJSON, isJSON, allJSON_cleanElems xs]
    · have hx2 : isUndefined x = false := by simpa using hx
      simp [cleanElems, hx2, allJSON, isJSON_jsonClean x hx2, allJSON_cleanElems xs]
theorem allPropsJSON_cleanProps : ∀ ps : List (String × Val), allPropsJSON (cleanProps ps) = true
  | [] => by simp [cleanProps, allPropsJSON]
  | (k, v) :: ps => by
    by_cases hx : isUndefined v = true
    · simp [cleanProps, hx, allPropsJSON_cleanProps ps]
    · have hx2 : isUndefined v = false := by simpa using hx
      simp [cleanProps, hx2, allPropsJSON, isJSON_jsonClean v hx2, allPropsJSON_cleanProps ps]
end

theorem cleanElems_append (xs ys : List Val) :
    cleanElems (xs ++ ys) = cleanElems xs ++ cleanElems ys := by
  induction xs with
  | nil => simp [cleanElems]
  | cons x xs ih => simp [cleanElems, ih]

theorem cleanProps_setProp (r : List (String × Val)) (key : String) (v : Val)
    (hr : allPropsJSON r = true) (hv : isUndefined v = false) :
    cleanProps (setProp r key v) = setProp r key (jsonClean v) := by
  induction r with
  | nil => simp [setProp, cleanProps, hv]
  | cons q r ih =>
    obtain ⟨k, x⟩ := q
    simp only [allPropsJSON, Bool.and_eq_true] at hr
    have hx : isUndefined x = false := isUndefined_of_isJSON x hr.1
    by_cases h : k = key
    · simp [setProp, h, cleanProps, hv, cleanProps_of_allPropsJSON r hr.2]
    · simp [setProp, h, cleanProps, hx, jsonClean_of_isJSON x hr.1, ih hr.2]

theorem isJSON_getProp_of_defined (ps : List (String × Val)) (key : String)
    (hps : allPropsJSON ps = true) (h : isUndefined (getProp ps key) = false) :
    isJSON (getProp ps key) = true := by
  by_cases hin : key ∈ ps.map Prod.fst
  · exact isJSON_getProp ps key hps hin
  · rw [getProp_of_not_mem ps key hin] at h
    simp [isUndefined] at h

theorem stringify_pushEntry (r : List (String × Val)) (field : String) (l : List Val)
    (entry : Val) (hr : allPropsJSON r = true) (hl : getProp r field = .arr l)
    (he : isUndefined entry = false) :
    pushEntry (.obj r) field entry = .ok (.obj (setProp r field (.arr (l ++ [entry])))) ∧
      stringify (.obj (setProp r field (.arr (l ++ [entry])))) =
        .wellFormed (.obj (setProp r field (.arr (l ++ [jsonClean entry])))) ∧
      allPropsJSON (setProp r field (.arr (l ++ [jsonClean entry]))) = true := by
  have hlj : isJSON (.arr l) = true := by
    have := isJSON_getProp_of_defined r field hr (by rw [hl]; rfl)
    rwa [hl] at this
  simp only [isJSON] at hlj
  refine ⟨?_, ?_, ?_⟩
  · simp [pushEntry, hl, jsOr, truthy]
  · have hu : ∀ ps, isUndefined (Val.obj ps) = false := fun _ => rfl
    have hua : ∀ xs, isUndefined (Val.arr xs) = false := fun _ => rfl
    simp [stringify, hu, jsonClean, cleanProps_setProp r field _ hr (hua _), cleanElems_append,
      cleanElems_of_allJSON l hlj, cleanElems, he]
  · apply allPropsJSON_setProp r field _ hr
    simp only [isJSON]
    have : allJSON (cleanElems (l ++ [entry])) = true := allJSON_cleanElems _
    simpa [cleanElems_append, cleanElems_of_allJSON l hlj, cleanElems, he] using this

theorem addBooking_step (w : World) (r : List (String × Val)) (l : List Val) (b : Val)
    (nowMs : Int) (nowIso : String)
    (hstored : getItem w.storage KEY = some (.wellFormed (.obj r)))
    (hr : allPropsJSON r = true) (hl : getProp r "bookings" = .arr l) :
    addBooking w b nowMs nowIso =
      { world := { w with storage := setItem w.storage KEY (.wellFormed (.obj
          (setProp r "bookings" (.arr (l ++ [jsonClean (bookingEntry b nowMs nowIso)]))))) },
        result := .ok () } := by
  have hget : getUser w = .ok (.obj r) := by
    simp [getUser, hstored, parse, tryCatch]
  obtain ⟨h1, h2, _⟩ := stringify_pushEntry r "bookings" l (bookingEntry b nowMs nowIso) hr hl rfl
  simp [addBooking, hget, truthy, h1, h2]

theorem addTicket_step (w : World) (r : List (String × Val)) (l : List Val) (t : Val)
    (nowMs : Int)
    (hstored : getItem w.storage KEY = some (.wellFormed (.obj r)))
    (hr : allPropsJSON r = true) (hl : getProp r "tickets" = .arr l) :
    addTicket w t nowMs =
      { world := { w with storage := setItem w.storage KEY (.wellFormed (.obj
          (setProp r "tickets" (.arr (l ++ [jsonClean (ticketEntry t nowMs)]))))) },
        result := .ok () } := by
  have hget : getUser w = .ok (.obj r) := by
    simp [getUser, hstored, parse, tryCatch]
  obtain ⟨h1, h2, _⟩ := stringify_pushEntry r "tickets" l (ticketEntry t nowMs) hr hl rfl
  simp [addTicket, hget, truthy, h1, h2]

theorem allPropsJSON_indexed (xs : List Val) (i : Nat) (h : allJSON xs = true) :
    allPropsJSON (indexed i xs) = true := by
  induction xs generalizing i with
  | nil => simp [indexed, allPropsJSON]
  | cons x xs ih =>
    simp only [allJSON, Bool.and_eq_true] at h
    simp [indexed, allPropsJSON, h.1, ih (i + 1) h.2]

theorem allJSON_chars (cs : List Char) :
    allJSON (cs.map (fun c => Val.str (String.singleton c))) = true := by
  induction cs with
  | nil => simp [allJSON]
  | cons c cs ih => simp [allJSON, isJSON, ih]

theorem allPropsJSON_spread (b : Val) (h : isJSON b = true) :
    allPropsJSON (spread b) = true := by
  have hown : allPropsJSON (ownProps b) = true := by
    cases b with
    | undefined => simp [isJSON] at h
    | null => simp [ownProps, allPropsJSON]
    | bool _ => simp [ownProps, allPropsJSON]
    | num _ => simp [ownProps, allPropsJSON]
    | str s => exact allPropsJSON_indexed _ 0 (allJSON_chars _)
    | arr xs => exact allPropsJSON_indexed xs 0 (by simpa [isJSON] using h)
    | obj ps => simpa [isJSON, ownProps] using h
  exact allPropsJSON_assignProps _ [] (by simp [allPropsJSON]) hown

theorem jsonClean_bookingEntry (b : Val) (nowMs : Int) (nowIso : String)
    (h : isJSON b = true) :
    jsonClean (bookingEntry b nowMs nowIso) = bookingEntry b nowMs nowIso := by
  apply jsonClean_of_isJSON
  simp only [bookingEntry, isJSON]
  exact allPropsJSON_setProp _ _ _
    (allPropsJSON_setProp _ _ _ (allPropsJSON_spread b h) (by simp [isJSON])) (by simp [isJSON])

theorem jsonClean_ticketEntry (t : Val) (nowMs : Int) (h : isJSON t = true) :
    jsonClean (ticketEntry t nowMs) = ticketEntry t nowMs := by
  apply jsonClean_of_isJSON
  simp only [ticketEntry, isJSON]
  exact allPropsJSON_setProp _ _ _ (allPropsJSON_spread t h) (by simp [isJSON])

theorem keys_setProp (ps : List (String × Val)) (key : String) (v : Val) :
    (setProp ps key v).map Prod.fst =
      if key ∈ ps.map Prod.fst then ps.map Prod.fst else ps.map Prod.fst ++ [key] := by
  induction ps with
  | nil => simp [setProp]
  | cons q ps ih =>
    obtain ⟨k, x⟩ := q
    by_cases h : k = key
    · simp [setProp, h]
    · have h2 : ¬ key = k := fun e => h e.symm
      by_cases hin : key ∈ ps.map Prod.fst
      · simp only [setProp, h, if_false, List.map_cons, ih, hin, if_true, List.mem_cons, or_true]
      · simp only [setProp, h, if_false, List.map_cons, ih, hin, List.mem_cons, h2, or_self,
          List.cons_append]

theorem nodup_setProp (ps : List (String × Val)) (key : String) (v : Val)
    (h : (ps.map Prod.fst).Nodup) : ((setProp ps key v).map Prod.fst).Nodup := by
  rw [keys_setProp]
  by_cases hin : key ∈ ps.map Prod.fst
  · simpa [hin] using h
  · simp only [hin, if_false]
    exact List.Nodup.append h (List.nodup_singleton _) (by simpa using hin)

theorem nodup_assignProps (src dst : List (String × Val))
    (h : (dst.map Prod.fst).Nodup) : ((assignProps dst src).map Prod.fst).Nodup := by
  induction src generalizing dst with
  | nil => simpa [assignProps] using h
  | cons q src ih =>
    have := ih (setProp dst q.1 q.2) (nodup_setProp dst q.1 q.2 h)
    simpa [assignProps] using this

theorem getProp_of_mem_nodup (ps : List (String × Val)) (p : String × Val)
    (h : (ps.map Prod.fst).Nodup) (hp : p ∈ ps) : getProp ps p.1 = p.2 := by
  induction ps with
  | nil => simp at hp
  | cons q ps ih =>
    obtain ⟨k, x⟩ := q
    simp only [List.map_cons, List.nodup_cons] at h
    rcases List.mem_cons.1 hp with e | hmem
    · rw [e]; simp [getProp]
    · have hne : ¬ k = p.1 := by
        intro e
        apply h.1
        rw [e]
        exact List.mem_map_of_mem Prod.fst hmem
      simp [getProp, hne, ih h.2 hmem]

theorem getProp_cleanProps_nodup (ps : List (String × Val)) (key : String)
    (h : (ps.map Prod.fst).Nodup) (hd : isUndefined (getProp ps key) = false) :
    getProp (cleanProps ps) key = jsonClean (getProp ps key) := by
  apply getProp_cleanProps
  intro p hp hk
  have := getProp_of_mem_nodup ps p h hp
  rw [hk] at this
  rw [← this]; exact hd

theorem nodup_spread (b : Val) : ((spread b).map Prod.fst).Nodup :=
  nodup_assignProps _ [] (by simp)

theorem id_of_cleaned_bookingEntry (b : Val) (nowMs : Int) (nowIso : String) :
    member (jsonClean (bookingEntry b nowMs nowIso)) "id" = .str ("BK-" ++ toString nowMs) := by
  have hnd := nodup_setProp _ "date" (.str nowIso)
    (nodup_setProp _ "id" (.str ("BK-" ++ toString nowMs)) (nodup_spread b))
  have hval : getProp (setProp (setProp (spread b) "id" (.str ("BK-" ++ toString nowMs)))
      "date" (.str nowIso)) "id" = .str ("BK-" ++ toString nowMs) := by
    rw [getProp_setProp, getProp_setProp]; simp
  simp only [bookingEntry, jsonClean, member]
  rw [getProp_cleanProps_nodup _ _ hnd (by rw [hval]; rfl), hval]
  simp [jsonClean]

theorem id_of_cleaned_ticketEntry (t : Val) (nowMs : Int) :
    member (jsonClean (ticketEntry t nowMs)) "id" = .str ("TK-" ++ toString nowMs) := by
  have hnd := nodup_setProp _ "id" (.str ("TK-" ++ toString nowMs)) (nodup_spread t)
  have hval : getProp (setProp (spread t) "id" (.str ("TK-" ++ toString nowMs))) "id" =
      .str ("TK-" ++ toString nowMs) := by
    rw [getProp_setProp]; simp
  simp only [ticketEntry, jsonClean, member]
  rw [getProp_cleanProps_nodup _ _ hnd (by rw [hval]; rfl), hval]
  simp [jsonClean]

theorem bookings_after_addBookings (calls : List (Val × Int × String)) :
    ∀ (w : World) (r : List (String × Val)) (l : List Val),
      getItem w.storage KEY = some (.wellFormed (.obj r)) → allPropsJSON r = true →
      getProp r "bookings" = .arr l →
      fieldOf (getUser (addBookings w calls)) "bookings" =
        .arr (l ++ calls.map (fun c => jsonClean (bookingEntry c.1 c.2.1 c.2.2))) := by
  induction calls with
  | nil =>
    intro w r l hs _ hl
    simp [addBookings, getUser, hs, parse, tryCatch, fieldOf, member, hl]
  | cons c calls ih =>
    intro w r l hs hr hl
    obtain ⟨b, nowMs, nowIso⟩ := c
    have hstep := addBooking_step w r l b nowMs nowIso hs hr hl
    obtain ⟨_, _, hj⟩ := stringify_pushEntry r "bookings" l (bookingEntry b nowMs nowIso) hr hl rfl
    have := ih (addBooking w b nowMs nowIso).world _ (l ++ [jsonClean (bookingEntry b nowMs nowIso)])
      (by rw [hstep]; exact getItem_setItem_same _ _ _) hj (by rw [getProp_setProp]; simp)
    simpa [addBookings] using this

theorem tickets_after_addTickets (calls : List (Val × Int)) :
    ∀ (w : World) (r : List (String × Val)) (l : List Val),
      getItem w.storage KEY = some (.wellFormed (.obj r)) → allPropsJSON r = true →
      getProp r "tickets" = .arr l →
      fieldOf (getUser (addTickets w calls)) "tickets" =
        .arr (l ++ calls.map (fun c => jsonClean (ticketEntry c.1 c.2))) := by
  induction calls with
  | nil =>
    intro w r l hs _ hl
    simp [addTickets, getUser, hs, parse, tryCatch, fieldOf, member, hl]
  | cons c calls ih =>
    intro w r l hs hr hl
    obtain ⟨t, nowMs⟩ := c
    have hstep := addTicket_step w r l t nowMs hs hr hl
    obtain ⟨_, _, hj⟩ := stringify_pushEntry r "tickets" l (ticketEntry t nowMs) hr hl rfl
    have := ih (addTicket w t nowMs).world _ (l ++ [jsonClean (ticketEntry t nowMs)])
      (by rw [hstep]; exact getItem_setItem_same _ _ _) hj (by rw [getProp_setProp]; simp)
    simpa [addTickets] using this

theorem login_stored (w : World) (e n nowIso : String) :
    getItem (login w (.str e) (.str n) nowIso).world.storage KEY =
        some (.wellFormed (.obj [("email", jsOr (.str e) (.str "guest@mmakwany.co.ke")),
          ("name", jsOr (.str n) (.str "Guest User")), ("points", .num 2450),
          ("memberSince", .str nowIso), ("bookings", .arr []), ("tickets", .arr [])])) ∧
      allPropsJSON [("email", jsOr (.str e) (.str "guest@mmakwany.co.ke")),
          ("name", jsOr (.str n) (.str "Guest User")), ("points", .num 2450),
          ("memberSince", .str nowIso), ("bookings", .arr []), ("tickets", .arr [])] = true := by
  by_cases h1 : e = "" <;> by_cases h2 : n = "" <;>
    simp [login, getItem_setItem_same, stringify, loginRecord, jsOr, truthy, isUndefined,
      jsonClean, cleanProps, cleanElems, allPropsJSON, isJSON, allJSON, h1, h2]

/-- C9: for a session key holding a JSON object `r` whose bookings list is `l`
and every input `b`, `addBooking(b)` completes normally and stores `r` with
bookings `l ++ [e]`, the earlier entries unchanged and in order; `e` is the
entry built from `b` as serialised, which for a JSON-representable `b` is the
entry itself, carries the id `BK-` followed by the clock reading and the
creation date, and has every other field of `b`.  Two calls on a fresh session
leave two entries in call order. -/
theorem addBooking_appends (w : World) (r : List (String × Val)) (l : List Val) (b : Val)
    (nowMs : Int) (nowIso : String)
    (hstored : getItem w.storage KEY = some (.wellFormed (.obj r)))
    (hr : isJSON (.obj r) = true) (hl : getProp r "bookings" = .arr l) :
    (addBooking w b nowMs nowIso).result = .ok () ∧
      getItem (addBooking w b nowMs nowIso).world.storage KEY =
        some (.wellFormed (.obj (setProp r "bookings"
          (.arr (l ++ [jsonClean (bookingEntry b nowMs nowIso)]))))) ∧
      fieldOf (getUser (addBooking w b nowMs nowIso).world) "bookings" =
        .arr (l ++ [jsonClean (bookingEntry b nowMs nowIso)]) ∧
      (∀ k, k ≠ "bookings" →
        fieldOf (getUser (addBooking w b nowMs nowIso).world) k = getProp r k) ∧
      (isJSON b = true →
        jsonClean (bookingEntry b nowMs nowIso) = bookingEntry b nowMs nowIso) ∧
      member (bookingEntry b nowMs nowIso) "id" = .str ("BK-" ++ toString nowMs) ∧
      member (bookingEntry b nowMs nowIso) "date" = .str nowIso ∧
      (∀ (bs : List (String × Val)) (k : String), b = .obj bs → (bs.map Prod.fst).Nodup →
        k ≠ "id" → k ≠ "date" → member (bookingEntry b nowMs nowIso) k = getProp bs k) ∧
      (∀ (e n iso0 : String) (b2 : Val) (nowMs2 : Int) (nowIso2 : String),
        fieldOf (getUser (addBookings (login w (.str e) (.str n) iso0).world
          [(b, nowMs, nowIso), (b2, nowMs2, nowIso2)])) "bookings" =
        .arr [jsonClean (bookingEntry b nowMs nowIso),
          jsonClean (bookingEntry b2 nowMs2 nowIso2)]) := by
  simp only [isJSON] at hr
  have hstep := addBooking_step w r l b nowMs nowIso hstored hr hl
  have hsto : getItem (addBooking w b nowMs nowIso).world.storage KEY =
      some (.wellFormed (.obj (setProp r "bookings"
        (.arr (l ++ [jsonClean (bookingEntry b nowMs nowIso)]))))) := by
    rw [hstep]; exact getItem_setItem_same _ _ _
  have hget : getUser (addBooking w b nowMs nowIso).world =
      .ok (.obj (setProp r "bookings"
        (.arr (l ++ [jsonClean (bookingEntry b nowMs nowIso)])))) := by
    simp [getUser, hsto, parse, tryCatch]
  refine ⟨by rw [hstep], hsto, ?_, ?_, jsonClean_bookingEntry b nowMs nowIso, ?_, ?_, ?_, ?_⟩
  · rw [hget]; simp [fieldOf, member, getProp_setProp]
  · intro k hk
    have hk2 : ¬ "bookings" = k := fun e => hk e.symm
    rw [hget]; simp [fieldOf, member, getProp_setProp, hk2]
  · simp only [bookingEntry, member]
    rw [getProp_setProp, getProp_setProp]; simp
  · simp only [bookingEntry, member]
    rw [getProp_setProp]; simp
  · intro bs k hb hnd hid hdate
    have h1 : ¬ "id" = k := fun e => hid e.symm
    have h2 : ¬ "date" = k := fun e => hdate e.symm
    subst hb
    simp only [bookingEntry, member, spread, ownProps]
    rw [getProp_setProp, getProp_setProp]
    simp only [h1, h2, if_false]
    by_cases hin : k ∈ bs.map Prod.fst
    · exact getProp_assignProps_of_mem bs [] k hnd hin
    · rw [getProp_assignProps_of_not_mem bs [] k hin, getProp_of_not_mem bs k hin]
      rfl
  · intro e n iso0 b2 nowMs2 nowIso2
    obtain ⟨hs, hj⟩ := login_stored w e n iso0
    have := bookings_after_addBookings [(b, nowMs, nowIso), (b2, nowMs2, nowIso2)]
      (login w (.str e) (.str n) iso0).world _ [] hs hj (by simp [getProp])
    simpa using this

/-- Witness for C9: a room booking appended to a stored record that already
holds one booking. -/
theorem addBooking_appends_witness :
    fieldOf (getUser (addBooking ⟨[(KEY, Cell.wellFormed (.obj [("email", .str "a@x.com"),
        ("bookings", .arr [.obj [("id", .str "BK-1")]])]))], ""⟩
      (.obj [("type", .str "room")]) 2 "2026-01-01T00:00:00.000Z").world) "bookings" =
      .arr ([.obj [("id", .str "BK-1")]] ++
        [jsonClean (bookingEntry (.obj [("type", .str "room")]) 2
          "2026-01-01T00:00:00.000Z")]) :=
  (addBooking_appends ⟨[(KEY, Cell.wellFormed (.obj [("email", .str "a@x.com"),
      ("bookings", .arr [.obj [("id", .str "BK-1")]])]))], ""⟩
    [("email", .str "a@x.com"), ("bookings", .arr [.obj [("id", .str "BK-1")]])]
    [.obj [("id", .str "BK-1")]] (.obj [("type", .str "room")]) 2
    "2026-01-01T00:00:00.000Z" rfl rfl rfl).2.2.1

/-- C10 (as stated, refuted): two `addBooking` calls on a fresh session that
read the same clock value leave two entries with the same id. -/
theorem same_reading_same_booking_id :
    ¬ (idsOf (getUser (addBookings (login ⟨[], ""⟩ (.str "a@x.com") (.str "A")
      "2026-01-01T00:00:00.000Z").world
      [(.obj [("type", .str "room")], 1767225600000, "2026-01-01T00:00:00.000Z"),
       (.obj [("type", .str "room")], 1767225600000, "2026-01-01T00:00:00.000Z")]))
      "bookings").Nodup := by
  obtain ⟨hs, hj⟩ := login_stored ⟨[], ""⟩ "a@x.com" "A" "2026-01-01T00:00:00.000Z"
  have := bookings_after_addBookings
    [(.obj [("type", .str "room")], 1767225600000, "2026-01-01T00:00:00.000Z"),
     (.obj [("type", .str "room")], 1767225600000, "2026-01-01T00:00:00.000Z")]
    (login ⟨[], ""⟩ (.str "a@x.com") (.str "A") "2026-01-01T00:00:00.000Z").world _ [] hs hj
    (by simp [getProp])
  simp [idsOf, this]

/-- C10 (amended): the ids of the entries appended by a run of `addBooking`
(resp. `addTicket`) calls on a fresh session are `BK-` (resp. `TK-`) followed
by the clock reading of each call, in call order; they are pairwise distinct
if and only if the clock readings of the calls are pairwise distinct, so two
calls yield two distinct ids exactly when their readings differ. -/
theorem ids_distinct_iff_readings_distinct (w : World) (e n iso0 : String)
    (bookings : List (Val × Int × String)) (tickets : List (Val × Int)) :
    idsOf (getUser (addBookings (login w (.str e) (.str n) iso0).world bookings))
        "bookings" = bookings.map (fun c => Val.str ("BK-" ++ toString c.2.1)) ∧
      ((idsOf (getUser (addBookings (login w (.str e) (.str n) iso0).world bookings))
        "bookings").Nodup ↔ (bookings.map (fun c => c.2.1)).Nodup) ∧
      idsOf (getUser (addTickets (login w (.str e) (.str n) iso0).world tickets))
        "tickets" = tickets.map (fun c => Val.str ("TK-" ++ toString c.2)) ∧
      ((idsOf (getUser (addTickets (login w (.str e) (.str n) iso0).world tickets))
        "tickets").Nodup ↔ (tickets.map (fun c => c.2)).Nodup) := by
  obtain ⟨hs, hj⟩ := login_stored w e n iso0
  have hb := bookings_after_addBookings bookings
    (login w (.str e) (.str n) iso0).world _ [] hs hj (by simp [getProp])
  have ht := tickets_after_addTickets tickets
    (login w (.str e) (.str n) iso0).world _ [] hs hj (by simp [getProp])
  have hbi : idsOf (getUser (addBookings (login w (.str e) (.str n) iso0).world bookings))
      "bookings" = bookings.map (fun c => Val.str ("BK-" ++ toString c.2.1)) := by
    simp [idsOf, hb, id_of_cleaned_bookingEntry]
  have hti : idsOf (getUser (addTickets (login w (.str e) (.str n) iso0).world tickets))
      "tickets" = tickets.map (fun c => Val.str ("TK-" ++ toString c.2)) := by
    simp [idsOf, ht, id_of_cleaned_ticketEntry]
  have hinj : ∀ tag : String, Function.Injective (fun ms : Int => Val.str (tag ++ toString ms)) := by
    intro tag a b h
    exact tagged_injective tag a b (Val.str.inj h)
  refine ⟨hbi, ?_, hti, ?_⟩
  · rw [hbi]
    have : bookings.map (fun c => Val.str ("BK-" ++ toString c.2.1)) =
        (bookings.map (fun c => c.2.1)).map (fun ms : Int => Val.str ("BK-" ++ toString ms)) := by
      simp
    rw [this, List.nodup_map_iff (hinj "BK-")]
  · rw [hti]
    have : tickets.map (fun c => Val.str ("TK-" ++ toString c.2)) =
        (tickets.map (fun c => c.2)).map (fun ms : Int => Val.str ("TK-" ++ toString ms)) := by
      simp
    rw [this, List.nodup_map_iff (hinj "TK-")]

theorem getProp_cleanProps_of_not_mem (ps : List (String × Val)) (key : String)
    (h : key ∉ ps.map Prod.fst) : getProp (cleanProps ps) key = .undefined := by
  rw [getProp_cleanProps ps key, getProp_of_not_mem ps key h]
  · rfl
  · intro p hp hk
    exact absurd (hk ▸ List.mem_map_of_mem Prod.fst hp) h

theorem getProp_cleanProps_of_nodup (ps : List (String × Val)) (key : String)
    (h : (ps.map Prod.fst).Nodup) :
    getProp (cleanProps ps) key = jsonClean (getProp ps key) := by
  induction ps with
  | nil => simp [cleanProps, getProp, jsonClean]
  | cons q ps ih =>
    obtain ⟨k, x⟩ := q
    simp only [List.map_cons, List.nodup_cons] at h
    by_cases hk : k = key
    · by_cases hx : isUndefined x = true
      · have hx2 : x = .undefined := by
          cases x <;> simp [isUndefined] at hx ⊢
        have hnot : key ∉ ps.map Prod.fst := hk ▸ h.1
        subst hx2
        simp [cleanProps, isUndefined, getProp, hk,
          getProp_cleanProps_of_not_mem ps key hnot, jsonClean]
      · simp [cleanProps, hx, getProp, hk]
    · by_cases hx : isUndefined x = true
      · simp [cleanProps, hx, getProp, hk, ih h.2]
      · simp [cleanProps, hx, getProp, hk, ih h.2]

theorem getProp_spread_obj (bs : List (String × Val)) (key : String)
    (hnd : (bs.map Prod.fst).Nodup) : getProp (spread (.obj bs)) key = getProp bs key := by
  simp only [spread, ownProps]
  by_cases hin : key ∈ bs.map Prod.fst
  · exact getProp_assignProps_of_mem bs [] key hnd hin
  · rw [getProp_assignProps_of_not_mem bs [] key hin, getProp_of_not_mem bs key hin]
    rfl

/-- C11: for a session key holding a JSON object `r` whose tickets list is `l`
and every input `t`, `addTicket(t)` completes normally and stores `r` with
tickets `l ++ [e]`, the earlier tickets unchanged and in order, and with
bookings and every other field as before; `e` is the entry built from `t` as
serialised, which for a JSON-representable `t` is the entry itself: the fields
of `t` together with the id `TK-` followed by the clock reading. -/
theorem addTicket_appends (w : World) (r : List (String × Val)) (l : List Val) (t : Val)
    (nowMs : Int)
    (hstored : getItem w.storage KEY = some (.wellFormed (.obj r)))
    (hr : isJSON (.obj r) = true) (hl : getProp r "tickets" = .arr l) :
    (addTicket w t nowMs).result = .ok () ∧
      getItem (addTicket w t nowMs).world.storage KEY =
        some (.wellFormed (.obj (setProp r "tickets"
          (.arr (l ++ [jsonClean (ticketEntry t nowMs)]))))) ∧
      fieldOf (getUser (addTicket w t nowMs).world) "tickets" =
        .arr (l ++ [jsonClean (ticketEntry t nowMs)]) ∧
      fieldOf (getUser (addTicket w t nowMs).world) "bookings" = getProp r "bookings" ∧
      (∀ k, k ≠ "tickets" →
        fieldOf (getUser (addTicket w t nowMs).world) k = getProp r k) ∧
      (isJSON t = true → jsonClean (ticketEntry t nowMs) = ticketEntry t nowMs) ∧
      member (ticketEntry t nowMs) "id" = .str ("TK-" ++ toString nowMs) ∧
      (∀ (ts : List (String × Val)) (k : String), t = .obj ts → (ts.map Prod.fst).Nodup →
        k ≠ "id" → member (ticketEntry t nowMs) k = getProp ts k) := by
  simp only [isJSON] at hr
  have hstep := addTicket_step w r l t nowMs hstored hr hl
  have hsto : getItem (addTicket w t nowMs).world.storage KEY =
      some (.wellFormed (.obj (setProp r "tickets"
        (.arr (l ++ [jsonClean (ticketEntry t nowMs)]))))) := by
    rw [hstep]; exact getItem_setItem_same _ _ _
  have hget : getUser (addTicket w t nowMs).world =
      .ok (.obj (setProp r "tickets" (.arr (l ++ [jsonClean (ticketEntry t nowMs)])))) := by
    simp [getUser, hsto, parse, tryCatch]
  have hother : ∀ k, k ≠ "tickets" →
      fieldOf (getUser (addTicket w t nowMs).world) k = getProp r k := by
    intro k hk
    have hk2 : ¬ "tickets" = k := fun e => hk e.symm
    rw [hget]; simp [fieldOf, member, getProp_setProp, hk2]
  refine ⟨by rw [hstep], hsto, ?_, hother "bookings" (by decide), hother,
    jsonClean_ticketEntry t nowMs, ?_, ?_⟩
  · rw [hget]; simp [fieldOf, member, getProp_setProp]
  · simp only [ticketEntry, member]
    rw [getProp_setProp]; simp
  · intro ts k ht hnd hid
    have h1 : ¬ "id" = k := fun e => hid e.symm
    subst ht
    simp only [ticketEntry, member]
    rw [getProp_setProp]
    simp only [h1, if_false]
    exact getProp_spread_obj ts k hnd

/-- Witness for C11: a ticket appended to a stored record that already holds
one ticket and one booking. -/
theorem addTicket_appends_witness :
    fieldOf (getUser (addTicket ⟨[(KEY, Cell.wellFormed (.obj [("bookings",
        .arr [.obj [("id", .str "BK-1")]]), ("tickets", .arr [.obj [("id", .str "TK-1")]])]))],
        ""⟩ (.obj [("event", .str "gala")]) 2).world) "tickets" =
      .arr ([.obj [("id", .str "TK-1")]] ++
        [jsonClean (ticketEntry (.obj [("event", .str "gala")]) 2)]) :=
  (addTicket_appends ⟨[(KEY, Cell.wellFormed (.obj [("bookings",
      .arr [.obj [("id", .str "BK-1")]]), ("tickets", .arr [.obj [("id", .str "TK-1")]])]))],
      ""⟩
    [("bookings", .arr [.obj [("id", .str "BK-1")]]),
      ("tickets", .arr [.obj [("id", .str "TK-1")]])]
    [.obj [("id", .str "TK-1")]] (.obj [("event", .str "gala")]) 2 rfl rfl rfl).2.2.1

theorem nodup_bookingEntry (b : Val) (nowMs : Int) (nowIso : String) :
    ((setProp (setProp (spread b) "id" (.str ("BK-" ++ toString nowMs))) "date"
      (.str nowIso)).map Prod.fst).Nodup :=
  nodup_setProp _ _ _ (nodup_setProp _ _ _ (nodup_spread b))

theorem nodup_ticketEntry (t : Val) (nowMs : Int) :
    ((setProp (spread t) "id" (.str ("TK-" ++ toString nowMs))).map Prod.fst).Nodup :=
  nodup_setProp _ _ _ (nodup_spread t)

/-- C12: for every input, the entry stored by `addBooking` has the id `BK-`
followed by the clock reading and the date read from the clock, and the entry
stored by `addTicket` has the id `TK-` followed by the clock reading, whatever
`id` or `date` the input carries; every other field of the input is stored
with the value the input gives it (as `JSON.stringify` writes it, which for a
JSON-representable value is the value itself). -/
theorem ids_generated_at_append (w : World) (r : List (String × Val)) (lb lt : List Val)
    (b t : Val) (nowMs : Int) (nowIso : String)
    (hstored : getItem w.storage KEY = some (.wellFormed (.obj r)))
    (hr : isJSON (.obj r) = true)
    (hlb : getProp r "bookings" = .arr lb) (hlt : getProp r "tickets" = .arr lt) :
    (∃ e, fieldOf (getUser (addBooking w b nowMs nowIso).world) "bookings" = .arr (lb ++ [e]) ∧
        member e "id" = .str ("BK-" ++ toString nowMs) ∧
        member e "date" = .str nowIso ∧
        (∀ k, k ≠ "id" → k ≠ "date" → member e k = jsonClean (getProp (spread b) k)) ∧
        (∀ (bs : List (String × Val)) (k : String), b = .obj bs → (bs.map Prod.fst).Nodup →
          isJSON b = true → k ≠ "id" → k ≠ "date" → member e k = getProp bs k)) ∧
      (∃ e, fieldOf (getUser (addTicket w t nowMs).world) "tickets" = .arr (lt ++ [e]) ∧
        member e "id" = .str ("TK-" ++ toString nowMs) ∧
        (∀ k, k ≠ "id" → member e k = jsonClean (getProp (spread t) k)) ∧
        (∀ (ts : List (String × Val)) (k : String), t = .obj ts → (ts.map Prod.fst).Nodup →
          isJSON t = true → k ≠ "id" → member e k = getProp ts k)) ∧
      fieldOf (getUser (addBooking w (.obj [("id", .str "mine"), ("date", .str "never"),
          ("type", .str "room")]) nowMs nowIso).world) "bookings" =
        .arr (lb ++ [.obj [("id", .str ("BK-" ++ toString nowMs)), ("date", .str nowIso),
          ("type", .str "room")]]) := by
  simp only [isJSON] at hr
  have hgb : ∀ b2 : Val, fieldOf (getUser (addBooking w b2 nowMs nowIso).world) "bookings" =
      .arr (lb ++ [jsonClean (bookingEntry b2 nowMs nowIso)]) := by
    intro b2
    rw [addBooking_step w r lb b2 nowMs nowIso hstored hr hlb]
    simp [getUser, getItem_setItem_same, parse, tryCatch, fieldOf, member, getProp_setProp]
  have hgt : fieldOf (getUser (addTicket w t nowMs).world) "tickets" =
      .arr (lt ++ [jsonClean (ticketEntry t nowMs)]) := by
    rw [addTicket_step w r lt t nowMs hstored hr hlt]
    simp [getUser, getItem_setItem_same, parse, tryCatch, fieldOf, member, getProp_setProp]
  have hbk : ∀ k, k ≠ "id" → k ≠ "date" →
      member (jsonClean (bookingEntry b nowMs nowIso)) k = jsonClean (getProp (spread b) k) := by
    intro k hid hdate
    have h1 : ¬ "id" = k := fun e => hid e.symm
    have h2 : ¬ "date" = k := fun e => hdate e.symm
    simp only [bookingEntry, jsonClean, member]
    rw [getProp_cleanProps_of_nodup _ _ (nodup_bookingEntry b nowMs nowIso), getProp_setProp,
      getProp_setProp]
    simp [h1, h2]
  have htk : ∀ k, k ≠ "id" →
      member (jsonClean (ticketEntry t nowMs)) k = jsonClean (getProp (spread t) k) := by
    intro k hid
    have h1 : ¬ "id" = k := fun e => hid e.symm
    simp only [ticketEntry, jsonClean, member]
    rw [getProp_cleanProps_of_nodup _ _ (nodup_ticketEntry t nowMs), getProp_setProp]
    simp [h1]
  refine ⟨⟨_, hgb b, id_of_cleaned_bookingEntry b nowMs nowIso, ?_, hbk, ?_⟩,
    ⟨_, hgt, id_of_cleaned_ticketEntry t nowMs, htk, ?_⟩, ?_⟩
  · simp only [bookingEntry, jsonClean, member]
    rw [getProp_cleanProps_of_nodup _ _ (nodup_bookingEntry b nowMs nowIso), getProp_setProp]
    simp [jsonClean]
  · intro bs k hb hnd hj hid hdate
    rw [hbk k hid hdate]
    subst hb
    rw [getProp_spread_obj bs k hnd]
    simp only [isJSON] at hj
    by_cases hin : k ∈ bs.map Prod.fst
    · exact jsonClean_of_isJSON _ (isJSON_getProp bs k hj hin)
    · rw [getProp_of_not_mem bs k hin]; rfl
  · intro ts k ht hnd hj hid
    rw [htk k hid]
    subst ht
    rw [getProp_spread_obj ts k hnd]
    simp only [isJSON] at hj
    by_cases hin : k ∈ ts.map Prod.fst
    · exact jsonClean_of_isJSON _ (isJSON_getProp ts k hj hin)
    · rw [getProp_of_not_mem ts k hin]; rfl
  · rw [hgb]
    simp [bookingEntry, spread, ownProps, assignProps, setProp, jsonClean, cleanProps,
      isUndefined]

/-- Witness for C12: a booking whose input carries an id of its own. -/
theorem ids_generated_at_append_witness :
    fieldOf (getUser (addBooking ⟨[(KEY, Cell.wellFormed (.obj [("bookings", .arr []),
        ("tickets", .arr [])]))], ""⟩
      (.obj [("id", .str "mine"), ("date", .str "never"), ("type", .str "room")]) 7
      "2026-01-01T00:00:00.000Z").world) "bookings" =
      .arr ([] ++ [.obj [("id", .str ("BK-" ++ toString (7 : Int))),
        ("date", .str "2026-01-01T00:00:00.000Z"), ("type", .str "room")]]) :=
  (ids_generated_at_append ⟨[(KEY, Cell.wellFormed (.obj [("bookings", .arr []),
      ("tickets", .arr [])]))], ""⟩ [("bookings", .arr []), ("tickets", .arr [])] [] []
    .null .null 7 "2026-01-01T00:00:00.000Z" rfl rfl rfl rfl).2.2

theorem truthy_jsonClean (v : Val) : truthy (jsonClean v) = truthy v := by
  cases v <;> simp [jsonClean, truthy]

theorem isUndefined_of_truthy (v : Val) (h : truthy v = true) : isUndefined v = false := by
  cases v <;> simp [truthy, isUndefined] at h ⊢

theorem getUser_after_store (w : World) (v : Val) (hv : isUndefined v = false) :
    getUser { w with storage := setItem w.storage KEY (stringify v) } = .ok (jsonClean v) := by
  simp [getUser, getItem_setItem_same, stringify, hv, parse, tryCatch]

theorem isJSON_jsOr (a : Val) (d : String) (h : isJSON a = true ∨ isUndefined a = true) :
    isJSON (jsOr a (.str d)) = true := by
  unfold jsOr
  by_cases ht : truthy a = true
  · rcases h with h | h
    · simp [ht, h]
    · rw [isUndefined_of_truthy a ht] at h
      exact absurd h (by decide)
  · simp [ht, isJSON]

/-- C13 (as stated, refuted): `login('a@x.com', {a: undefined, b: [undefined, 1]})`
returns a record whose name holds the field `a` and the element `undefined`,
while `getUser()` called next returns the name `{b: [null, 1]}`: what is read
back is not what login returned. -/
theorem login_result_not_read_back :
    fieldOf (login ⟨[], ""⟩ (.str "a@x.com")
        (.obj [("a", .undefined), ("b", .arr [.undefined, .num 1])])
        "2026-01-01T00:00:00.000Z").result "name" =
        .obj [("a", .undefined), ("b", .arr [.undefined, .num 1])] ∧
      fieldOf (getUser (login ⟨[], ""⟩ (.str "a@x.com")
        (.obj [("a", .undefined), ("b", .arr [.undefined, .num 1])])
        "2026-01-01T00:00:00.000Z").world) "name" = .obj [("b", .arr [.null, .num 1])] ∧
      getUser (login ⟨[], ""⟩ (.str "a@x.com")
        (.obj [("a", .undefined), ("b", .arr [.undefined, .num 1])])
        "2026-01-01T00:00:00.000Z").world ≠
        (login ⟨[], ""⟩ (.str "a@x.com")
          (.obj [("a", .undefined), ("b", .arr [.undefined, .num 1])])
          "2026-01-01T00:00:00.000Z").result := by
  refine ⟨rfl, rfl, ?_⟩
  simp [login, loginRecord, getUser, setItem, getItem, parse, tryCatch, stringify, jsOr, truthy,
    isUndefined, jsonClean, cleanProps, cleanElems]

/-- C13 (amended): for every prior storage state and every email and name that
are either missing or JSON-representable (strings in particular), `login`
returns the record built from them, stores exactly that record under the
session key, and `getUser()` called right after returns it, field by field. -/
theorem login_persists_what_it_returns (w : World) (email name : Val) (nowIso : String)
    (he : isJSON email = true ∨ isUndefined email = true)
    (hn : isJSON name = true ∨ isUndefined name = true) :
    (login w email name nowIso).result =
        .ok (.obj [("email", jsOr email (.str "guest@mmakwany.co.ke")),
          ("name", jsOr name (.str "Guest User")), ("points", .num 2450),
          ("memberSince", .str nowIso), ("bookings", .arr []), ("tickets", .arr [])]) ∧
      getItem (login w email name nowIso).world.storage KEY =
        some (.wellFormed (.obj [("email", jsOr email (.str "guest@mmakwany.co.ke")),
          ("name", jsOr name (.str "Guest User")), ("points", .num 2450),
          ("memberSince", .str nowIso), ("bookings", .arr []), ("tickets", .arr [])])) ∧
      getUser (login w email name nowIso).world =
        .ok (.obj [("email", jsOr email (.str "guest@mmakwany.co.ke")),
          ("name", jsOr name (.str "Guest User")), ("points", .num 2450),
          ("memberSince", .str nowIso), ("bookings", .arr []), ("tickets", .arr [])]) ∧
      getUser (login w email name nowIso).world = (login w email name nowIso).result ∧
      (∀ k, fieldOf (getUser (login w email name nowIso).world) k =
        fieldOf (login w email name nowIso).result k) := by
  have hj : isJSON (loginRecord email name nowIso) = true := by
    simp [loginRecord, isJSON, allPropsJSON, allJSON, isJSON_jsOr email _ he,
      isJSON_jsOr name _ hn]
  have hs : stringify (loginRecord email name nowIso) =
      .wellFormed (loginRecord email name nowIso) := by
    simp [stringify, isUndefined_of_isJSON _ hj, jsonClean_of_isJSON _ hj]
  have hsto : getItem (login w email name nowIso).world.storage KEY =
      some (.wellFormed (loginRecord email name nowIso)) := by
    simp [login, getItem_setItem_same, hs]
  have hg : getUser (login w email name nowIso).world =
      .ok (loginRecord email name nowIso) := by
    simp [getUser, hsto, parse, tryCatch]
  exact ⟨rfl, hsto, hg, hg, fun k => by rw [hg]; rfl⟩

/-- Witness for C13: `login('a@x.com')` with the name missing, over a session
left by an earlier login. -/
theorem login_persists_what_it_returns_witness :
    getUser (login ⟨[(KEY, Cell.wellFormed (.obj [("email", .str "old@x.com"),
        ("points", .num 7)]))], ""⟩ (.str "a@x.com") .undefined
        "2026-01-01T00:00:00.000Z").world =
      .ok (.obj [("email", .str "a@x.com"), ("name", .str "Guest User"), ("points", .num 2450),
        ("memberSince", .str "2026-01-01T00:00:00.000Z"), ("bookings", .arr []),
        ("tickets", .arr [])]) :=
  (login_persists_what_it_returns ⟨[(KEY, Cell.wellFormed (.obj [("email", .str "old@x.com"),
      ("points", .num 7)]))], ""⟩ (.str "a@x.com") .undefined "2026-01-01T00:00:00.000Z"
    (Or.inl rfl) (Or.inr rfl)).2.2.1

/-- C14: `getUser()` leaves the browser state as it is; with no record under
the session key any number of consecutive `getUser()` calls all return absent,
and in any state two consecutive calls return the same result. -/
theorem getUser_idempotent (w : World) :
    worldAfter w .getUser = w ∧
      (getItem w.storage KEY = none →
        ∀ n, getUserTimes w n = List.replicate n (.ok .null)) ∧
      getUserTimes w 2 = [getUser w, getUser w] ∧
      (∀ n, getUserTimes w n = List.replicate n (getUser w)) := by
  have hall : ∀ n, getUserTimes w n = List.replicate n (getUser w) := by
    intro n
    induction n with
    | zero => rfl
    | succ n ih =>
      simp only [getUserTimes, worldAfter, List.replicate_succ, ih]
  refine ⟨rfl, ?_, ?_, hall⟩
  · intro h n
    rw [hall n]
    simp [getUser, h, parse, tryCatch]
  · rw [hall 2]; rfl

/-- Witness for C14: three calls on empty storage. -/
theorem getUser_idempotent_witness :
    getItem ([] : Storage) KEY = none ∧
      getUserTimes ⟨[], ""⟩ 3 = [.ok .null, .ok .null, .ok .null] :=
  ⟨rfl, (getUser_idempotent ⟨[], ""⟩).2.1 rfl 3⟩

theorem objectAssign_truthy (user u user1 : Val) (h : objectAssign user u = .ok user1)
    (ht : truthy user = true) : truthy user1 = true := by
  cases user with
  | undefined => simp [truthy] at ht
  | null => simp [truthy] at ht
  | bool b =>
    simp only [objectAssign, Except.ok.injEq] at h
    rw [← h]; exact ht
  | num n =>
    simp only [objectAssign, Except.ok.injEq] at h
    rw [← h]; exact ht
  | str s =>
    simp only [objectAssign] at h
    split at h
    · simp at h
    · simp only [Except.ok.injEq] at h
      rw [← h]; exact ht
  | arr xs =>
    simp only [objectAssign] at h
    cases hf : List.foldlM (fun acc p => arraySet acc p.1 p.2) xs (ownProps u) with
    | error e => rw [hf] at h; simp [Except.map] at h
    | ok ys =>
      rw [hf] at h
      simp only [Except.map, Except.ok.injEq] at h
      rw [← h]; rfl
  | obj ps =>
    simp only [objectAssign, Except.ok.injEq] at h
    rw [← h]; rfl

theorem pushEntry_truthy (user : Val) (field : String) (entry user1 : Val)
    (h : pushEntry user field entry = .ok user1) : truthy user1 = true := by
  cases user with
  | obj ps =>
    simp only [pushEntry] at h
    split at h
    · simp only [Except.ok.injEq] at h
      rw [← h]; rfl
    · simp at h
  | arr xs =>
    simp only [pushEntry, Except.ok.injEq] at h
    rw [← h]; rfl
  | undefined => simp [pushEntry] at h
  | null => simp [pushEntry] at h
  | bool b => simp [pushEntry] at h
  | num n => simp [pushEntry] at h
  | str s => simp [pushEntry] at h

theorem isLoggedIn_after_store (w : World) (v : Val) (hv : truthy v = true) :
    isLoggedIn { w with storage := setItem w.storage KEY (stringify v) } = .ok true := by
  simp [isLoggedIn, getUser_after_store w v (isUndefined_of_truthy v hv), truthy_jsonClean, hv]

theorem getUser_ok (w : World) : ∃ v, getUser w = .ok v := by
  unfold getUser tryCatch
  cases parse (getItem w.storage KEY) with
  | ok v => exact ⟨v, rfl⟩
  | error e => exact ⟨.null, rfl⟩

/-- C15 (as stated, refuted): with the text `5` under the session key,
`getUser()` returns the number 5 rather than absent, and `addBooking` and
`addTicket` throw a `TypeError`. -/
theorem foreign_number_not_treated_as_absent :
    getUser ⟨[(KEY, Cell.wellFormed (.num 5))], ""⟩ = .ok (.num 5) ∧
      getUser ⟨[(KEY, Cell.wellFormed (.num 5))], ""⟩ ≠ .ok .null ∧
      (addBooking ⟨[(KEY, Cell.wellFormed (.num 5))], ""⟩ (.obj [("type", .str "room")])
        1767225600000 "2026-01-01T00:00:00.000Z").result = .error .typeError ∧
      (addTicket ⟨[(KEY, Cell.wellFormed (.num 5))], ""⟩ (.obj [("event", .str "gala")])
        1767225600000).result = .error .typeError := by
  refine ⟨rfl, ?_, rfl, rfl⟩
  simp [getUser, getItem, parse, tryCatch]

/-- C15 (amended): text under the session key that `JSON.parse` rejects is
treated like no session: `getUser()` returns absent.  Whenever `getUser()`
returns a falsy value (absent, `false`, `0`, the empty string), `updateUser`,
`addBooking` and `addTicket` complete normally and leave the browser state,
storage included, as it was.  Text that is valid JSON is returned by
`getUser()` as parsed. -/
theorem unparseable_or_falsy_is_noop (w : World) (u b t : Val) (nowMs : Int)
    (nowIso : String) :
    (∀ raw, getItem w.storage KEY = some (.malformed raw) → getUser w = .ok .null) ∧
      (∀ v, getItem w.storage KEY = some (.wellFormed v) → getUser w = .ok v) ∧
      (∀ v, getUser w = .ok v → truthy v = false →
        updateUser w u = { world := w, result := .ok v } ∧
        addBooking w b nowMs nowIso = { world := w, result := .ok () } ∧
        addTicket w t nowMs = { world := w, result := .ok () }) := by
  refine ⟨?_, ?_, ?_⟩
  · intro raw h; simp [getUser, h, parse, tryCatch]
  · intro v h; simp [getUser, h, parse, tryCatch]
  · intro v hg hv
    simp [updateUser, addBooking, addTicket, hg, hv]

/-- Witness for C15: unparseable text under the session key. -/
theorem unparseable_or_falsy_is_noop_witness :
    getUser ⟨[(KEY, Cell.malformed "not json")], ""⟩ = .ok .null ∧
      addBooking ⟨[(KEY, Cell.malformed "not json")], ""⟩ (.obj [("type", .str "room")]) 1
        "2026-01-01T00:00:00.000Z" =
        { world := ⟨[(KEY, Cell.malformed "not json")], ""⟩, result := .ok () } :=
  ⟨rfl, ((unparseable_or_falsy_is_noop ⟨[(KEY, Cell.malformed "not json")], ""⟩ .null
    (.obj [("type", .str "room")]) .null 1 "2026-01-01T00:00:00.000Z").2.2 .null rfl rfl).2.1⟩

/-- C16: in every storage state `isLoggedIn()` is either true or false, never
an error; `getUser`, `isLoggedIn`, `updateUser`, `addBooking` and `addTicket`
leave its value unchanged, whatever their arguments and whether or not they
throw; `login` always ends with it true and `logout` with it false. -/
theorem session_state_transitions (w : World) (u b t email name : Val) (nowMs : Int)
    (nowIso : String) :
    (isLoggedIn w = .ok true ∨ isLoggedIn w = .ok false) ∧
      isLoggedIn (worldAfter w .getUser) = isLoggedIn w ∧
      isLoggedIn (worldAfter w .isLoggedIn) = isLoggedIn w ∧
      isLoggedIn (updateUser w u).world = isLoggedIn w ∧
      isLoggedIn (addBooking w b nowMs nowIso).world = isLoggedIn w ∧
      isLoggedIn (addTicket w t nowMs).world = isLoggedIn w ∧
      isLoggedIn (login w email name nowIso).world = .ok true ∧
      isLoggedIn (logout w).world = .ok false := by
  obtain ⟨user, hg⟩ := getUser_ok w
  have hlog : isLoggedIn w = .ok (truthy user) := by simp [isLoggedIn, hg]
  refine ⟨?_, rfl, rfl, ?_, ?_, ?_, ?_, ?_⟩
  · rw [hlog]; cases truthy user <;> simp
  · by_cases ht : truthy user = true
    · cases ha : objectAssign user u with
      | error e => simp [updateUser, hg, ht, ha]
      | ok user1 =>
        have h1 := objectAssign_truthy user u user1 ha ht
        have : (updateUser w u).world =
            { w with storage := setItem w.storage KEY (stringify user1) } := by
          simp [updateUser, hg, ht, ha]
        rw [this, isLoggedIn_after_store w user1 h1, hlog, ht]
    · simp [updateUser, hg, ht]
  · by_cases ht : truthy user = true
    · cases ha : pushEntry user "bookings" (bookingEntry b nowMs nowIso) with
      | error e => simp [addBooking, hg, ht, ha]
      | ok user1 =>
        have h1 := pushEntry_truthy user _ _ user1 ha
        have : (addBooking w b nowMs nowIso).world =
            { w with storage := setItem w.storage KEY (stringify user1) } := by
          simp [addBooking, hg, ht, ha]
        rw [this, isLoggedIn_after_store w user1 h1, hlog, ht]
    · simp [addBooking, hg, ht]
  · by_cases ht : truthy user = true
    · cases ha : pushEntry user "tickets" (ticketEntry t nowMs) with
      | error e => simp [addTicket, hg, ht, ha]
      | ok user1 =>
        have h1 := pushEntry_truthy user _ _ user1 ha
        have : (addTicket w t nowMs).world =
            { w with storage := setItem w.storage KEY (stringify user1) } := by
          simp [addTicket, hg, ht, ha]
        rw [this, isLoggedIn_after_store w user1 h1, hlog, ht]
    · simp [addTicket, hg, ht]
  · exact isLoggedIn_after_store w (loginRecord email name nowIso) rfl
  · simp [isLoggedIn, logout, getUser, getItem_removeItem_same, parse, tryCatch, truthy]

theorem updateUser_obj_step (w : World) (r : List (String × Val)) (u : Val)
    (hstored : getItem w.storage KEY = some (.wellFormed (.obj r))) :
    updateUser w u =
      { world :=
          { w with
            storage := setItem w.storage KEY
              (.wellFormed (.obj (cleanProps (assignProps r (ownProps u))))) },
        result := .ok (.obj (assignProps r (ownProps u))) } := by
  have hget : getUser w = .ok (.obj r) := by
    simp [getUser, hstored, parse, tryCatch]
  have hu : ∀ ps, isUndefined (Val.obj ps) = false := fun _ => rfl
  simp [updateUser, hget, truthy, objectAssign, stringify, hu, jsonClean]

theorem getProp_updated_of_not_mem (r us : List (String × Val)) (k : String)
    (hr : allPropsJSON r = true) (hk : k ∉ us.map Prod.fst) :
    getProp (cleanProps (assignProps r us)) k = getProp r k := by
  have hmem : ∀ p ∈ assignProps r us, p.1 = k → isUndefined p.2 = false := by
    intro p hp hpk
    have hp2 : p ∈ r := mem_assignProps_of_not_mem us r p hp (by rw [hpk]; exact hk)
    exact isUndefined_of_isJSON _ (isJSON_of_mem r p hr hp2)
  rw [getProp_cleanProps _ _ hmem, getProp_assignProps_of_not_mem _ _ _ hk]
  by_cases hin : k ∈ r.map Prod.fst
  · exact jsonClean_of_isJSON _ (isJSON_getProp r k hr hin)
  · rw [getProp_of_not_mem r k hin]; rfl

theorem stringify_setProp_list (r : List (String × Val)) (field : String) (l : List Val)
    (entry : Val) (hr : allPropsJSON r = true) (hl : allJSON l = true)
    (he : isUndefined entry = false) :
    stringify (.obj (setProp r field (.arr (l ++ [entry])))) =
        .wellFormed (.obj (setProp r field (.arr (l ++ [jsonClean entry])))) ∧
      allPropsJSON (setProp r field (.arr (l ++ [jsonClean entry]))) = true := by
  have hu : ∀ ps, isUndefined (Val.obj ps) = false := fun _ => rfl
  have hua : ∀ xs, isUndefined (Val.arr xs) = false := fun _ => rfl
  constructor
  · simp [stringify, hu, jsonClean, cleanProps_setProp r field _ hr (hua _), cleanElems_append,
      cleanElems_of_allJSON l hl, cleanElems, he]
  · apply allPropsJSON_setProp r field _ hr
    simp only [isJSON]
    have : allJSON (cleanElems (l ++ [entry])) = true := allJSON_cleanElems _
    simpa [cleanElems_append, cleanElems_of_allJSON l hl, cleanElems, he] using this

theorem pushEntry_obj_cases (r : List (String × Val)) (field : String) (entry : Val)
    (hr : allPropsJSON r = true) (he : isUndefined entry = false) :
    pushEntry (.obj r) field entry = .error .typeError ∨
      ∃ l, pushEntry (.obj r) field entry =
          .ok (.obj (setProp r field (.arr (l ++ [entry])))) ∧
        stringify (.obj (setProp r field (.arr (l ++ [entry])))) =
          .wellFormed (.obj (setProp r field (.arr (l ++ [jsonClean entry])))) ∧
        allPropsJSON (setProp r field (.arr (l ++ [jsonClean entry]))) = true := by
  have hnil := stringify_setProp_list r field [] entry hr rfl he
  cases hv : getProp r field with
  | undefined =>
    exact Or.inr ⟨[], by simp [pushEntry, hv, jsOr, truthy], hnil.1, hnil.2⟩
  | null =>
    exact Or.inr ⟨[], by simp [pushEntry, hv, jsOr, truthy], hnil.1, hnil.2⟩
  | bool b =>
    cases b with
    | false => exact Or.inr ⟨[], by simp [pushEntry, hv, jsOr, truthy], hnil.1, hnil.2⟩
    | true => exact Or.inl (by simp [pushEntry, hv, jsOr, truthy])
  | num n =>
    by_cases h0 : n = 0
    · exact Or.inr ⟨[], by simp [pushEntry, hv, jsOr, truthy, h0], hnil.1, hnil.2⟩
    · exact Or.inl (by simp [pushEntry, hv, jsOr, truthy, h0])
  | str s =>
    by_cases h0 : s = ""
    · exact Or.inr ⟨[], by simp [pushEntry, hv, jsOr, truthy, h0], hnil.1, hnil.2⟩
    · exact Or.inl (by simp [pushEntry, hv, jsOr, truthy, h0])
  | arr l =>
    obtain ⟨h1, h2, h3⟩ := stringify_pushEntry r field l entry hr hv he
    exact Or.inr ⟨l, h1, h2, h3⟩
  | obj ps => exact Or.inl (by simp [pushEntry, hv, jsOr, truthy])

theorem addBooking_obj_cases (w : World) (r : List (String × Val)) (b : Val) (nowMs : Int)
    (nowIso : String)
    (hstored : getItem w.storage KEY = some (.wellFormed (.obj r)))
    (hr : allPropsJSON r = true) :
    (addBooking w b nowMs nowIso).world = w ∨
      ∃ l, (addBooking w b nowMs nowIso).world =
          { w with storage := setItem w.storage KEY (.wellFormed (.obj
            (setProp r "bookings" (.arr (l ++ [jsonClean (bookingEntry b nowMs nowIso)]))))) } ∧
        allPropsJSON (setProp r "bookings"
          (.arr (l ++ [jsonClean (bookingEntry b nowMs nowIso)]))) = true := by
  have hget : getUser w = .ok (.obj r) := by
    simp [getUser, hstored, parse, tryCatch]
  rcases pushEntry_obj_cases r "bookings" (bookingEntry b nowMs nowIso) hr rfl with h | ⟨l, h1, h2, h3⟩
  · exact Or.inl (by simp [addBooking, hget, truthy, h])
  · exact Or.inr ⟨l, by simp [addBooking, hget, truthy, h1, h2], h3⟩

theorem addTicket_obj_cases (w : World) (r : List (String × Val)) (t : Val) (nowMs : Int)
    (hstored : getItem w.storage KEY = some (.wellFormed (.obj r)))
    (hr : allPropsJSON r = true) :
    (addTicket w t nowMs).world = w ∨
      ∃ l, (addTicket w t nowMs).world =
          { w with storage := setItem w.storage KEY (.wellFormed (.obj
            (setProp r "tickets" (.arr (l ++ [jsonClean (ticketEntry t nowMs)]))))) } ∧
        allPropsJSON (setProp r "tickets"
          (.arr (l ++ [jsonClean (ticketEntry t nowMs)]))) = true := by
  have hget : getUser w = .ok (.obj r) := by
    simp [getUser, hstored, parse, tryCatch]
  rcases pushEntry_obj_cases r "tickets" (ticketEntry t nowMs) hr rfl with h | ⟨l, h1, h2, h3⟩
  · exact Or.inl (by simp [addTicket, hget, truthy, h])
  · exact Or.inr ⟨l, by simp [addTicket, hget, truthy, h1, h2], h3⟩

theorem not_mem_keys_of_spares (u : Val) (key : String)
    (h : Call.spares key (.updateUser u) = true) : key ∉ (ownProps u).map Prod.fst := by
  intro hin
  obtain ⟨p, hp, hpk⟩ := List.mem_map.1 hin
  simp only [Call.spares, Bool.not_eq_true', List.any_eq_false, beq_iff_eq] at h
  exact h p hp hpk

theorem field_kept_by_sparing_call (w : World) (c : Call) (key : String) (v : Val)
    (hkb : key ≠ "bookings") (hkt : key ≠ "tickets") (hc : Call.spares key c = true)
    (h : ∃ r, getItem w.storage KEY = some (.wellFormed (.obj r)) ∧ allPropsJSON r = true ∧
      getProp r key = v) :
    ∃ r, getItem (worldAfter w c).storage KEY = some (.wellFormed (.obj r)) ∧
      allPropsJSON r = true ∧ getProp r key = v := by
  obtain ⟨r, hs, hr, hv⟩ := h
  cases c with
  | getUser => exact ⟨r, hs, hr, hv⟩
  | isLoggedIn => exact ⟨r, hs, hr, hv⟩
  | login e n iso => simp [Call.spares] at hc
  | logout => simp [Call.spares] at hc
  | updateUser u =>
    refine ⟨cleanProps (assignProps r (ownProps u)), ?_, allPropsJSON_cleanProps _, ?_⟩
    · simp only [worldAfter]
      rw [updateUser_obj_step w r u hs]
      exact getItem_setItem_same _ _ _
    · rw [getProp_updated_of_not_mem r _ key hr (not_mem_keys_of_spares u key hc)]
      exact hv
  | addBooking b nowMs nowIso =>
    simp only [worldAfter]
    rcases addBooking_obj_cases w r b nowMs nowIso hs hr with h | ⟨l, h1, h2⟩
    · rw [h]; exact ⟨r, hs, hr, hv⟩
    · rw [h1]
      refine ⟨_, getItem_setItem_same _ _ _, h2, ?_⟩
      have hne : ¬ "bookings" = key := fun e => hkb e.symm
      rw [getProp_setProp]
      simp [hne, hv]
  | addTicket t nowMs =>
    simp only [worldAfter]
    rcases addTicket_obj_cases w r t nowMs hs hr with h | ⟨l, h1, h2⟩
    · rw [h]; exact ⟨r, hs, hr, hv⟩
    · rw [h1]
      refine ⟨_, getItem_setItem_same _ _ _, h2, ?_⟩
      have hne : ¬ "tickets" = key := fun e => hkt e.symm
      rw [getProp_setProp]
      simp [hne, hv]

theorem isUndefined_jsOr (a : Val) (d : String) : isUndefined (jsOr a (.str d)) = false := by
  unfold jsOr
  by_cases ht : truthy a = true
  · simp [ht, isUndefined_of_truthy a ht]
  · simp [ht, isUndefined]

theorem login_stored_any (w : World) (email name : Val) (nowIso : String) :
    ∃ r, getItem (login w email name nowIso).world.storage KEY = some (.wellFormed (.obj r)) ∧
      allPropsJSON r = true ∧ getProp r "points" = .num 2450 ∧
      getProp r "memberSince" = .str nowIso ∧ getProp r "bookings" = .arr [] ∧
      getProp r "tickets" = .arr [] := by
  refine ⟨cleanProps [("email", jsOr email (.str "guest@mmakwany.co.ke")),
    ("name", jsOr name (.str "Guest User")), ("points", .num 2450),
    ("memberSince", .str nowIso), ("bookings", .arr []), ("tickets", .arr [])], ?_,
    allPropsJSON_cleanProps _, ?_, ?_, ?_, ?_⟩
  · have hu : ∀ ps, isUndefined (Val.obj ps) = false := fun _ => rfl
    simp [login, getItem_setItem_same, stringify, loginRecord, hu, jsonClean]
  all_goals
    rw [getProp_cleanProps_of_nodup _ _ (by simp)]
    simp [getProp, jsonClean, cleanElems]

theorem field_kept_by_sparing_calls (cs : List Call) (key : String) (v : Val)
    (hkb : key ≠ "bookings") (hkt : key ≠ "tickets") :
    ∀ w : World, (∀ c ∈ cs, Call.spares key c = true) →
      (∃ r, getItem w.storage KEY = some (.wellFormed (.obj r)) ∧ allPropsJSON r = true ∧
        getProp r key = v) →
      ∃ r, getItem (worldAfterAll w cs).storage KEY = some (.wellFormed (.obj r)) ∧
        allPropsJSON r = true ∧ getProp r key = v := by
  induction cs with
  | nil => intro w _ h; exact h
  | cons c cs ih =>
    intro w hcs h
    exact ih (worldAfter w c) (fun c2 hc2 => hcs c2 (List.mem_cons_of_mem _ hc2))
      (field_kept_by_sparing_call w c key v hkb hkt (hcs c (List.mem_cons_self _ _)) h)

/-- C17 (as stated, refuted): after a login, `updateUser({memberSince: ...})`
replaces the stored `memberSince`. -/
theorem updateUser_overwrites_memberSince :
    fieldOf (getUser (worldAfterAll (login ⟨[], ""⟩ (.str "a@x.com") (.str "A")
      "2026-01-01T00:00:00.000Z").world
      [.updateUser (.obj [("memberSince", .str "1999-01-01T00:00:00.000Z")])]))
      "memberSince" ≠ .str "2026-01-01T00:00:00.000Z" := by
  have h : fieldOf (getUser (worldAfterAll (login ⟨[], ""⟩ (.str "a@x.com") (.str "A")
      "2026-01-01T00:00:00.000Z").world
      [.updateUser (.obj [("memberSince", .str "1999-01-01T00:00:00.000Z")])]))
      "memberSince" = .str "1999-01-01T00:00:00.000Z" := rfl
  rw [h]
  simp

/-- C17 (amended): after a login, for every sequence of `getUser`,
`isLoggedIn`, `addBooking`, `addTicket` and `updateUser` calls whose updates
have no field `memberSince`, the stored `memberSince` is the value set by that
login. -/
theorem memberSince_kept (w : World) (email name : Val) (nowIso : String) (cs : List Call)
    (hcs : ∀ c ∈ cs, Call.spares "memberSince" c = true) :
    fieldOf (getUser (worldAfterAll (login w email name nowIso).world cs)) "memberSince" =
      .str nowIso := by
  obtain ⟨r0, hs0, hr0, _, hm0, _, _⟩ := login_stored_any w email name nowIso
  obtain ⟨r, hs, _, hm⟩ := field_kept_by_sparing_calls cs "memberSince" (.str nowIso)
    (by decide) (by decide) (login w email name nowIso).world hcs ⟨r0, hs0, hr0, hm0⟩
  simp [getUser, hs, parse, tryCatch, fieldOf, member, hm]

/-- Witness for C17: a points update, a booking and a ticket after a login. -/
theorem memberSince_kept_witness :
    fieldOf (getUser (worldAfterAll (login ⟨[], ""⟩ (.str "a@x.com") (.str "A")
      "2026-01-01T00:00:00.000Z").world
      [.updateUser (.obj [("points", .num 1950)]),
        .addBooking (.obj [("type", .str "room")]) 1 "2026-01-02T00:00:00.000Z",
        .addTicket (.obj [("event", .str "gala")]) 2])) "memberSince" =
      .str "2026-01-01T00:00:00.000Z" :=
  memberSince_kept ⟨[], ""⟩ (.str "a@x.com") (.str "A") "2026-01-01T00:00:00.000Z"
    [.updateUser (.obj [("points", .num 1950)]),
      .addBooking (.obj [("type", .str "room")]) 1 "2026-01-02T00:00:00.000Z",
      .addTicket (.obj [("event", .str "gala")]) 2] (by decide)

/-- C18 (as stated, refuted): on a session holding one booking,
`updateUser({bookings: []})` leaves no booking, so the list before the call is
not an initial part of the list after it. -/
theorem updateUser_replaces_bookings :
    ¬ ∃ l ext,
      fieldOf (getUser (addBooking (login ⟨[], ""⟩ (.str "a@x.com") (.str "A")
        "2026-01-01T00:00:00.000Z").world (.obj [("type", .str "room")]) 1
        "2026-01-02T00:00:00.000Z").world) "bookings" = .arr l ∧
      fieldOf (getUser (worldAfter (addBooking (login ⟨[], ""⟩ (.str "a@x.com") (.str "A")
        "2026-01-01T00:00:00.000Z").world (.obj [("type", .str "room")]) 1
        "2026-01-02T00:00:00.000Z").world (.updateUser (.obj [("bookings", .arr [])]))))
        "bookings" = .arr (l ++ ext) := by
  rintro ⟨l, ext, h1, h2⟩
  have hb : fieldOf (getUser (addBooking (login ⟨[], ""⟩ (.str "a@x.com") (.str "A")
      "2026-01-01T00:00:00.000Z").world (.obj [("type", .str "room")]) 1
      "2026-01-02T00:00:00.000Z").world) "bookings" =
      .arr [.obj [("type", .str "room"), ("id", .str "BK-1"),
        ("date", .str "2026-01-02T00:00:00.000Z")]] := rfl
  have ha : fieldOf (getUser (worldAfter (addBooking (login ⟨[], ""⟩ (.str "a@x.com")
      (.str "A") "2026-01-01T00:00:00.000Z").world (.obj [("type", .str "room")]) 1
      "2026-01-02T00:00:00.000Z").world (.updateUser (.obj [("bookings", .arr [])]))))
      "bookings" = .arr [] := rfl
  rw [hb] at h1
  rw [ha] at h2
  have h3 : ([] : List Val) = l ++ ext := Val.arr.inj h2
  have h4 : l = [] := (List.append_eq_nil.1 h3.symm).1
  rw [h4] at h1
  simp at h1

theorem getUser_of_stored (w : World) (v : Val)
    (h : getItem w.storage KEY = some (.wellFormed v)) : getUser w = .ok v := by
  simp [getUser, h, parse, tryCatch]

/-- C18 (amended): for a session key holding a JSON object whose bookings are the
list `lb`, after any one of `getUser`, `isLoggedIn`, `addBooking`, `addTicket`
and `updateUser` with no field `bookings` among its updates, the stored
bookings are `lb` followed by the entries added, none deleted, replaced or
reordered; likewise for tickets and updates with no field `tickets`. -/
theorem lists_only_grow (w : World) (r : List (String × Val)) (c : Call)
    (hstored : getItem w.storage KEY = some (.wellFormed (.obj r)))
    (hr : isJSON (.obj r) = true) :
    (∀ lb, getProp r "bookings" = .arr lb → Call.spares "bookings" c = true →
        ∃ ext, fieldOf (getUser (worldAfter w c)) "bookings" = .arr (lb ++ ext)) ∧
      (∀ lt, getProp r "tickets" = .arr lt → Call.spares "tickets" c = true →
        ∃ ext, fieldOf (getUser (worldAfter w c)) "tickets" = .arr (lt ++ ext)) := by
  simp only [isJSON] at hr
  have hsame : ∀ (key : String) (l : List Val), getProp r key = .arr l →
      ∃ ext, fieldOf (getUser w) key = .arr (l ++ ext) := by
    intro key l hl
    exact ⟨[], by simp [getUser_of_stored w _ hstored, fieldOf, member, hl]⟩
  have hupd : ∀ (u : Val) (key : String) (l : List Val), getProp r key = .arr l →
      Call.spares key (.updateUser u) = true →
      ∃ ext, fieldOf (getUser (updateUser w u).world) key = .arr (l ++ ext) := by
    intro u key l hl hc
    refine ⟨[], ?_⟩
    rw [updateUser_obj_step w r u hstored]
    rw [getUser_of_stored _ _ (getItem_setItem_same _ _ _)]
    simp [fieldOf, member,
      getProp_updated_of_not_mem r _ key hr (not_mem_keys_of_spares u key hc), hl]
  constructor
  · intro lb hl hc
    cases c with
    | getUser => exact hsame _ _ hl
    | isLoggedIn => exact hsame _ _ hl
    | login e n iso => simp [Call.spares] at hc
    | logout => simp [Call.spares] at hc
    | updateUser u => exact hupd u _ _ hl hc
    | addBooking b nowMs nowIso =>
      refine ⟨[jsonClean (bookingEntry b nowMs nowIso)], ?_⟩
      simp only [worldAfter]
      rw [addBooking_step w r lb b nowMs nowIso hstored hr hl]
      rw [getUser_of_stored _ _ (getItem_setItem_same _ _ _)]
      simp [fieldOf, member, getProp_setProp]
    | addTicket t nowMs =>
      simp only [worldAfter]
      rcases addTicket_obj_cases w r t nowMs hstored hr with h | ⟨l, h1, _⟩
      · rw [h]; exact hsame _ _ hl
      · refine ⟨[], ?_⟩
        rw [h1, getUser_of_stored _ _ (getItem_setItem_same _ _ _)]
        simp [fieldOf, member, getProp_setProp, hl]
  · intro lt hl hc
    cases c with
    | getUser => exact hsame _ _ hl
    | isLoggedIn => exact hsame _ _ hl
    | login e n iso => simp [Call.spares] at hc
    | logout => simp [Call.spares] at hc
    | updateUser u => exact hupd u _ _ hl hc
    | addTicket t nowMs =>
      refine ⟨[jsonClean (ticketEntry t nowMs)], ?_⟩
      simp only [worldAfter]
      rw [addTicket_step w r lt t nowMs hstored hr hl]
      rw [getUser_of_stored _ _ (getItem_setItem_same _ _ _)]
      simp [fieldOf, member, getProp_setProp]
    | addBooking b nowMs nowIso =>
      simp only [worldAfter]
      rcases addBooking_obj_cases w r b nowMs nowIso hstored hr with h | ⟨l, h1, _⟩
      · rw [h]; exact hsame _ _ hl
      · refine ⟨[], ?_⟩
        rw [h1, getUser_of_stored _ _ (getItem_setItem_same _ _ _)]
        simp [fieldOf, member, getProp_setProp, hl]

/-- Witness for C18: a points update on a stored record that holds one
booking. -/
theorem lists_only_grow_witness :
    ∃ ext, fieldOf (getUser (worldAfter ⟨[(KEY, Cell.wellFormed (.obj [("points", .num 2450),
        ("bookings", .arr [.obj [("id", .str "BK-1")]])]))], ""⟩
      (.updateUser (.obj [("points", .num 1950)])))) "bookings" =
      .arr ([.obj [("id", .str "BK-1")]] ++ ext) :=
  (lists_only_grow ⟨[(KEY, Cell.wellFormed (.obj [("points", .num 2450),
      ("bookings", .arr [.obj [("id", .str "BK-1")]])]))], ""⟩
    [("points", .num 2450), ("bookings", .arr [.obj [("id", .str "BK-1")]])]
    (.updateUser (.obj [("points", .num 1950)])) rfl rfl).1 [.obj [("id", .str "BK-1")]] rfl
    (by decide)

theorem doubleShift_of_small (fuel n : Nat) (h : n < 9007199254740992) :
    doubleShift fuel n = 0 := by
  cases fuel with
  | zero => rfl
  | succ fuel => simp [doubleShift, h]

theorem toDouble_of_small (n : Nat) (h : n < 9007199254740992) : toDouble n = n := by
  simp [toDouble, doubleShift_of_small n n h, Nat.mod_one]

theorem toDouble_of_safe (n : Nat) (h : n ≤ 9007199254740992) : toDouble n = n := by
  rcases Nat.lt_or_eq_of_le h with h1 | h1
  · exact toDouble_of_small n h1
  · rw [h1]; decide

theorem pow_doubleShift_le (fuel : Nat) : ∀ n, 1 ≤ n → 2 ^ doubleShift fuel n ≤ n := by
  induction fuel with
  | zero => intro n h; simpa [doubleShift] using h
  | succ fuel ih =>
    intro n h
    by_cases hs : n < 9007199254740992
    · simpa [doubleShift, hs] using h
    · have h2 : 1 ≤ n / 2 := by omega
      have := ih (n / 2) h2
      simp only [doubleShift, hs, if_false, Nat.pow_succ]
      omega

theorem toDouble_pos (n : Nat) (h : 1 ≤ n) : 1 ≤ toDouble n := by
  have hle := pow_doubleShift_le n n h
  have hpow : 0 < 2 ^ doubleShift n n := Nat.pow_pos (by decide)
  have hq : 1 ≤ n / 2 ^ doubleShift n n := (Nat.le_div_iff_mul_le hpow).2 (by simpa using hle)
  have h1 : 1 ≤ n / 2 ^ doubleShift n n * 2 ^ doubleShift n n := Nat.mul_pos hq hpow
  have h2 : 1 ≤ (n / 2 ^ doubleShift n n + 1) * 2 ^ doubleShift n n :=
    Nat.mul_pos (Nat.succ_pos _) hpow
  simp only [toDouble]
  split
  · exact h1
  · split
    · exact h2
    · split
      · exact h1
      · exact h2

theorem pointsCost_eq (text : String) :
    pointsCost text =
      if toDouble (decodeDigits (text.data.filter Char.isDigit)) = 0 then 500
      else (toDouble (decodeDigits (text.data.filter Char.isDigit)) : Int) := by
  unfold pointsCost parseIntOfDigits
  cases h : text.data.filter Char.isDigit with
  | nil => simp [decodeDigits, toDouble, doubleShift]
  | cons d ds =>
    by_cases h0 : toDouble (decodeDigits (d :: ds)) = 0
    · simp [h0]
    · simp [h0]

theorem pointsCost_pos (text : String) : 1 ≤ pointsCost text := by
  rw [pointsCost_eq]
  by_cases h0 : toDouble (decodeDigits (text.data.filter Char.isDigit)) = 0
  · simp [h0]
  · simp only [h0, if_false]
    omega

theorem toDigitsCore_all_digit (fuel : Nat) : ∀ (n : Nat) (ds : List Char),
    (∀ c ∈ ds, c.isDigit = true) → ∀ c ∈ Nat.toDigitsCore 10 fuel n ds, c.isDigit = true := by
  induction fuel with
  | zero => intro n ds h; simpa [Nat.toDigitsCore] using h
  | succ fuel ih =>
    intro n ds h
    have hd : (Nat.digitChar (n % 10)).isDigit = true := by
      have : n % 10 < 10 := Nat.mod_lt _ (by decide)
      interval_cases (n % 10) <;> decide
    have hcons : ∀ c ∈ Nat.digitChar (n % 10) :: ds, c.isDigit = true := by
      intro c hc
      rcases List.mem_cons.1 hc with e | e
      · rw [e]; exact hd
      · exact h c e
    by_cases h0 : n / 10 = 0
    · simpa [Nat.toDigitsCore, h0] using hcons
    · simpa [Nat.toDigitsCore, h0] using ih (n / 10) _ hcons

theorem natRepr_all_digit (n : Nat) : ∀ c ∈ (toString n).data, c.isDigit = true := by
  have h := toDigitsCore_all_digit (n + 1) n [] (by simp)
  have : (toString n).data = Nat.toDigitsCore 10 (n + 1) n [] := by
    show (Nat.repr n).data = _
    simp [Nat.repr, Nat.toDigits, List.asString]
  rw [this]; exact h

theorem digits_of_labelled (before after : String) (n : Nat)
    (hb : ∀ c ∈ before.data, c.isDigit = false) (ha : ∀ c ∈ after.data, c.isDigit = false) :
    (before ++ toString n ++ after).data.filter Char.isDigit = (toString n).data := by
  have h1 : before.data.filter Char.isDigit = [] := List.filter_eq_nil_iff.2 (by
    intro c hc; simp [hb c hc])
  have h2 : after.data.filter Char.isDigit = [] := List.filter_eq_nil_iff.2 (by
    intro c hc; simp [ha c hc])
  have h3 : (toString n).data.filter Char.isDigit = (toString n).data :=
    List.filter_eq_self.2 (natRepr_all_digit n)
  simp [String.data_append, List.filter_append, h1, h2, h3]

theorem pointsCost_of_labelled (before after : String) (n : Nat)
    (hb : ∀ c ∈ before.data, c.isDigit = false) (ha : ∀ c ∈ after.data, c.isDigit = false)
    (hn : n ≤ 9007199254740992) :
    pointsCost (before ++ toString n ++ after) = if n = 0 then 500 else (n : Int) := by
  rw [pointsCost_eq, digits_of_labelled before after n hb ha, (natRepr_spec n).1,
    toDouble_of_safe n hn]

theorem redeemClick_obj_step (w : World) (r : List (String × Val)) (p : Int) (text : String)
    (hstored : getItem w.storage KEY = some (.wellFormed (.obj r)))
    (hr : allPropsJSON r = true) (hp : getProp r "points" = .num p) :
    (pointsCost text ≤ p →
        redeemClick w text =
          { world :=
              { w with
                storage := setItem w.storage KEY
                  (.wellFormed (.obj (setProp r "points" (.num (p - pointsCost text))))) },
            result := .ok () }) ∧
      (p < pointsCost text → redeemClick w text = { world := w, result := .ok () }) := by
  have hget : getUser w = .ok (.obj r) := getUser_of_stored w _ hstored
  have hclean : cleanProps (assignProps r [("points", .num (p - pointsCost text))]) =
      setProp r "points" (.num (p - pointsCost text)) := by
    have := cleanProps_setProp r "points" (.num (p - pointsCost text)) hr rfl
    simpa [assignProps, jsonClean] using this
  constructor
  · intro hle
    have hge : p ≥ pointsCost text := hle
    simp only [redeemClick, hget, truthy, member, hp, toNumber?, hge, if_true]
    rw [updateUser_obj_step w r _ hstored]
    simp [ownProps, hclean, Except.map]
  · intro hlt
    have hge : ¬ p ≥ pointsCost text := by omega
    simp [redeemClick, hget, truthy, member, hp, toNumber?, hge]

theorem points_kept_by_ui_event (w : World) (e : UiEvent)
    (h : ∃ r p, getItem w.storage KEY = some (.wellFormed (.obj r)) ∧ allPropsJSON r = true ∧
      getProp r "points" = .num p ∧ 0 ≤ p ∧ p ≤ 2450) :
    ∃ r p, getItem (uiAfter w e).storage KEY = some (.wellFormed (.obj r)) ∧
      allPropsJSON r = true ∧ getProp r "points" = .num p ∧ 0 ≤ p ∧ p ≤ 2450 := by
  obtain ⟨r, p, hs, hr, hp, h0, h1⟩ := h
  cases e with
  | redeem text =>
    simp only [uiAfter]
    obtain ⟨hyes, hno⟩ := redeemClick_obj_step w r p text hs hr hp
    have hc := pointsCost_pos text
    by_cases hle : pointsCost text ≤ p
    · rw [hyes hle]
      refine ⟨_, p - pointsCost text, getItem_setItem_same _ _ _,
        allPropsJSON_setProp r _ _ hr rfl, ?_, by omega, by omega⟩
      rw [getProp_setProp]; simp
    · rw [hno (by omega)]
      exact ⟨r, p, hs, hr, hp, h0, h1⟩
  | bookRoom title price nowMs nowIso =>
    simp only [uiAfter, roomBookingClick]
    rcases addBooking_obj_cases w r _ nowMs nowIso hs hr with h | ⟨l, h2, h3⟩
    · rw [h]; exact ⟨r, p, hs, hr, hp, h0, h1⟩
    · rw [h2]
      refine ⟨_, p, getItem_setItem_same _ _ _, h3, ?_, h0, h1⟩
      rw [getProp_setProp]
      simp [hp]

theorem points_kept_by_ui_events (es : List UiEvent) :
    ∀ w : World,
      (∃ r p, getItem w.storage KEY = some (.wellFormed (.obj r)) ∧ allPropsJSON r = true ∧
        getProp r "points" = .num p ∧ 0 ≤ p ∧ p ≤ 2450) →
      ∃ r p, getItem (uiAfterAll w es).storage KEY = some (.wellFormed (.obj r)) ∧
        allPropsJSON r = true ∧ getProp r "points" = .num p ∧ 0 ≤ p ∧ p ≤ 2450 := by
  induction es with
  | nil => intro w h; exact h
  | cons e es ih => intro w h; exact ih (uiAfter w e) (points_kept_by_ui_event w e h)

/-- C19: in every state reached from a login by any sequence of redeem clicks
and room-booking clicks, the stored `points` is an integer between 0 and the
starting balance 2450: it never becomes negative. -/
theorem points_never_negative (w : World) (email name : Val) (nowIso : String)
    (events : List UiEvent) :
    ∃ p : Int, 0 ≤ p ∧ p ≤ 2450 ∧
      fieldOf (getUser (uiAfterAll (login w email name nowIso).world events)) "points" =
        .num p := by
  obtain ⟨r0, hs0, hr0, hp0, _, _, _⟩ := login_stored_any w email name nowIso
  obtain ⟨r, p, hs, _, hp, h0, h1⟩ := points_kept_by_ui_events events
    (login w email name nowIso).world ⟨r0, 2450, hs0, hr0, hp0, by decide, by decide⟩
  exact ⟨p, h0, h1, by simp [getUser_of_stored _ _ hs, fieldOf, member, hp]⟩

/-- C20 (as stated, refuted): the digits of `Redeem 9007199254740993 pts` form
the integer 9007199254740993, but `parseInt` gives the double
9007199254740992; with that many points stored the click debits them all,
although the points are fewer than the integer formed by the digits. -/
theorem redeem_cost_is_rounded :
    decodeDigits ("Redeem 9007199254740993 pts".data.filter Char.isDigit) =
        9007199254740993 ∧
      pointsCost "Redeem 9007199254740993 pts" = 9007199254740992 ∧
      fieldOf (getUser (redeemClick ⟨[(KEY, Cell.wellFormed (.obj [("email", .str "a@x.com"),
          ("points", .num 9007199254740992)]))], ""⟩ "Redeem 9007199254740993 pts").world)
        "points" = .num 0 := by
  refine ⟨by decide, by decide, rfl⟩

/-- C20 (amended): the cost `c` of a redeem click is what `parseInt` gives for
the digits of the button text, or 500 when the text has no digit or the digits
give zero, so `c >= 1`; up to 2^53 it is the integer the digits form (for a
label around the decimal form of `n` it is `n`), beyond that the nearest
double.  For a stored JSON record whose `points` is an integer `p` with
`|p| <= 2^53`, the handler stores the record with `points` `p - c` and every
other field as it was when `p >= c`, and leaves the browser state as it was
when `p < c`; when `getUser()` is falsy (logged out) it leaves the browser
state as it was. -/
theorem redeem_checks_sufficiency (w : World) (text : String) :
    1 ≤ pointsCost text ∧
      (decodeDigits (text.data.filter Char.isDigit) = 0 → pointsCost text = 500) ∧
      (0 < decodeDigits (text.data.filter Char.isDigit) →
        decodeDigits (text.data.filter Char.isDigit) ≤ 9007199254740992 →
        pointsCost text = (decodeDigits (text.data.filter Char.isDigit) : Int)) ∧
      (∀ (before after : String) (n : Nat),
        (∀ c ∈ before.data, c.isDigit = false) → (∀ c ∈ after.data, c.isDigit = false) →
        n ≤ 9007199254740992 →
        pointsCost (before ++ toString n ++ after) = if n = 0 then 500 else (n : Int)) ∧
      (pointsCost "Redeem 500 pts" = 500 ∧ pointsCost "Claim" = 500 ∧
        pointsCost "Redeem 0 pts" = 500 ∧ pointsCost "Redeem 1,200 pts" = 1200 ∧
        pointsCost "2 for 1: 750" = 21750) ∧
      (∀ (r : List (String × Val)) (p : Int),
        getItem w.storage KEY = some (.wellFormed (.obj r)) → isJSON (.obj r) = true →
        getProp r "points" = .num p → -9007199254740992 ≤ p → p ≤ 9007199254740992 →
        (pointsCost text ≤ p →
          (redeemClick w text).result = .ok () ∧
          getItem (redeemClick w text).world.storage KEY =
            some (.wellFormed (.obj (setProp r "points" (.num (p - pointsCost text))))) ∧
          fieldOf (getUser (redeemClick w text).world) "points" =
            .num (p - pointsCost text) ∧
          (∀ k, k ≠ "points" →
            fieldOf (getUser (redeemClick w text).world) k = getProp r k)) ∧
        (p < pointsCost text → redeemClick w text = { world := w, result := .ok () })) ∧
      (∀ v, getUser w = .ok v → truthy v = false →
        redeemClick w text = { world := w, result := .ok () }) := by
  refine ⟨pointsCost_pos text, ?_, ?_, pointsCost_of_labelled,
    ⟨by decide, by decide, by decide, by decide, by decide⟩, ?_, ?_⟩
  · intro h0
    rw [pointsCost_eq, h0]
    decide
  · intro hpos hsafe
    have hne : decodeDigits (text.data.filter Char.isDigit) ≠ 0 := by omega
    rw [pointsCost_eq, toDouble_of_safe _ hsafe]
    simp [hne]
  · intro r p hs hr hp _ _
    simp only [isJSON] at hr
    obtain ⟨hyes, hno⟩ := redeemClick_obj_step w r p text hs hr hp
    refine ⟨?_, hno⟩
    intro hle
    rw [hyes hle]
    refine ⟨rfl, getItem_setItem_same _ _ _, ?_, ?_⟩
    · rw [getUser_of_stored _ _ (getItem_setItem_same _ _ _)]
      simp [fieldOf, member, getProp_setProp]
    · intro k hk
      have hk2 : ¬ "points" = k := fun e => hk e.symm
      rw [getUser_of_stored _ _ (getItem_setItem_same _ _ _)]
      simp [fieldOf, member, getProp_setProp, hk2]
  · intro v hg hv
    simp [redeemClick, hg, hv]

/-- Witness for C20: a click on `Redeem 500 pts` with 2450 points stored
leaves 1950 points and the email as it was. -/
theorem redeem_checks_sufficiency_witness :
    fieldOf (getUser (redeemClick ⟨[(KEY, Cell.wellFormed (.obj [("email", .str "a@x.com"),
        ("points", .num 2450)]))], ""⟩ "Redeem 500 pts").world) "points" = .num 1950 ∧
      getItem (redeemClick ⟨[(KEY, Cell.wellFormed (.obj [("email", .str "a@x.com"),
        ("points", .num 2450)]))], ""⟩ "Redeem 500 pts").world.storage KEY =
        some (.wellFormed (.obj [("email", .str "a@x.com"), ("points", .num 1950)])) ∧
      redeemClick ⟨[(KEY, Cell.wellFormed (.obj [("email", .str "a@x.com"),
        ("points", .num 2450)]))], ""⟩ "Redeem 5000 pts" =
        { world := ⟨[(KEY, Cell.wellFormed (.obj [("email", .str "a@x.com"),
            ("points", .num 2450)]))], ""⟩, result := .ok () } :=
  ⟨(((redeem_checks_sufficiency ⟨[(KEY, Cell.wellFormed (.obj [("email", .str "a@x.com"),
        ("points", .num 2450)]))], ""⟩ "Redeem 500 pts").2.2.2.2.2.1
      [("email", .str "a@x.com"), ("points", .num 2450)] 2450 rfl rfl rfl (by decide)
      (by decide)).1 (by decide)).2.2.1,
    (((redeem_checks_sufficiency ⟨[(KEY, Cell.wellFormed (.obj [("email", .str "a@x.com"),
        ("points", .num 2450)]))], ""⟩ "Redeem 500 pts").2.2.2.2.2.1
      [("email", .str "a@x.com"), ("points", .num 2450)] 2450 rfl rfl rfl (by decide)
      (by decide)).1 (by decide)).2.1,
    ((redeem_checks_sufficiency ⟨[(KEY, Cell.wellFormed (.obj [("email", .str "a@x.com"),
        ("points", .num 2450)]))], ""⟩ "Redeem 5000 pts").2.2.2.2.2.1
      [("email", .str "a@x.com"), ("points", .num 2450)] 2450 rfl rfl rfl (by decide)
      (by decide)).2 (by decide)⟩

theorem getItem_setItem_ne (st : Storage) (key k : String) (c : Cell) (h : k ≠ key) :
    getItem (setItem st key c) k = getItem st k := by
  induction st with
  | nil =>
    have h2 : ¬ key = k := fun e => h e.symm
    simp [setItem, getItem, h2]
  | cons p st ih =>
    obtain ⟨k2, x⟩ := p
    by_cases hk : k2 = key
    · subst hk
      have h2 : ¬ k2 = k := fun e => h e.symm
      simp [setItem, getItem, h2]
    · by_cases hk2 : k2 = k
      · subst hk2
        simp [setItem, getItem, hk]
      · simp [setItem, getItem, hk, hk2, ih]

theorem getItem_removeItem_ne (st : Storage) (key k : String) (h : k ≠ key) :
    getItem (removeItem st key) k = getItem st k := by
  induction st with
  | nil => simp [removeItem, getItem]
  | cons p st ih =>
    obtain ⟨k2, x⟩ := p
    by_cases hk : k2 = key
    · subst hk
      have h2 : ¬ k2 = k := fun e => h e.symm
      simp [removeItem, getItem, h2, ih]
    · by_cases hk2 : k2 = k
      · subst hk2
        simp [removeItem, getItem, hk]
      · simp [removeItem, getItem, hk, hk2, ih]

theorem getUser_congr (w w2 : World) (h : getItem w2.storage KEY = getItem w.storage KEY) :
    getUser w2 = getUser w := by
  simp [getUser, h]

theorem cell_after_call (w w2 : World) (c : Call) (k : String)
    (hu : getUser w2 = getUser w) (hk : getItem w2.storage k = getItem w.storage k) :
    getItem (worldAfter w2 c).storage k = getItem (worldAfter w c).storage k := by
  by_cases hkey : k = KEY
  · subst hkey
    cases c with
    | getUser => exact hk
    | isLoggedIn => exact hk
    | login e n iso => simp [worldAfter, login, getItem_setItem_same]
    | logout => simp [worldAfter, logout, getItem_removeItem_same]
    | updateUser u =>
      simp only [worldAfter, updateUser, hu]
      cases getUser w with
      | error e => exact hk
      | ok user =>
        by_cases ht : truthy user = true
        · cases ha : objectAssign user u with
          | error e => simpa [ht, ha] using hk
          | ok u1 => simp [ht, ha, getItem_setItem_same]
        · simpa [ht] using hk
    | addBooking b nowMs nowIso =>
      simp only [worldAfter, addBooking, hu]
      cases getUser w with
      | error e => exact hk
      | ok user =>
        by_cases ht : truthy user = true
        · cases ha : pushEntry user "bookings" (bookingEntry b nowMs nowIso) with
          | error e => simpa [ht, ha] using hk
          | ok u1 => simp [ht, ha, getItem_setItem_same]
        · simpa [ht] using hk
    | addTicket t nowMs =>
      simp only [worldAfter, addTicket, hu]
      cases getUser w with
      | error e => exact hk
      | ok user =>
        by_cases ht : truthy user = true
        · cases ha : pushEntry user "tickets" (ticketEntry t nowMs) with
          | error e => simpa [ht, ha] using hk
          | ok u1 => simp [ht, ha, getItem_setItem_same]
        · simpa [ht] using hk
  · cases c with
    | getUser => exact hk
    | isLoggedIn => exact hk
    | login e n iso => simpa [worldAfter, login, getItem_setItem_ne _ _ _ _ hkey] using hk
    | logout => simpa [worldAfter, logout, getItem_removeItem_ne _ _ _ hkey] using hk
    | updateUser u =>
      simp only [worldAfter, updateUser, hu]
      cases getUser w with
      | error e => exact hk
      | ok user =>
        by_cases ht : truthy user = true
        · cases ha : objectAssign user u with
          | error e => simpa [ht, ha] using hk
          | ok u1 => simpa [ht, ha, getItem_setItem_ne _ _ _ _ hkey] using hk
        · simpa [ht] using hk
    | addBooking b nowMs nowIso =>
      simp only [worldAfter, addBooking, hu]
      cases getUser w with
      | error e => exact hk
      | ok user =>
        by_cases ht : truthy user = true
        · cases ha : pushEntry user "bookings" (bookingEntry b nowMs nowIso) with
          | error e => simpa [ht, ha] using hk
          | ok u1 => simpa [ht, ha, getItem_setItem_ne _ _ _ _ hkey] using hk
        · simpa [ht] using hk
    | addTicket t nowMs =>
      simp only [worldAfter, addTicket, hu]
      cases getUser w with
      | error e => exact hk
      | ok user =>
        by_cases ht : truthy user = true
        · cases ha : pushEntry user "tickets" (ticketEntry t nowMs) with
          | error e => simpa [ht, ha] using hk
          | ok u1 => simpa [ht, ha, getItem_setItem_ne _ _ _ _ hkey] using hk
        · simpa [ht] using hk

theorem cell_kept_by_call (w : World) (c : Call) (k : String) (hkey : k ≠ KEY) :
    getItem (worldAfter w c).storage k = getItem w.storage k := by
  cases c with
  | getUser => rfl
  | isLoggedIn => rfl
  | login e n iso => simp [worldAfter, login, getItem_setItem_ne _ _ _ _ hkey]
  | logout => simp [worldAfter, logout, getItem_removeItem_ne _ _ _ hkey]
  | updateUser u =>
    simp only [worldAfter, updateUser]
    cases getUser w with
    | error e => rfl
    | ok user =>
      by_cases ht : truthy user = true
      · cases ha : objectAssign user u with
        | error e => simp [ht, ha]
        | ok u1 => simp [ht, ha, getItem_setItem_ne _ _ _ _ hkey]
      · simp [ht]
  | addBooking b nowMs nowIso =>
    simp only [worldAfter, addBooking]
    cases getUser w with
    | error e => rfl
    | ok user =>
      by_cases ht : truthy user = true
      · cases ha : pushEntry user "bookings" (bookingEntry b nowMs nowIso) with
        | error e => simp [ht, ha]
        | ok u1 => simp [ht, ha, getItem_setItem_ne _ _ _ _ hkey]
      · simp [ht]
  | addTicket t nowMs =>
    simp only [worldAfter, addTicket]
    cases getUser w with
    | error e => rfl
    | ok user =>
      by_cases ht : truthy user = true
      · cases ha : pushEntry user "tickets" (ticketEntry t nowMs) with
        | error e => simp [ht, ha]
        | ok u1 => simp [ht, ha, getItem_setItem_ne _ _ _ _ hkey]
      · simp [ht]

theorem cell_kept_by_save (w : World) (p : Val) (nameInput emailInput phoneInput : String)
    (uploaded : Option String) (k : String) (hk : k ≠ PROFILE_KEY) :
    getItem (saveProfileClick w p nameInput emailInput phoneInput uploaded).world.storage k =
      getItem w.storage k := by
  unfold saveProfileClick
  split
  · rfl
  · split
    · rfl
    · simp [getItem_setItem_ne _ _ _ _ hk]

/-- C21: no call of `Auth` changes the cell under the profile-editor key, and
none reads it: with any other text under that key `getUser()` returns the same
value and every call leaves the same session cell.  The profile editor's Save
neither changes the cell under the session key (so `getUser()`, hence points,
bookings and tickets, are as before) nor reads it: with any other text under
the session key it leaves the same profile cell. -/
theorem session_and_profile_decoupled (w : World) (c : Call) (cell : Cell) (p : Val)
    (nameInput emailInput phoneInput : String) (uploaded : Option String) :
    getItem (worldAfter w c).storage PROFILE_KEY = getItem w.storage PROFILE_KEY ∧
      getUser { w with storage := setItem w.storage PROFILE_KEY cell } = getUser w ∧
      getItem (worldAfter { w with storage := setItem w.storage PROFILE_KEY cell } c).storage
          KEY = getItem (worldAfter w c).storage KEY ∧
      getItem (saveProfileClick w p nameInput emailInput phoneInput uploaded).world.storage
          KEY = getItem w.storage KEY ∧
      getUser (saveProfileClick w p nameInput emailInput phoneInput uploaded).world =
        getUser w ∧
      (∀ k, fieldOf (getUser (saveProfileClick w p nameInput emailInput phoneInput
          uploaded).world) k = fieldOf (getUser w) k) ∧
      getItem (saveProfileClick { w with storage := setItem w.storage KEY cell } p nameInput
          emailInput phoneInput uploaded).world.storage PROFILE_KEY =
        getItem (saveProfileClick w p nameInput emailInput phoneInput uploaded).world.storage
          PROFILE_KEY := by
  have hne : PROFILE_KEY ≠ KEY := by decide
  have hne2 : KEY ≠ PROFILE_KEY := by decide
  have hcell : getItem (setItem w.storage PROFILE_KEY cell) KEY = getItem w.storage KEY :=
    getItem_setItem_ne _ _ _ _ hne2
  have hu : getUser { w with storage := setItem w.storage PROFILE_KEY cell } = getUser w :=
    getUser_congr _ _ hcell
  have hsave := cell_kept_by_save w p nameInput emailInput phoneInput uploaded KEY hne2
  have hus : getUser (saveProfileClick w p nameInput emailInput phoneInput uploaded).world =
      getUser w := getUser_congr _ _ hsave
  refine ⟨cell_kept_by_call w c PROFILE_KEY hne, hu, cell_after_call _ _ c KEY hu hcell,
    hsave, hus, fun k => by rw [hus], ?_⟩
  unfold saveProfileClick
  split
  · exact getItem_setItem_ne _ _ _ _ hne
  · split
    · exact getItem_setItem_ne _ _ _ _ hne
    · simp [getItem_setItem_same]

/-- C26: the guest-dashboard `Logout` click, confirmed or not, removes at most
the key `nexusUser`: the cell under the session key is as before, so
`getUser()` and `isLoggedIn()` return the same values after the click as
before it; in particular a logged-in user stays logged in. -/
theorem dashboard_logout_keeps_session (w : World) (confirmed : Bool) :
    getItem (dashboardLogoutClick w confirmed).storage KEY = getItem w.storage KEY ∧
      getUser (dashboardLogoutClick w confirmed) = getUser w ∧
      isLoggedIn (dashboardLogoutClick w confirmed) = isLoggedIn w ∧
      getItem (dashboardLogoutClick w true).storage "nexusUser" = none ∧
      (∀ k, k ≠ "nexusUser" →
        getItem (dashboardLogoutClick w confirmed).storage k = getItem w.storage k) ∧
      (∀ (email name : Val) (nowIso : String),
        isLoggedIn (dashboardLogoutClick (login w email name nowIso).world true) =
          .ok true) := by
  have hall : ∀ (w1 : World) (k : String), k ≠ "nexusUser" →
      getItem (dashboardLogoutClick w1 confirmed).storage k = getItem w1.storage k := by
    intro w1 k hk
    cases confirmed
    · rfl
    · simp [dashboardLogoutClick, getItem_removeItem_ne _ _ _ hk]
  have hkey := hall w KEY (by decide)
  have hu := getUser_congr _ _ hkey
  refine ⟨hkey, hu, ?_, ?_, hall w, ?_⟩
  · simp [isLoggedIn, hu]
  · simp [dashboardLogoutClick, getItem_removeItem_same]
  · intro email name nowIso
    have h1 : getItem (dashboardLogoutClick (login w email name nowIso).world true).storage KEY =
        getItem (login w email name nowIso).world.storage KEY := by
      simp [dashboardLogoutClick, getItem_removeItem_ne _ "nexusUser" KEY (by decide)]
    have h2 := getUser_congr _ _ h1
    have h3 : isLoggedIn (login w email name nowIso).world = .ok true :=
      isLoggedIn_after_store w (loginRecord email name nowIso) rfl
    simpa [isLoggedIn, h2] using h3

/-- Witness for C26: a confirmed click with both keys in storage. -/
theorem dashboard_logout_keeps_session_witness :
    KEY ≠ "nexusUser" ∧
      getItem (dashboardLogoutClick ⟨[("nexusUser", Cell.malformed "x"),
        (KEY, Cell.wellFormed (.num 1))], ""⟩ true).storage KEY =
        getItem [("nexusUser", Cell.malformed "x"), (KEY, Cell.wellFormed (.num 1))] KEY :=
  ⟨by decide, (dashboard_logout_keeps_session ⟨[("nexusUser", Cell.malformed "x"),
    (KEY, Cell.wellFormed (.num 1))], ""⟩ true).2.2.2.2.1 KEY (by decide)⟩

theorem jsOr_textContent (t : Option String) (d : String) :
    jsOr (textContent t) (.str d) = .str (if t.getD "" = "" then d else t.getD "") := by
  cases t with
  | none => simp [textContent, jsOr, truthy]
  | some s =>
    by_cases h : s = ""
    · simp [textContent, jsOr, truthy, h]
    · simp [textContent, jsOr, truthy, h]

/-- C23: a click on `Book Now` / `Reserve` makes one `addBooking` call.  For a
session key holding a JSON object whose bookings are the list `l`, it
completes normally and the stored bookings become `l` followed by one entry
with type `room`, status `confirmed`, the title and price of the card (`Room`
and `KES 12,000` when the card has no such text), the generated id and date;
every other field of the record is as before.  When `getUser()` is falsy
(logged out) the browser state is left as it was. -/
theorem room_booking_click_appends_one (w : World) (title price : Option String)
    (nowMs : Int) (nowIso : String) :
    roomBookingClick w title price nowMs nowIso =
        addBooking w (.obj [("type", .str "room"),
          ("title", .str (if title.getD "" = "" then "Room" else title.getD "")),
          ("price", .str (if price.getD "" = "" then "KES 12,000" else price.getD "")),
          ("status", .str "confirmed")]) nowMs nowIso ∧
      (∀ (r : List (String × Val)) (l : List Val),
        getItem w.storage KEY = some (.wellFormed (.obj r)) → isJSON (.obj r) = true →
        getProp r "bookings" = .arr l →
        (roomBookingClick w title price nowMs nowIso).result = .ok () ∧
        fieldOf (getUser (roomBookingClick w title price nowMs nowIso).world) "bookings" =
          .arr (l ++ [.obj [("type", .str "room"),
            ("title", .str (if title.getD "" = "" then "Room" else title.getD "")),
            ("price", .str (if price.getD "" = "" then "KES 12,000" else price.getD "")),
            ("status", .str "confirmed"), ("id", .str ("BK-" ++ toString nowMs)),
            ("date", .str nowIso)]]) ∧
        (∀ k, k ≠ "bookings" →
          fieldOf (getUser (roomBookingClick w title price nowMs nowIso).world) k =
            getProp r k)) ∧
      (∀ v, getUser w = .ok v → truthy v = false →
        roomBookingClick w title price nowMs nowIso = { world := w, result := .ok () }) := by
  have hdef : roomBookingClick w title price nowMs nowIso =
      addBooking w (.obj [("type", .str "room"),
        ("title", .str (if title.getD "" = "" then "Room" else title.getD "")),
        ("price", .str (if price.getD "" = "" then "KES 12,000" else price.getD "")),
        ("status", .str "confirmed")]) nowMs nowIso := by
    simp [roomBookingClick, jsOr_textContent]
  refine ⟨hdef, ?_, ?_⟩
  · intro r l hs hr hl
    simp only [isJSON] at hr
    rw [hdef, addBooking_step w r l _ nowMs nowIso hs hr hl]
    have hentry : jsonClean (bookingEntry (.obj [("type", .str "room"),
        ("title", .str (if title.getD "" = "" then "Room" else title.getD "")),
        ("price", .str (if price.getD "" = "" then "KES 12,000" else price.getD "")),
        ("status", .str "confirmed")]) nowMs nowIso) =
        .obj [("type", .str "room"),
          ("title", .str (if title.getD "" = "" then "Room" else title.getD "")),
          ("price", .str (if price.getD "" = "" then "KES 12,000" else price.getD "")),
          ("status", .str "confirmed"), ("id", .str ("BK-" ++ toString nowMs)),
          ("date", .str nowIso)] := by
      simp [bookingEntry, spread, ownProps, assignProps, setProp, jsonClean, cleanProps,
        isUndefined]
    refine ⟨rfl, ?_, ?_⟩
    · rw [getUser_of_stored _ _ (getItem_setItem_same _ _ _), hentry]
      simp [fieldOf, member, getProp_setProp]
    · intro k hk
      have hk2 : ¬ "bookings" = k := fun e => hk e.symm
      rw [getUser_of_stored _ _ (getItem_setItem_same _ _ _)]
      simp [fieldOf, member, getProp_setProp, hk2]
  · intro v hg hv
    simp [roomBookingClick, addBooking, hg, hv]

/-- Witness for C23: a click on a card without heading or price text, with one
earlier booking stored. -/
theorem room_booking_click_appends_one_witness :
    fieldOf (getUser (roomBookingClick ⟨[(KEY, Cell.wellFormed (.obj [("bookings",
        .arr [.obj [("id", .str "BK-1")]])]))], ""⟩ none (some "") 2
        "2026-01-01T00:00:00.000Z").world) "bookings" =
      .arr ([.obj [("id", .str "BK-1")]] ++ [.obj [("type", .str "room"),
        ("title", .str (if (none : Option String).getD "" = "" then "Room"
          else (none : Option String).getD "")),
        ("price", .str (if (some "").getD "" = "" then "KES 12,000" else (some "").getD "")),
        ("status", .str "confirmed"), ("id", .str ("BK-" ++ toString (2 : Int))),
        ("date", .str "2026-01-01T00:00:00.000Z")]]) :=
  ((room_booking_click_appends_one ⟨[(KEY, Cell.wellFormed (.obj [("bookings",
      .arr [.obj [("id", .str "BK-1")]])]))], ""⟩ none (some "") 2
    "2026-01-01T00:00:00.000Z").2.1 [("bookings", .arr [.obj [("id", .str "BK-1")]])]
    [.obj [("id", .str "BK-1")]] rfl rfl rfl).2.1

theorem isJSON_member_of_truthy (p : Val) (key : String) (hp : isJSON p = true)
    (ht : truthy (member p key) = true) : isJSON (member p key) = true := by
  cases p with
  | obj ps =>
    simp only [isJSON] at hp
    exact isJSON_getProp_of_defined ps key hp (isUndefined_of_truthy _ ht)
  | undefined => simp [member, truthy] at ht
  | null => simp [member, truthy] at ht
  | bool b => simp [member, truthy] at ht
  | num n => simp [member, truthy] at ht
  | str s => simp [member, truthy] at ht
  | arr xs => simp [member, truthy] at ht

theorem isJSON_savedAvatar (p : Val) (uploaded : Option String) (hp : isJSON p = true) :
    isJSON (jsOr (jsOr (dataAttr uploaded) (member p "avatar")) (.str "")) = true := by
  unfold jsOr
  by_cases h1 : truthy (dataAttr uploaded) = true
  · cases uploaded with
    | none => simp [dataAttr, truthy] at h1
    | some s =>
      simp only [dataAttr] at h1 ⊢
      simp [h1, isJSON]
  · by_cases h2 : truthy (member p "avatar") = true
    · simp [h1, h2, isJSON_member_of_truthy p "avatar" hp h2]
    · simp [h1, h2, isJSON]

theorem stringify_savedProfile (p : Val) (nameInput emailInput phoneInput : String)
    (uploaded : Option String) (hp : isJSON p = true) :
    stringify (savedProfile p nameInput emailInput phoneInput uploaded) =
      .wellFormed (savedProfile p nameInput emailInput phoneInput uploaded) := by
  have hj : isJSON (savedProfile p nameInput emailInput phoneInput uploaded) = true := by
    simp [savedProfile, isJSON, allPropsJSON, isJSON_savedAvatar p uploaded hp]
  simp [stringify, isUndefined_of_isJSON _ hj, jsonClean_of_isJSON _ hj]

theorem jsTrim_data (s : String) :
    (jsTrim s).data = ((s.data.dropWhile isJsSpace).reverse.dropWhile isJsSpace).reverse := rfl

theorem jsTrim_spec (s : String) :
    ∃ pre post, s.data = pre ++ (jsTrim s).data ++ post ∧
      (∀ c ∈ pre, isJsSpace c = true) ∧ (∀ c ∈ post, isJsSpace c = true) ∧
      (∀ c, (jsTrim s).data.head? = some c → isJsSpace c = false) ∧
      (∀ c, (jsTrim s).data.getLast? = some c → isJsSpace c = false) := by
  have hlast : ∀ c, (jsTrim s).data.getLast? = some c → isJsSpace c = false := by
    intro c hc
    rw [jsTrim_data, List.getLast?_reverse] at hc
    have := List.head?_dropWhile_not isJsSpace (s.data.dropWhile isJsSpace).reverse
    rw [hc] at this
    simpa using this
  have hsplit : s.data.dropWhile isJsSpace =
      (jsTrim s).data ++ ((s.data.dropWhile isJsSpace).reverse.takeWhile isJsSpace).reverse := by
    rw [jsTrim_data, ← List.reverse_append, List.takeWhile_append_dropWhile, List.reverse_reverse]
  refine ⟨s.data.takeWhile isJsSpace,
    ((s.data.dropWhile isJsSpace).reverse.takeWhile isJsSpace).reverse, ?_, ?_, ?_, ?_, hlast⟩
  · rw [List.append_assoc, ← hsplit, List.takeWhile_append_dropWhile]
  · intro c hc
    exact List.mem_takeWhile_imp hc
  · intro c hc
    exact List.mem_takeWhile_imp (List.mem_reverse.1 hc)
  · intro c hc
    have h1 : (s.data.dropWhile isJsSpace).head? = some c := by
      rw [hsplit, List.head?_append, hc]; rfl
    have := List.head?_dropWhile_not isJsSpace s.data
    rw [h1] at this
    simpa using this

theorem jsTrim_of_blank (s : String) (h : ∀ c ∈ s.data, isJsSpace c = true) : jsTrim s = "" := by
  have h1 : s.data.dropWhile isJsSpace = [] := List.dropWhile_eq_nil_iff.2 h
  apply String.ext
  rw [jsTrim_data, h1]
  rfl

theorem jsTrim_of_trimmed (s : String)
    (hh : ∀ c, s.data.head? = some c → isJsSpace c = false)
    (hl : ∀ c, s.data.getLast? = some c → isJsSpace c = false) : jsTrim s = s := by
  have h1 : s.data.dropWhile isJsSpace = s.data := by
    cases hd : s.data with
    | nil => rfl
    | cons c cs =>
      have := hh c (by rw [hd]; rfl)
      simp [List.dropWhile, this]
  have h2 : s.data.reverse.dropWhile isJsSpace = s.data.reverse := by
    cases hd : s.data.reverse with
    | nil => rfl
    | cons c cs =>
      have hc : s.data.getLast? = some c := by
        rw [List.getLast?_eq_head?_reverse, hd]; rfl
      have := hl c hc
      simp [List.dropWhile, this]
  apply String.ext
  rw [jsTrim_data, h1, h2, List.reverse_reverse]

/-- C24: Save accepts the inputs exactly when the trimmed name is not empty
and the trimmed email is not empty and contains `@`.  When it accepts, the
profile-editor key holds the JSON object with the four fields name, email,
phone, avatar: the trimmed inputs, and as avatar the uploaded image, else the
avatar of the profile read when the dialog was opened, else the empty text.
When it rejects, in particular for a name made of blanks only, the browser
state is left as it was.  The trimmed form of a text is the text without its
leading and trailing white space: it begins and ends with a character that is
not white space, and a text that already does so is stored as it is. -/
theorem profile_save_validates (w : World) (p : Val)
    (nameInput emailInput phoneInput : String) (uploaded : Option String)
    (hp : isJSON p = true) :
    (profileInputsValid nameInput emailInput = true ↔
        jsTrim nameInput ≠ "" ∧ jsTrim emailInput ≠ "" ∧ '@' ∈ (jsTrim emailInput).data) ∧
      (profileInputsValid nameInput emailInput = true →
        (saveProfileClick w p nameInput emailInput phoneInput uploaded).result = .ok () ∧
        getItem (saveProfileClick w p nameInput emailInput phoneInput uploaded).world.storage
          PROFILE_KEY =
          some (.wellFormed (.obj [("name", .str (jsTrim nameInput)),
            ("email", .str (jsTrim emailInput)), ("phone", .str (jsTrim phoneInput)),
            ("avatar", jsOr (jsOr (dataAttr uploaded) (member p "avatar")) (.str ""))]))) ∧
      (profileInputsValid nameInput emailInput = false →
        saveProfileClick w p nameInput emailInput phoneInput uploaded =
          { world := w, result := .ok () }) ∧
      (∀ image, uploaded = some image → image ≠ "" →
        jsOr (jsOr (dataAttr uploaded) (member p "avatar")) (.str "") = .str image) ∧
      ((uploaded = none ∨ uploaded = some "") → truthy (member p "avatar") = true →
        jsOr (jsOr (dataAttr uploaded) (member p "avatar")) (.str "") = member p "avatar") ∧
      ((uploaded = none ∨ uploaded = some "") → truthy (member p "avatar") = false →
        jsOr (jsOr (dataAttr uploaded) (member p "avatar")) (.str "") = .str "") ∧
      ((∀ c ∈ nameInput.data, isJsSpace c = true) →
        saveProfileClick w p nameInput emailInput phoneInput uploaded =
          { world := w, result := .ok () }) ∧
      (∀ s : String, ∃ before after, s.data = before ++ (jsTrim s).data ++ after ∧
        (∀ c ∈ before, isJsSpace c = true) ∧ (∀ c ∈ after, isJsSpace c = true) ∧
        (∀ c, (jsTrim s).data.head? = some c → isJsSpace c = false) ∧
        (∀ c, (jsTrim s).data.getLast? = some c → isJsSpace c = false)) ∧
      (∀ s : String, (∀ c, s.data.head? = some c → isJsSpace c = false) →
        (∀ c, s.data.getLast? = some c → isJsSpace c = false) → jsTrim s = s) ∧
      (jsTrim "  Ann Lee \t\n" = "Ann Lee" ∧ jsTrim " \n " = "" ∧
        isJsSpace ' ' = true ∧ isJsSpace (Char.ofNat 160) = true ∧
        isJsSpace 'A' = false ∧ isJsSpace '@' = false) := by
  have hiff : profileInputsValid nameInput emailInput = true ↔
      jsTrim nameInput ≠ "" ∧ jsTrim emailInput ≠ "" ∧ '@' ∈ (jsTrim emailInput).data := by
    simp [profileInputsValid]
  have hup : (uploaded = none ∨ uploaded = some "") → truthy (dataAttr uploaded) = false := by
    rintro (h | h) <;> simp [h, dataAttr, truthy]
  refine ⟨hiff, ?_, ?_, ?_, ?_, ?_, ?_, jsTrim_spec, jsTrim_of_trimmed,
    ⟨by decide, by decide, by decide, by decide, by decide, by decide⟩⟩
  · intro hv
    obtain ⟨h1, h2, h3⟩ := hiff.1 hv
    have hrun : saveProfileClick w p nameInput emailInput phoneInput uploaded =
        { world :=
            { w with
              storage := setItem w.storage PROFILE_KEY
                (stringify (savedProfile p nameInput emailInput phoneInput uploaded)) },
          result := .ok () } := by
      simp [saveProfileClick, h1, h2, h3]
    rw [hrun]
    refine ⟨rfl, ?_⟩
    simp only [getItem_setItem_same, stringify_savedProfile p _ _ _ uploaded hp]
    rfl
  · intro hv
    have hn : ¬ (jsTrim nameInput ≠ "" ∧ jsTrim emailInput ≠ "" ∧
        '@' ∈ (jsTrim emailInput).data) := by
      intro h
      rw [hiff.2 h] at hv
      exact absurd hv (by decide)
    by_cases h1 : jsTrim nameInput = ""
    · simp [saveProfileClick, h1]
    · by_cases h2 : jsTrim emailInput = ""
      · simp [saveProfileClick, h1, h2]
      · have h3 : ¬ '@' ∈ (jsTrim emailInput).data := fun h => hn ⟨h1, h2, h⟩
        simp [saveProfileClick, h1, h2, h3]
  · intro image hu hne
    simp [hu, dataAttr, jsOr, truthy, hne]
  · intro hu ht
    simp [jsOr, hup hu, ht]
  · intro hu ht
    simp [jsOr, hup hu, ht]
  · intro hb
    simp [saveProfileClick, jsTrim_of_blank nameInput hb]

/-- Witness for C24: a save of ` Ann ` and `ann@x.com ` with no image and an
empty stored profile stores the trimmed texts; a name of three blanks is
refused. -/
theorem profile_save_validates_witness :
    getItem (saveProfileClick ⟨[], ""⟩ (.obj []) " Ann " "ann@x.com " " 0700" none).world.storage
        PROFILE_KEY =
        some (.wellFormed (.obj [("name", .str "Ann"), ("email", .str "ann@x.com"),
          ("phone", .str "0700"), ("avatar", .str "")])) ∧
      saveProfileClick ⟨[], ""⟩ (.obj []) "   " "ann@x.com" "0700" none =
        { world := ⟨[], ""⟩, result := .ok () } :=
  ⟨((profile_save_validates ⟨[], ""⟩ (.obj []) " Ann " "ann@x.com " " 0700" none
      rfl).2.1 (by decide)).2,
    (profile_save_validates ⟨[], ""⟩ (.obj []) "   " "ann@x.com" "0700" none
      rfl).2.2.2.2.2.2.1 (by decide)⟩

theorem truthy_jsOr_str (a : Val) (d : String) (hd : d ≠ "") :
    truthy (jsOr a (.str d)) = true := by
  by_cases h : truthy a = true
  · rw [jsOr, if_pos h]; exact h
  · rw [jsOr, if_neg h]; simp [truthy, hd]

theorem takeWhile_append_stop {α : Type} (q : α → Bool) (l1 l2 : List α) (a : α)
    (h1 : ∀ c ∈ l1, q c = true) (ha : q a = false) :
    (l1 ++ a :: l2).takeWhile q = l1 := by
  induction l1 with
  | nil => simp [List.takeWhile, ha]
  | cons c cs ih =>
    have hc : q c = true := h1 c (List.mem_cons_self _ _)
    simp only [List.cons_append, List.takeWhile, hc]
    exact congrArg (List.cons c) (ih (fun d hd => h1 d (List.mem_cons_of_mem _ hd)))

theorem takeWhile_all {α : Type} (q : α → Bool) (l : List α) (h : ∀ c ∈ l, q c = true) :
    l.takeWhile q = l := by
  induction l with
  | nil => rfl
  | cons c cs ih =>
    have hc : q c = true := h c (List.mem_cons_self _ _)
    simp only [List.takeWhile, hc]
    rw [ih (fun d hd => h d (List.mem_cons_of_mem _ hd))]

theorem splicedAttribute_of_plain (s : String)
    (h : ∀ c ∈ s.data, c ≠ doubleQuote ∧ c ≠ '&' ∧ c.toNat ≠ 0) :
    splicedAttribute s = some s := by
  have h1 : s.data.takeWhile (fun c => c != doubleQuote) = s.data :=
    takeWhile_all _ _ (fun c hc => by simp [(h c hc).1])
  have h2 : s.data.any (fun c => c == '&' || c.toNat == 0) = false := by
    rw [List.any_eq_false]
    intro c hc
    simp [(h c hc).2.1, (h c hc).2.2]
  simp [splicedAttribute, h1, h2]

theorem splicedAttribute_cut (s t : String)
    (h : ∀ c ∈ s.data, c ≠ doubleQuote ∧ c ≠ '&' ∧ c.toNat ≠ 0) :
    splicedAttribute (s ++ String.singleton doubleQuote ++ t) = some s := by
  have hdata : (s ++ String.singleton doubleQuote ++ t).data =
      s.data ++ doubleQuote :: t.data := by
    simp [String.data_append, String.singleton]
  have h1 : (s.data ++ doubleQuote :: t.data).takeWhile (fun c => c != doubleQuote) = s.data :=
    takeWhile_append_stop _ _ _ _ (fun c hc => by simp [(h c hc).1]) (by simp)
  have h2 : s.data.any (fun c => c == '&' || c.toNat == 0) = false := by
    rw [List.any_eq_false]
    intro c hc
    simp [(h c hc).2.1, (h c hc).2.2]
  simp [splicedAttribute, hdata, h1, h2]

theorem stripNewlines_of_plain (s : String)
    (h : ∀ c ∈ s.data, c.toNat ≠ 10 ∧ c.toNat ≠ 13) : stripNewlines s = s := by
  have h1 : s.data.filter (fun c => c.toNat != 10 && c.toNat != 13) = s.data := by
    rw [List.filter_eq_self]
    intro c hc
    simp [(h c hc).1, (h c hc).2]
  simp [stripNewlines, h1]

theorem isJsSpace_of_isAsciiSpace (c : Char) (h : isAsciiSpace c = true) :
    isJsSpace c = true := by
  simp only [isAsciiSpace, Bool.or_eq_true, beq_iff_eq] at h
  simp only [isJsSpace, Bool.or_eq_true, beq_iff_eq]
  rcases h with (((h | h) | h) | h) | h <;> simp [h]

theorem sanitizeEmail_of_trimmed (s : String)
    (hn : ∀ c ∈ s.data, c.toNat ≠ 10 ∧ c.toNat ≠ 13)
    (hh : ∀ c, s.data.head? = some c → isJsSpace c = false)
    (hl : ∀ c, s.data.getLast? = some c → isJsSpace c = false) : sanitizeEmail s = s := by
  have hno : ∀ c, isJsSpace c = false → isAsciiSpace c = false := by
    intro c hc
    cases ha : isAsciiSpace c with
    | false => rfl
    | true => rw [isJsSpace_of_isAsciiSpace c ha] at hc; cases hc
  have h1 : s.data.dropWhile isAsciiSpace = s.data := by
    cases hd : s.data with
    | nil => rfl
    | cons c cs =>
      have := hno c (hh c (by rw [hd]; rfl))
      simp [List.dropWhile, this]
  have h2 : s.data.reverse.dropWhile isAsciiSpace = s.data.reverse := by
    cases hd : s.data.reverse with
    | nil => rfl
    | cons c cs =>
      have hc : s.data.getLast? = some c := by
        rw [List.getLast?_eq_head?_reverse, hd]; rfl
      have := hno c (hl c hc)
      simp [List.dropWhile, this]
  apply String.ext
  simp only [sanitizeEmail, stripNewlines_of_plain s hn]
  rw [h1, h2, List.reverse_reverse]

theorem sanitizeEmail_jsTrim (s : String)
    (hn : ∀ c ∈ (jsTrim s).data, c.toNat ≠ 10 ∧ c.toNat ≠ 13) :
    sanitizeEmail (jsTrim s) = jsTrim s := by
  obtain ⟨_, _, _, _, _, hh, hl⟩ := jsTrim_spec s
  exact sanitizeEmail_of_trimmed _ hn hh hl

/-- C27 (as stated, refuted): the name `Ann "Bee` passes the checks of Save and
is stored as typed, but the reopened dialog splices it unescaped into
`value="..."`, so the name field holds `Ann `, the part before the quote, and
not the saved name. -/
theorem saved_quote_not_shown_as_saved :
    profileInputsValid ("Ann " ++ String.singleton doubleQuote ++ "Bee") "ann@x.com" = true ∧
      ∃ m, openProfileModal
            (saveProfileClick ⟨[], ""⟩ (.obj [])
              ("Ann " ++ String.singleton doubleQuote ++ "Bee") "ann@x.com" "0700" none).world
            (.obj [("name", .str "Guest User"), ("email", .str "guest@mmakwany.co.ke"),
              ("phone", .str "+254 700 000 000"), ("avatar", .str "")]) = .ok m ∧
        m.name = .str ("Ann " ++ String.singleton doubleQuote ++ "Bee") ∧
        m.avatar = .str "" ∧
        profNameValue m = some "Ann " ∧
        "Ann " ≠ "Ann " ++ String.singleton doubleQuote ++ "Bee" := by
  refine ⟨by decide, _, rfl, rfl, rfl, ?_, by decide⟩
  decide

/-- C27 (amended): after an accepted save, reopening the profile dialog
computes the saved (trimmed) name and email, and the saved phone when that is
not empty, else the phone of `defaultProfile` (the phone stored at page load if
truthy, else `+254 700 000 000`); the avatar is the uploaded image, or empty
when none was uploaded and none was stored.  The values are spliced unescaped
into `value="..."`: a text is shown cut at its first double quote, and the
fields drop newlines (the email field also outer white space).  When the
avatar text stays inside its attribute and the saved name holds no double
quote, `&`, U+0000 or newline, the name field holds exactly the saved name;
when the saved email is free of them too, the email field holds exactly the
saved email, and the phone field holds the saved phone when that is not empty
and free of them, and otherwise, for a saved empty phone, the phone text stored
at page load when that is not empty and free of them, or `+254 700 000 000`
when no truthy phone was stored at page load. -/
theorem profile_save_reload (w0 w : World) (defaults p : Val)
    (nameInput emailInput phoneInput : String) (uploaded : Option String)
    (hd : defaultProfile w0 = .ok defaults)
    (hvalid : profileInputsValid nameInput emailInput = true) :
    ∃ m, openProfileModal
          (saveProfileClick w p nameInput emailInput phoneInput uploaded).world defaults =
        .ok m ∧
      m.name = .str (jsTrim nameInput) ∧
      m.email = .str (jsTrim emailInput) ∧
      (jsTrim phoneInput ≠ "" → m.phone = .str (jsTrim phoneInput)) ∧
      (jsTrim phoneInput = "" → m.phone = member defaults "phone") ∧
      m.phone ≠ .str "" ∧
      (∃ profile0, loadProfile w0 = .ok profile0 ∧
        member defaults "phone" =
          jsOr (member profile0 "phone") (.str "+254 700 000 000")) ∧
      (∀ a, uploaded = some a → a ≠ "" → m.avatar = .str a) ∧
      (uploaded = none → truthy (member p "avatar") = false → m.avatar = .str "") ∧
      (∀ s t : String, (∀ c ∈ s.data, c ≠ doubleQuote ∧ c ≠ '&' ∧ c.toNat ≠ 0) →
        splicedAttribute s = some s ∧
        splicedAttribute (s ++ String.singleton doubleQuote ++ t) = some s) ∧
      (splicedAttribute "R&amp;D" = none ∧ stripNewlines "Ann\r\nLee" = "AnnLee" ∧
        sanitizeEmail " ann@x.com\n " = "ann@x.com" ∧ sanitizeEmail "a b@x.com" = "a b@x.com") ∧
      (avatarMarkupClosed m = true →
        (∀ c ∈ (jsTrim nameInput).data,
          c ≠ doubleQuote ∧ c ≠ '&' ∧ c.toNat ≠ 0 ∧ c.toNat ≠ 10 ∧ c.toNat ≠ 13) →
        profNameValue m = some (jsTrim nameInput) ∧
        ((∀ c ∈ (jsTrim emailInput).data,
            c ≠ doubleQuote ∧ c ≠ '&' ∧ c.toNat ≠ 0 ∧ c.toNat ≠ 10 ∧ c.toNat ≠ 13) →
          profEmailValue m = some (jsTrim emailInput) ∧
          (jsTrim phoneInput ≠ "" →
            (∀ c ∈ (jsTrim phoneInput).data,
              c ≠ doubleQuote ∧ c ≠ '&' ∧ c.toNat ≠ 0 ∧ c.toNat ≠ 10 ∧ c.toNat ≠ 13) →
            profPhoneValue m = some (jsTrim phoneInput)) ∧
          (jsTrim phoneInput = "" →
            (∀ profile0 t, loadProfile w0 = .ok profile0 →
              member profile0 "phone" = .str t → t ≠ "" →
              (∀ c ∈ t.data,
                c ≠ doubleQuote ∧ c ≠ '&' ∧ c.toNat ≠ 0 ∧ c.toNat ≠ 10 ∧ c.toNat ≠ 13) →
              profPhoneValue m = some t) ∧
            (∀ profile0, loadProfile w0 = .ok profile0 →
              truthy (member profile0 "phone") = false →
              profPhoneValue m = some "+254 700 000 000")))) := by
  -- what the page load computed
  have hdef : ∃ profile0, loadProfile w0 = .ok profile0 ∧
      member defaults "phone" = jsOr (member profile0 "phone") (.str "+254 700 000 000") := by
    cases hl : loadProfile w0 with
    | error e => simp [defaultProfile, hl] at hd
    | ok profile0 =>
      cases hr : readProp profile0 "name" with
      | error e => simp [defaultProfile, hl, hr] at hd
      | ok nm =>
        simp only [defaultProfile, hl, hr, Except.ok.injEq] at hd
        refine ⟨profile0, rfl, ?_⟩
        rw [← hd]
        simp [member, getProp]
  obtain ⟨profile0, hl0, hphone⟩ := hdef
  have hdt : truthy (member defaults "phone") = true := by
    rw [hphone]; exact truthy_jsOr_str _ _ (by decide)
  -- what the save stored
  obtain ⟨h1, h2, h3⟩ : jsTrim nameInput ≠ "" ∧ jsTrim emailInput ≠ "" ∧
      '@' ∈ (jsTrim emailInput).data := by
    simpa [profileInputsValid] using hvalid
  have hu : ∀ ps, isUndefined (Val.obj ps) = false := fun _ => rfl
  have hav : isUndefined (jsOr (jsOr (dataAttr uploaded) (member p "avatar")) (.str "")) =
      false := isUndefined_jsOr _ _
  have hsto : getItem (saveProfileClick w p nameInput emailInput phoneInput
      uploaded).world.storage PROFILE_KEY =
      some (.wellFormed (.obj [("name", .str (jsTrim nameInput)),
        ("email", .str (jsTrim emailInput)), ("phone", .str (jsTrim phoneInput)),
        ("avatar", jsonClean (jsOr (jsOr (dataAttr uploaded) (member p "avatar"))
          (.str "")))])) := by
    have hs : ∀ t, isUndefined (Val.str t) = false := fun _ => rfl
    simp [saveProfileClick, h1, h2, h3, getItem_setItem_same, stringify, savedProfile, hu,
      jsonClean, cleanProps, hs, hav]
  have hopen : openProfileModal
      (saveProfileClick w p nameInput emailInput phoneInput uploaded).world defaults =
      .ok { p := .obj [("name", .str (jsTrim nameInput)),
              ("email", .str (jsTrim emailInput)), ("phone", .str (jsTrim phoneInput)),
              ("avatar", jsonClean (jsOr (jsOr (dataAttr uploaded) (member p "avatar"))
                (.str "")))],
            name := .str (jsTrim nameInput),
            email := .str (jsTrim emailInput),
            phone := jsOr (.str (jsTrim phoneInput)) (member defaults "phone"),
            avatar := jsOr (jsonClean (jsOr (jsOr (dataAttr uploaded) (member p "avatar"))
                (.str ""))) (.str "") } := by
    simp [openProfileModal, loadProfile, hsto, readProp, member, getProp, jsOr, truthy, h1, h2]
  refine ⟨_, hopen, rfl, rfl, ?_, ?_, ?_, ⟨profile0, hl0, hphone⟩, ?_, ?_, ?_,
    ⟨by decide, by decide, by decide, by decide⟩, ?_⟩
  · intro hne
    simp [jsOr, truthy, hne]
  · intro he
    simp [jsOr, truthy, he]
  · by_cases he : jsTrim phoneInput = ""
    · simp only [jsOr, truthy, he]
      intro hc
      simp at hc
      rw [hc] at hdt
      simp [truthy] at hdt
    · simp [jsOr, truthy, he]
  · intro a ha hne
    subst ha
    simp [dataAttr, jsOr, truthy, hne, jsonClean]
  · intro hnone hfalsy
    subst hnone
    have e1 : jsOr (dataAttr none) (member p "avatar") = member p "avatar" := by
      simp [dataAttr, jsOr, truthy]
    have e2 : jsOr (member p "avatar") (.str "") = .str "" := by
      rw [jsOr, if_neg (by simp [hfalsy])]
    show jsOr (jsonClean (jsOr (jsOr (dataAttr none) (member p "avatar")) (.str "")))
      (.str "") = .str ""
    rw [e1, e2]
    simp [jsonClean, jsOr, truthy]
  · intro s t hs
    exact ⟨splicedAttribute_of_plain s hs, splicedAttribute_cut s t hs⟩
  · intro hclosed hname
    have hnq : ∀ (s : String), (∀ c ∈ s.data, c ≠ doubleQuote ∧ c ≠ '&' ∧ c.toNat ≠ 0 ∧
        c.toNat ≠ 10 ∧ c.toNat ≠ 13) → staysInAttribute (.str s) = true := by
      intro s hs
      simp only [staysInAttribute, toText, Bool.not_eq_true', List.contains_eq_any_beq,
        List.any_eq_false]
      intro c hc
      simpa using fun e => (hs c hc).1 e.symm
    have hshow : ∀ (s : String), (∀ c ∈ s.data, c ≠ doubleQuote ∧ c ≠ '&' ∧ c.toNat ≠ 0 ∧
        c.toNat ≠ 10 ∧ c.toNat ≠ 13) →
        (splicedAttribute s).map stripNewlines = some s := by
      intro s hs
      rw [splicedAttribute_of_plain s (fun c hc => ⟨(hs c hc).1, (hs c hc).2.1, (hs c hc).2.2.1⟩)]
      simp [stripNewlines_of_plain s (fun c hc => ⟨(hs c hc).2.2.2.1, (hs c hc).2.2.2.2⟩)]
    refine ⟨?_, ?_⟩
    · simp only [profNameValue, hclosed, if_true, toText]
      exact hshow _ hname
    · intro hemail
      have hpre2 : (avatarMarkupClosed
          { p := .obj [("name", .str (jsTrim nameInput)),
              ("email", .str (jsTrim emailInput)), ("phone", .str (jsTrim phoneInput)),
              ("avatar", jsonClean (jsOr (jsOr (dataAttr uploaded) (member p "avatar"))
                (.str "")))],
            name := .str (jsTrim nameInput),
            email := .str (jsTrim emailInput),
            phone := jsOr (.str (jsTrim phoneInput)) (member defaults "phone"),
            avatar := jsOr (jsonClean (jsOr (jsOr (dataAttr uploaded) (member p "avatar"))
                (.str ""))) (.str "") } &&
          (staysInAttribute (.str (jsTrim nameInput)) &&
            staysInAttribute (.str (jsTrim emailInput)))) = true := by
        rw [hclosed, hnq _ hname, hnq _ hemail]; rfl
      refine ⟨?_, ?_, ?_⟩
      · simp only [profEmailValue, hclosed, hnq _ hname, Bool.and_self, if_true, toText]
        rw [splicedAttribute_of_plain _
          (fun c hc => ⟨(hemail c hc).1, (hemail c hc).2.1, (hemail c hc).2.2.1⟩)]
        simp [sanitizeEmail_jsTrim emailInput
          (fun c hc => ⟨(hemail c hc).2.2.2.1, (hemail c hc).2.2.2.2⟩)]
      · intro hne hph
        simp only [profPhoneValue, hpre2, if_true]
        have : jsOr (.str (jsTrim phoneInput)) (member defaults "phone") =
            .str (jsTrim phoneInput) := by simp [jsOr, truthy, hne]
        rw [this]
        exact hshow _ hph
      · intro he
        have hm : jsOr (.str (jsTrim phoneInput)) (member defaults "phone") =
            member defaults "phone" := by simp [jsOr, truthy, he]
        refine ⟨?_, ?_⟩
        · intro q0 t hq0 hmt htne ht
          rw [hl0] at hq0
          cases hq0
          simp only [profPhoneValue, hpre2, if_true]
          rw [hm, hphone, hmt]
          have : jsOr (.str t) (.str "+254 700 000 000") = .str t := by
            simp [jsOr, truthy, htne]
          rw [this]
          exact hshow _ ht
        · intro q0 hq0 hfalsy
          rw [hl0] at hq0
          cases hq0
          simp only [profPhoneValue, hpre2, if_true]
          rw [hm, hphone]
          have : jsOr (member profile0 "phone") (.str "+254 700 000 000") =
              .str "+254 700 000 000" := by
            simp [jsOr, hfalsy]
          rw [this]
          decide

/-- Witness for C27: a page loaded with empty storage, then a save of
` Ann Lee `, `ann@x.com` and an empty phone with no image: the reopened dialog
shows `Ann Lee`, `ann@x.com` and the default phone. -/
theorem profile_save_reload_witness :
    defaultProfile ⟨[], ""⟩ =
        .ok (.obj [("name", .str "Guest User"), ("email", .str "guest@mmakwany.co.ke"),
          ("phone", .str "+254 700 000 000"), ("avatar", .str "")]) ∧
      profileInputsValid " Ann Lee " "ann@x.com" = true ∧
      ∃ m, openProfileModal (saveProfileClick ⟨[], ""⟩ (.obj []) " Ann Lee " "ann@x.com" "  "
            none).world
          (.obj [("name", .str "Guest User"), ("email", .str "guest@mmakwany.co.ke"),
            ("phone", .str "+254 700 000 000"), ("avatar", .str "")]) = .ok m ∧
        m.name = .str "Ann Lee" ∧
        profNameValue m = some "Ann Lee" ∧
        profEmailValue m = some "ann@x.com" ∧
        profPhoneValue m = some "+254 700 000 000" := by
  obtain ⟨m, hopen, hname, _, _, _, _, _, _, hav, _, _, hshown⟩ :=
    profile_save_reload ⟨[], ""⟩ ⟨[], ""⟩
      (.obj [("name", .str "Guest User"), ("email", .str "guest@mmakwany.co.ke"),
        ("phone", .str "+254 700 000 000"), ("avatar", .str "")]) (.obj []) " Ann Lee "
      "ann@x.com" "  " none rfl (by decide)
  have hclosed : avatarMarkupClosed m = true := by
    rw [avatarMarkupClosed, hav rfl rfl]; decide
  obtain ⟨hn, hrest⟩ := hshown hclosed (by decide)
  obtain ⟨hem, _, hph⟩ := hrest (by decide)
  exact ⟨rfl, by decide, m, hopen, hname, hn, hem, (hph (by decide)).2 (.obj []) rfl rfl⟩

/-- C22 (code at the failing input): an image whose address contains
`aida-public` but neither `googleusercontent` nor `lh3.google`, and whose texts
hold no keyword, is replaced, yet the fallback selector does not list it: its
index is `-1`, `getLocalImage` returns `undefined`, and the source stored is
the text `undefined`, none of the five local paths. -/
theorem aida_public_image_gets_undefined :
    isExternal "https://cdn.example.com/aida-public/hero.png" = true ∧
      fallbackIndex [⟨"https://cdn.example.com/aida-public/hero.png", "", none⟩] 0 = -1 ∧
      getLocalImage [⟨"https://cdn.example.com/aida-public/hero.png", "", none⟩] 0 = none ∧
      (replaceExternalImages
        [⟨"https://cdn.example.com/aida-public/hero.png", "", none⟩]).map (fun i => i.src) =
        ["undefined"] ∧
      "undefined" ∉ localImages := by
  refine ⟨by decide, by decide, by decide, by decide, by decide⟩

/-- C25 (code at the failing input): for an image whose `alt` text is exactly
`boardroom` or `ballroom`, `getLocalImage` returns `images/guest-room.jpeg`,
because the earlier keyword `room` occurs in the text, while `contextMap` gives
`images/conference.jpeg` for both; these two are the only keywords for which
the exact text does not give the path of `contextMap`. -/
theorem boardroom_is_shadowed_by_room :
    getLocalImage [⟨"https://lh3.googleusercontent.com/a", "boardroom", none⟩] 0 =
        some "images/guest-room.jpeg" ∧
      getLocalImage [⟨"https://lh3.googleusercontent.com/a", "ballroom", none⟩] 0 =
        some "images/guest-room.jpeg" ∧
      contextMap.lookup "boardroom" = some "images/conference.jpeg" ∧
      contextMap.lookup "ballroom" = some "images/conference.jpeg" ∧
      (contextMap.filter (fun kv =>
        getLocalImage [⟨"https://lh3.googleusercontent.com/a", kv.1, none⟩] 0 != some kv.2)).map
        Prod.fst = ["ballroom", "boardroom"] := by
  refine ⟨by decide, by decide, by decide, by decide, by decide⟩

theorem countdownTick_of_pos (c : Countdown) (h : 0 < c.totalSeconds) :
    countdownTick c =
      { totalSeconds := c.totalSeconds - 1,
        h := (c.totalSeconds - 1) / 3600,
        m := ((c.totalSeconds - 1) % 3600) / 60,
        s := (c.totalSeconds - 1) % 60 } := by
  have h0 : ¬ c.totalSeconds ≤ 0 := by omega
  have ht : 0 ≤ c.totalSeconds - 1 := by omega
  have e1 : Int.tmod (c.totalSeconds - 1) 3600 = (c.totalSeconds - 1) % 3600 :=
    Int.tmod_eq_emod ht (by decide)
  have e2 : Int.tmod (c.totalSeconds - 1) 60 = (c.totalSeconds - 1) % 60 :=
    Int.tmod_eq_emod ht (by decide)
  simp only [countdownTick, h0, if_false, e1, e2]
  rw [Int.fdiv_eq_ediv _ (by decide : (0 : Int) ≤ 3600),
    Int.fdiv_eq_ediv _ (by decide : (0 : Int) ≤ 60)]

theorem countdownAfter_nonneg (c : Countdown) (h : 0 ≤ c.totalSeconds) (n : Nat) :
    0 ≤ (countdownAfter c n).totalSeconds := by
  induction n with
  | zero => exact h
  | succ n ih =>
    simp only [countdownAfter]
    by_cases h0 : (countdownAfter c n).totalSeconds ≤ 0
    · simp only [countdownTick, h0, if_true]; exact ih
    · rw [countdownTick_of_pos _ (by omega)]
      show 0 ≤ (countdownAfter c n).totalSeconds - 1
      omega

/-- C28: a tick at 0 changes nothing, a counter that starts at 0 or more is
never negative after any number of ticks, and a tick from a positive count
`n` leaves `n - 1` and writes three numbers `h`, `m`, `s` with
`h*3600 + m*60 + s = n - 1`, `0 <= m < 60`, `0 <= s < 60` and `0 <= h`. -/
theorem countdown_tick_encodes (c : Countdown) :
    (c.totalSeconds = 0 → countdownTick c = c) ∧
      (0 ≤ c.totalSeconds → ∀ n, 0 ≤ (countdownAfter c n).totalSeconds) ∧
      (0 < c.totalSeconds →
        (countdownTick c).totalSeconds = c.totalSeconds - 1 ∧
        (countdownTick c).h * 3600 + (countdownTick c).m * 60 + (countdownTick c).s =
          c.totalSeconds - 1 ∧
        0 ≤ (countdownTick c).m ∧ (countdownTick c).m < 60 ∧
        0 ≤ (countdownTick c).s ∧ (countdownTick c).s < 60 ∧
        0 ≤ (countdownTick c).h) := by
  refine ⟨?_, countdownAfter_nonneg c, ?_⟩
  · intro h
    simp [countdownTick, h]
  · intro h
    rw [countdownTick_of_pos c h]
    dsimp only
    refine ⟨rfl, ?_, ?_, ?_, ?_, ?_, ?_⟩ <;> omega

/-- Witness for C28: a tick from 3725 seconds writes 1 h, 2 min, 4 s. -/
theorem countdown_tick_encodes_witness :
    (0 : Int) < 3725 ∧
      (countdownTick ⟨3725, 1, 2, 5⟩).h * 3600 + (countdownTick ⟨3725, 1, 2, 5⟩).m * 60 +
        (countdownTick ⟨3725, 1, 2, 5⟩).s = 3725 - 1 :=
  ⟨by decide, ((countdown_tick_encodes ⟨3725, 1, 2, 5⟩).2.2 (by decide)).2.1⟩

theorem kpiAfter_eq (target : Nat) (h0 : 0 < target) (n : Nat) :
    kpiAfter target n =
      if n * kpiStep target < target then { current := n * kpiStep target, running := true }
      else { current := target, running := false } := by
  induction n with
  | zero =>
    simp [kpiAfter, h0]
  | succ n ih =>
    have hs : (n + 1) * kpiStep target = n * kpiStep target + kpiStep target := by
      rw [Nat.succ_mul]
    simp only [kpiAfter, ih]
    by_cases h : n * kpiStep target < target
    · by_cases h2 : n * kpiStep target + kpiStep target < target
      · have h3 : ¬ n * kpiStep target + kpiStep target ≥ target := by omega
        simp [kpiTick, h, hs, h2, h3]
      · have h3 : n * kpiStep target + kpiStep target ≥ target := by omega
        simp [kpiTick, h, hs, h2, h3]
    · have h2 : ¬ n * kpiStep target + kpiStep target < target := by omega
      simp [kpiTick, h, hs, h2]

/-- C29: for a target with `0 < target < 1000000` and step
`ceil(target / 40)`, the value displayed never exceeds the target, each tick of
the running interval displays a greater value than the one before, and after
some number `k <= 40` of ticks the value is the target and the interval is
cleared: it was running before tick `k` and nothing changes after it. -/
theorem kpi_animation_reaches_target (target : Nat) (h0 : 0 < target)
    (h1 : target < 1000000) :
    kpiStep target * 40 ≥ target ∧ 1 ≤ kpiStep target ∧
      (∀ n, (kpiAfter target n).current ≤ target) ∧
      (∀ n, (kpiAfter target n).running = true →
        (kpiAfter target n).current < (kpiAfter target (n + 1)).current) ∧
      (∃ k, 1 ≤ k ∧ k ≤ 40 ∧ (kpiAfter target k).current = target ∧
        (kpiAfter target k).running = false ∧
        (∀ j, j < k → (kpiAfter target j).running = true ∧
          (kpiAfter target j).current < target) ∧
        (∀ j, k ≤ j → kpiAfter target j = kpiAfter target k)) := by
  have hstep40 : kpiStep target * 40 ≥ target := by
    unfold kpiStep; omega
  have hstep1 : 1 ≤ kpiStep target := by
    unfold kpiStep; omega
  have hex : ∃ n, ¬ n * kpiStep target < target := ⟨40, by rw [Nat.mul_comm]; omega⟩
  refine ⟨hstep40, hstep1, ?_, ?_, ?_⟩
  · intro n
    rw [kpiAfter_eq target h0 n]
    split
    · rename_i h; exact Nat.le_of_lt h
    · exact Nat.le_refl _
  · intro n hr
    rw [kpiAfter_eq target h0 n] at hr ⊢
    rw [kpiAfter_eq target h0 (n + 1)]
    by_cases h : n * kpiStep target < target
    · simp only [h, if_true]
      split
      · show n * kpiStep target < (n + 1) * kpiStep target
        rw [Nat.succ_mul]; omega
      · exact h
    · simp [h] at hr
  · refine ⟨Nat.find hex, ?_, ?_, ?_, ?_, ?_, ?_⟩
    · rcases Nat.eq_zero_or_pos (Nat.find hex) with hz | hp
      · have := Nat.find_spec hex
        rw [hz] at this
        simp at this
        omega
      · exact hp
    · exact Nat.find_min' hex (by rw [Nat.mul_comm]; omega)
    · rw [kpiAfter_eq target h0, if_neg (Nat.find_spec hex)]
    · rw [kpiAfter_eq target h0, if_neg (Nat.find_spec hex)]
    · intro j hj
      have hlt : j * kpiStep target < target := by
        have := Nat.find_min hex hj
        exact not_not.1 this
      rw [kpiAfter_eq target h0]
      simp [hlt]
    · intro j hj
      have hk := Nat.find_spec hex
      have hjn : ¬ j * kpiStep target < target := by
        have : Nat.find hex * kpiStep target ≤ j * kpiStep target :=
          Nat.mul_le_mul_right _ hj
        omega
      rw [kpiAfter_eq target h0, kpiAfter_eq target h0, if_neg hk, if_neg hjn]

/-- Witness for C29: the target 1234, whose step is 31. -/
theorem kpi_animation_reaches_target_witness :
    (0 < 1234 ∧ 1234 < 1000000) ∧ ∀ n, (kpiAfter 1234 n).current ≤ 1234 :=
  ⟨⟨by decide, by decide⟩,
    (kpi_animation_reaches_target 1234 (by decide) (by decide)).2.2.1⟩

end Mmakwany
